import Mathlib

/-!
# Rigid body transformations and node solver of iDyn (iDynBody.cpp)

A shallow embedding of `src/libraries/iDyn/src/iDynBody.cpp`.

* Scalars (`double` in the source) are elements of an arbitrary commutative
  ring `α`, so every statement is about exact arithmetic.
* `yarp::sig::Vector` and `yarp::sig::Matrix` are resizable containers of the
  YARP library; they are embedded as lists with explicit row and column counts,
  so that wrongly sized arguments can be expressed. Element reads outside the
  stored range give 0; the theorems assume the sizes the source works with.
* Diagnostic output on `cerr` is not part of the state and is left out.
* Member functions become functions from the old object to the new one
  (plus the returned value); calls into limbs and sensors go through an
  explicit world.
* Loop counters of type `unsigned int` are natural numbers reduced modulo `2 ^ 32`.
-/

namespace Yarp

/-- A vector of the library (`yarp::sig::Vector`): a resizable sequence of scalars. -/
abbrev Vector (α : Type) : Type := List α

/-- A matrix of the library (`yarp::sig::Matrix`): row count, column count and the entries by
rows. -/
structure Matrix (α : Type) where
  rows : Nat
  cols : Nat
  data : List (List α)
deriving DecidableEq

namespace Vector

variable {α : Type}

/-- Element access `v[i]` (reads 0 outside the stored range). -/
def get [Zero α] (v : Vector α) (i : Nat) : α := v.getD i 0

/-- The library assignment `v = s` of a scalar `s`: every element becomes `s`, the length is
kept. -/
def assignScalar (v : Vector α) (s : α) : Vector α := List.replicate v.length s

/-- The operator `a + b` on vectors (elementwise). -/
def add [Add α] (a b : Vector α) : Vector α := List.zipWith (fun x y => x + y) a b

/-- The operator `a - b` on vectors (elementwise). -/
def sub [Sub α] (a b : Vector α) : Vector α := List.zipWith (fun x y => x - y) a b

end Vector

namespace Matrix

variable {α : Type}

/-- The matrix with `r` rows and `c` columns whose entry `(i, j)` is `f i j`. -/
def ofFn (r c : Nat) (f : Nat → Nat → α) : Matrix α :=
  { rows := r, cols := c, data := (List.range r).map fun i => (List.range c).map fun j => f i j }

/-- Element access `m(i, j)` (reads 0 outside the stored range). -/
def get [Zero α] (m : Matrix α) (i j : Nat) : α := (m.data.getD i []).getD j 0

/-- The data has exactly `rows` rows of `cols` entries each. -/
def WellFormed (m : Matrix α) : Prop :=
  m.data.length = m.rows ∧ ∀ row ∈ m.data, row.length = m.cols

instance (m : Matrix α) : Decidable m.WellFormed := by
  unfold WellFormed; exact inferInstance

/-- The library call `m.resize(r, c)`: new shape, the overlapping entries are kept, the rest
is 0. -/
def resize [Zero α] (m : Matrix α) (r c : Nat) : Matrix α :=
  if m.rows = r ∧ m.cols = c then m
  else ofFn r c fun i j => if i < m.rows ∧ j < m.cols then m.get i j else 0

/-- The library call `m.eye()`: same shape, 1 on the main diagonal and 0 elsewhere. -/
def eye [Zero α] [One α] (m : Matrix α) : Matrix α :=
  ofFn m.rows m.cols fun i j => if i = j then 1 else 0

/-- The library call `m.submatrix(r1, r2, c1, c2)`: rows `r1..r2` and columns `c1..c2`, bounds
included. -/
def submatrix [Zero α] (m : Matrix α) (r1 r2 c1 c2 : Nat) : Matrix α :=
  ofFn (r2 - r1 + 1) (c2 - c1 + 1) fun i j => m.get (r1 + i) (c1 + j)

/-- The library call `m.getCol(c)`: column `c` as a vector of length `rows`. -/
def getCol [Zero α] (m : Matrix α) (c : Nat) : Vector α :=
  (List.range m.rows).map fun i => m.get i c

/-- The library call `m.transposed()`. -/
def transposed [Zero α] (m : Matrix α) : Matrix α :=
  ofFn m.cols m.rows fun i j => m.get j i

/-- The operator `k * m` of a scalar and a matrix. -/
def smul [Zero α] [Mul α] (k : α) (m : Matrix α) : Matrix α :=
  ofFn m.rows m.cols fun i j => k * m.get i j

/-- The operator `m * v` of a matrix and a vector: one dot product per row. -/
def mulVec [Zero α] [Add α] [Mul α] (m : Matrix α) (v : Vector α) : Vector α :=
  (List.range m.rows).map fun i =>
    ((List.range m.cols).map fun j => m.get i j * Vector.get v j).foldl (fun x y => x + y) 0

/-- The library constructor `Matrix(r, c)` followed by `zero()`: an `r` by `c` matrix of
zeros. -/
def zeros [Zero α] (r c : Nat) : Matrix α := ofFn r c fun _ _ => 0

/-- The library constructor `Matrix(0, 0)`: the empty matrix. -/
def empty : Matrix α := { rows := 0, cols := 0, data := [] }

/-- The library call `m.setCol(c, v)`: column `c` takes the elements of `v`, the rest is
kept. -/
def setCol [Zero α] (m : Matrix α) (c : Nat) (v : Vector α) : Matrix α :=
  ofFn m.rows m.cols fun i j => if j = c then Vector.get v i else m.get i j

end Matrix

end Yarp

namespace ctrl

variable {α : Type}

/-- Modelled from the spec: `ctrl::cross(a, b)`, declared in ctrlMath.h ("returns the cross
product between two vectors", `axb`) with its body in ctrlMath.cpp, which is not under src/. -/
def cross [Zero α] [Sub α] [Mul α] (a b : Yarp.Vector α) : Yarp.Vector α :=
  [ Yarp.Vector.get a 1 * Yarp.Vector.get b 2 - Yarp.Vector.get a 2 * Yarp.Vector.get b 1,
    Yarp.Vector.get a 2 * Yarp.Vector.get b 0 - Yarp.Vector.get a 0 * Yarp.Vector.get b 2,
    Yarp.Vector.get a 0 * Yarp.Vector.get b 1 - Yarp.Vector.get a 1 * Yarp.Vector.get b 0 ]

end ctrl

namespace iDyn

variable {α W : Type}

/-- Modelled from the spec: the flow direction enumeration `FlowType` of iDynBody.h (not under
src/): a limb either supplies a quantity to the node or receives it from the node. -/
inductive FlowType where
  | RBT_NODE_IN
  | RBT_NODE_OUT
deriving DecidableEq

/-- Modelled from the spec: the dynamics mode enumeration `NewEulMode` of iDyn.h (not under
src/): static, dynamic, dynamic with Coriolis and gravity, dynamic with rotor. -/
inductive NewEulMode where
  | STATIC
  | DYNAMIC
  | DYNAMIC_W_ROTOR
  | DYNAMIC_CORIOLIS_GRAVITY
deriving DecidableEq

/-- Modelled from the spec: the default value of the argument `proj` of
`RigidBodyTransformation::getr`, declared in iDynBody.h (not under src/). The wrench formulas
call `getr()` without argument and use the translation column of `H` as it is. -/
def getrDefaultProj : Bool := false

/-- Modelled from the spec: the limb collaborator (class `iDynLimb`, iDyn.h) and the sensor
collaborator (class `iDynSensor`), neither under src/. The objects RBTs and nodes point to live
in a world `W`; a limb or sensor is named by a number. `init*` and `setSensorMeasures` accept a
boundary condition and answer whether it was valid, `compute*` runs the internal recursion, and
`get*` writes the boundary result into the vectors passed by reference. -/
structure Collaborators (α W : Type) where
  initKinematicNewtonEuler :
    W → Nat → Yarp.Vector α → Yarp.Vector α → Yarp.Vector α → Bool × W
  computeKinematicNewtonEuler : W → Nat → W
  getKinematicNewtonEuler :
    W → Nat → Yarp.Vector α × Yarp.Vector α × Yarp.Vector α →
      (Yarp.Vector α × Yarp.Vector α × Yarp.Vector α) × W
  initWrenchNewtonEuler : W → Nat → Yarp.Vector α → Yarp.Vector α → Bool × W
  computeWrenchNewtonEuler : W → Nat → W
  getWrenchNewtonEuler :
    W → Nat → Yarp.Vector α × Yarp.Vector α → (Yarp.Vector α × Yarp.Vector α) × W
  setSensorMeasures : W → Nat → Yarp.Vector α → Yarp.Vector α → Bool × W
  computeWrenchFromSensorNewtonEuler : W → Nat → W

/-- The class `RigidBodyTransformation`. The limb is not owned: `limb` is the name of an
object living in the collaborators' world. -/
structure RigidBodyTransformation (α : Type) where
  limb : Nat
  kinFlow : FlowType
  wreFlow : FlowType
  mode : NewEulMode
  info : String
  hasSensor : Bool
  F : Yarp.Vector α
  Mu : Yarp.Vector α
  w : Yarp.Vector α
  dw : Yarp.Vector α
  ddp : Yarp.Vector α
  H : Yarp.Matrix α
deriving DecidableEq

namespace RigidBodyTransformation

/-- The member function `setRBT`: returns the flag and the updated object. -/
def setRBT [Zero α] [One α] (self : RigidBodyTransformation α) (_H : Yarp.Matrix α) :
    Bool × RigidBodyTransformation α :=
  if _H.cols = 4 ∧ _H.rows = 4 then
    (true, { self with H := _H })
  else
    (false, { self with H := (self.H.resize 4 4).eye })

/-- The member function `getRBT`. -/
def getRBT (self : RigidBodyTransformation α) : Yarp.Matrix α := self.H

/-- The member function `getR`: the upper-left 3x3 block of `H`. -/
def getR [CommRing α] (self : RigidBodyTransformation α) : Yarp.Matrix α :=
  self.H.submatrix 0 2 0 2

/-- The member function `getr`: the translation column of `H`, or with `proj` its projection
`-1.0 * getR().transposed() * t`. -/
def getr [CommRing α] (self : RigidBodyTransformation α) (proj : Bool) : Yarp.Vector α :=
  if proj = false then
    (self.H.submatrix 0 2 0 3).getCol 3
  else
    (Yarp.Matrix.smul (-1) self.getR.transposed).mulVec ((self.H.submatrix 0 2 0 3).getCol 3)

/-- The member function `setInfoFlow`. -/
def setInfoFlow (self : RigidBodyTransformation α) (kin wre : FlowType) :
    RigidBodyTransformation α :=
  { self with kinFlow := kin, wreFlow := wre }

/-- The member function `computeKinematic`: the assignments are made in the order of the
source, each one reading the object as the previous one left it. -/
def computeKinematic [CommRing α] (self : RigidBodyTransformation α) :
    RigidBodyTransformation α :=
  if self.kinFlow = FlowType.RBT_NODE_IN then
    match self.mode with
    | NewEulMode.DYNAMIC | NewEulMode.DYNAMIC_CORIOLIS_GRAVITY | NewEulMode.DYNAMIC_W_ROTOR =>
      let s1 := { self with
        ddp := self.getR.mulVec
          (Yarp.Vector.sub (Yarp.Vector.sub self.ddp (ctrl.cross self.dw (self.getr true)))
            (ctrl.cross self.w (ctrl.cross self.w (self.getr true)))) }
      let s2 := { s1 with w := s1.getR.mulVec s1.w }
      { s2 with dw := s2.getR.mulVec s2.dw }
    | NewEulMode.STATIC =>
      let s1 := { self with w := Yarp.Vector.assignScalar self.w 0 }
      let s2 := { s1 with dw := Yarp.Vector.assignScalar s1.dw 0 }
      { s2 with ddp := s2.getR.mulVec s2.ddp }
  else
    match self.mode with
    | NewEulMode.DYNAMIC | NewEulMode.DYNAMIC_CORIOLIS_GRAVITY | NewEulMode.DYNAMIC_W_ROTOR =>
      let s1 := { self with
        ddp := self.getR.transposed.mulVec
          (Yarp.Vector.add (Yarp.Vector.add self.ddp (ctrl.cross self.dw (self.getr true)))
            (ctrl.cross self.w (ctrl.cross self.w (self.getr true)))) }
      let s2 := { s1 with w := s1.getR.transposed.mulVec s1.w }
      { s2 with dw := s2.getR.transposed.mulVec s2.dw }
    | NewEulMode.STATIC =>
      let s1 := { self with w := Yarp.Vector.assignScalar self.w 0 }
      let s2 := { s1 with dw := Yarp.Vector.assignScalar s1.dw 0 }
      { s2 with ddp := s2.getR.transposed.mulVec s2.ddp }

/-- The member function `computeWrench`: `Mu` is assigned first and reads the old `F`. -/
def computeWrench [CommRing α] (self : RigidBodyTransformation α) :
    RigidBodyTransformation α :=
  if self.wreFlow = FlowType.RBT_NODE_IN then
    let s1 := { self with
      Mu := Yarp.Vector.add (ctrl.cross (self.getr getrDefaultProj) (self.getR.mulVec self.F))
        (self.getR.mulVec self.Mu) }
    { s1 with F := s1.getR.mulVec s1.F }
  else
    let s1 := { self with
      Mu := self.getR.transposed.mulVec
        (Yarp.Vector.sub self.Mu
          (ctrl.cross (self.getr getrDefaultProj) (self.getR.mulVec self.F))) }
    { s1 with F := s1.getR.transposed.mulVec s1.F }

/-- The member function `computeLimbKinematic`. -/
def computeLimbKinematic (ops : Collaborators α W) (self : RigidBodyTransformation α)
    (world : W) : W :=
  ops.computeKinematicNewtonEuler world self.limb

/-- The member function `getKinematic`: the updated RBT, the values written to
`(wNode, dwNode, ddpNode)` and the world. -/
def getKinematic [CommRing α] (ops : Collaborators α W) (self : RigidBodyTransformation α)
    (world : W) :
    RigidBodyTransformation α × (Yarp.Vector α × Yarp.Vector α × Yarp.Vector α) × W :=
  let r := ops.getKinematicNewtonEuler world self.limb (self.w, self.dw, self.ddp)
  let s1 := { self with w := r.1.1, dw := r.1.2.1, ddp := r.1.2.2 }
  let s2 := s1.computeKinematic
  (s2, (s2.w, s2.dw, s2.ddp), r.2)

/-- The member function `setKinematic`: the limb's answer, the updated RBT and the world. -/
def setKinematic [CommRing α] (ops : Collaborators α W) (self : RigidBodyTransformation α)
    (wNode dwNode ddpNode : Yarp.Vector α) (world : W) :
    Bool × RigidBodyTransformation α × W :=
  let s1 := { self with w := wNode, dw := dwNode, ddp := ddpNode }
  let s2 := s1.computeKinematic
  let r := ops.initKinematicNewtonEuler world s2.limb s2.w s2.dw s2.ddp
  (r.1, s2, r.2)

end RigidBodyTransformation

/-- The class `iDynNode`: the RBTs in attachment order and the aggregate state. -/
structure iDynNode (α : Type) where
  rbtList : List (RigidBodyTransformation α)
  mode : NewEulMode
  info : String
  verbose : Nat
  w : Yarp.Vector α
  dw : Yarp.Vector α
  ddp : Yarp.Vector α
  F : Yarp.Vector α
  Mu : Yarp.Vector α
deriving DecidableEq

/-- The first loop of `iDynNode::solveKinematics`, over the RBTs still to visit: every RBT with
kinematic flow NODE_IN has its limb computed and its kinematics read into the node's
`(w, dw, ddp)`, and `inputNode` (an `unsigned int`) is incremented. Returns the visited RBTs,
the node's `(w, dw, ddp)`, the world and `inputNode`. -/
def solveKinematicsInputs [CommRing α] (ops : Collaborators α W) :
    List (RigidBodyTransformation α) → Yarp.Vector α × Yarp.Vector α × Yarp.Vector α → W → Nat →
      List (RigidBodyTransformation α) × (Yarp.Vector α × Yarp.Vector α × Yarp.Vector α) × W × Nat
  | [], k, world, inputNode => ([], k, world, inputNode)
  | rbt :: rest, k, world, inputNode =>
    if rbt.kinFlow = FlowType.RBT_NODE_IN then
      let world1 := rbt.computeLimbKinematic ops world
      let g := rbt.getKinematic ops world1
      let r := solveKinematicsInputs ops rest g.2.1 g.2.2 ((inputNode + 1) % 2 ^ 32)
      (g.1 :: r.1, r.2)
    else
      let r := solveKinematicsInputs ops rest k world inputNode
      (rbt :: r.1, r.2)

/-- The second loop of `iDynNode::solveKinematics`: every RBT with kinematic flow NODE_OUT is
given the node's `(w, dw, ddp)` through `setKinematic` (whose answer is dropped) and has its
limb computed. -/
def solveKinematicsOutputs [CommRing α] (ops : Collaborators α W)
    (k : Yarp.Vector α × Yarp.Vector α × Yarp.Vector α) :
    List (RigidBodyTransformation α) → W → List (RigidBodyTransformation α) × W
  | [], world => ([], world)
  | rbt :: rest, world =>
    if rbt.kinFlow = FlowType.RBT_NODE_OUT then
      let s := rbt.setKinematic ops k.1 k.2.1 k.2.2 world
      let world2 := s.2.1.computeLimbKinematic ops s.2.2
      let r := solveKinematicsOutputs ops k rest world2
      (s.2.1 :: r.1, r.2)
    else
      let r := solveKinematicsOutputs ops k rest world
      (rbt :: r.1, r.2)

/-- The member function `iDynNode::solveKinematics()`: the returned flag, the node after the
call and the world. -/
def iDynNode.solveKinematics [CommRing α] (ops : Collaborators α W) (self : iDynNode α)
    (world : W) : Bool × iDynNode α × W :=
  let scan := solveKinematicsInputs ops self.rbtList (self.w, self.dw, self.ddp) world 0
  let node1 := { self with
    rbtList := scan.1, w := scan.2.1.1, dw := scan.2.1.2.1, ddp := scan.2.1.2.2 }
  if scan.2.2.2 = 1 then
    let out := solveKinematicsOutputs ops (node1.w, node1.dw, node1.ddp) node1.rbtList scan.2.2.1
    (true, { node1 with rbtList := out.1 }, out.2)
  else
    (false, node1, scan.2.2.1)

/-! ## The wrench side of an RBT -/

/-- The member function `computeLimbWrench`. -/
def RigidBodyTransformation.computeLimbWrench (ops : Collaborators α W)
    (self : RigidBodyTransformation α) (world : W) : W :=
  ops.computeWrenchNewtonEuler world self.limb

/-- The member function `getWrench`: the updated RBT, the values left in `(FNode, MuNode)`,
which are passed by reference and arrive holding `FNode`, `MuNode`, and the world. -/
def RigidBodyTransformation.getWrench [CommRing α] (ops : Collaborators α W)
    (self : RigidBodyTransformation α) (FNode MuNode : Yarp.Vector α) (world : W) :
    RigidBodyTransformation α × (Yarp.Vector α × Yarp.Vector α) × W :=
  let r := ops.getWrenchNewtonEuler world self.limb (self.F, self.Mu)
  let s1 := { self with F := r.1.1, Mu := r.1.2 }
  let s2 := s1.computeWrench
  (s2, (Yarp.Vector.add FNode s2.F, Yarp.Vector.add MuNode s2.Mu), r.2)

/-- The member function `setWrench`: the limb's answer, the updated RBT and the world. -/
def RigidBodyTransformation.setWrench [CommRing α] (ops : Collaborators α W)
    (self : RigidBodyTransformation α) (FNode MuNode : Yarp.Vector α) (world : W) :
    Bool × RigidBodyTransformation α × W :=
  let s1 := { self with F := FNode, Mu := MuNode }
  let s2 := s1.computeWrench
  let r := ops.initWrenchNewtonEuler world s2.limb s2.F s2.Mu
  (r.1, s2, r.2)

/-- The member function `setWrenchMeasure(F0, Mu0)` of an RBT: the limb's answer, the RBT
after the call and the world. -/
def RigidBodyTransformation.setWrenchMeasure (ops : Collaborators α W)
    (self : RigidBodyTransformation α) (F0 Mu0 : Yarp.Vector α) (world : W) :
    Bool × RigidBodyTransformation α × W :=
  let r := ops.initWrenchNewtonEuler world self.limb F0 Mu0
  (r.1, self, r.2)

/-- The member function `setKinematicMeasure(w0, dw0, ddp0)` of an RBT: the limb's answer, the
RBT after the call and the world. -/
def RigidBodyTransformation.setKinematicMeasure (ops : Collaborators α W)
    (self : RigidBodyTransformation α) (w0 dw0 ddp0 : Yarp.Vector α) (world : W) :
    Bool × RigidBodyTransformation α × W :=
  let r := ops.initKinematicNewtonEuler world self.limb w0 dw0 ddp0
  (r.1, self, r.2)

/-- The member function `setWrenchMeasure(sensor, Fsens, Musens)` of an RBT: the sensor's
answer, the RBT after the call and the world; nothing when the sensor pointer is null. -/
def RigidBodyTransformation.setWrenchMeasureSensor (ops : Collaborators α W)
    (self : RigidBodyTransformation α) (sensor : Option Nat) (Fsens Musens : Yarp.Vector α)
    (world : W) : Option (Bool × RigidBodyTransformation α × W) :=
  sensor.map fun s =>
    let r := ops.setSensorMeasures world s Fsens Musens
    (r.1, self, r.2)

/-! ## The wrench protocol of a node -/

/-- The first loop of `iDynNode::solveWrench`: every RBT with wrench flow NODE_IN has its limb
computed and its wrench added to the node's `(F, Mu)`, and `outputNode` (an `unsigned int`) is
incremented. Returns the visited RBTs, the node's `(F, Mu)`, the world and `outputNode`. -/
def solveWrenchInputs [CommRing α] (ops : Collaborators α W) :
    List (RigidBodyTransformation α) → Yarp.Vector α × Yarp.Vector α → W → Nat →
      List (RigidBodyTransformation α) × (Yarp.Vector α × Yarp.Vector α) × W × Nat
  | [], fm, world, outputNode => ([], fm, world, outputNode)
  | rbt :: rest, fm, world, outputNode =>
    if rbt.wreFlow = FlowType.RBT_NODE_IN then
      let world1 := rbt.computeLimbWrench ops world
      let g := rbt.getWrench ops fm.1 fm.2 world1
      let r := solveWrenchInputs ops rest g.2.1 g.2.2 ((outputNode + 1) % 2 ^ 32)
      (g.1 :: r.1, r.2)
    else
      let r := solveWrenchInputs ops rest fm world outputNode
      (rbt :: r.1, r.2)

/-- The last loop of `solveWrench` (the same in `iDynNode` and `iDynSensorNode`): every RBT with
wrench flow NODE_OUT is given the node's `(F, Mu)` through `setWrench` (whose answer is dropped)
and has its limb computed. -/
def solveWrenchOutputs [CommRing α] (ops : Collaborators α W)
    (fm : Yarp.Vector α × Yarp.Vector α) :
    List (RigidBodyTransformation α) → W → List (RigidBodyTransformation α) × W
  | [], world => ([], world)
  | rbt :: rest, world =>
    if rbt.wreFlow = FlowType.RBT_NODE_OUT then
      let s := rbt.setWrench ops fm.1 fm.2 world
      let world2 := s.2.1.computeLimbWrench ops s.2.2
      let r := solveWrenchOutputs ops fm rest world2
      (s.2.1 :: r.1, r.2)
    else
      let r := solveWrenchOutputs ops fm rest world
      (rbt :: r.1, r.2)

/-- The member function `iDynNode::solveWrench()`: the returned flag, the node after the call
and the world. `F.zero()` and `Mu.zero()` keep the lengths. The test
`outputNode==rbtList.size()` only guards a message and does not appear here; see
`iDynNode.solveWrenchWarns`. -/
def iDynNode.solveWrench [CommRing α] (ops : Collaborators α W) (self : iDynNode α)
    (world : W) : Bool × iDynNode α × W :=
  let scan := solveWrenchInputs ops self.rbtList
    (Yarp.Vector.assignScalar self.F 0, Yarp.Vector.assignScalar self.Mu 0) world 0
  let node1 := { self with rbtList := scan.1, F := scan.2.1.1, Mu := scan.2.1.2 }
  let out := solveWrenchOutputs ops (node1.F, node1.Mu) node1.rbtList scan.2.2.1
  (true, { node1 with rbtList := out.1 }, out.2)

/-- The condition `outputNode==rbtList.size()` of `iDynNode::solveWrench()`, under which the
balance warning is written when the node is verbose. -/
def iDynNode.solveWrenchWarns [CommRing α] (ops : Collaborators α W) (self : iDynNode α)
    (world : W) : Bool :=
  decide ((solveWrenchInputs ops self.rbtList
    (Yarp.Vector.assignScalar self.F 0, Yarp.Vector.assignScalar self.Mu 0) world 0).2.2.2
      = self.rbtList.length)

/-- The class `iDynSensorNode`: a node and, index by index, the sensor of each RBT; `none` is
the null pointer. -/
structure iDynSensorNode (α : Type) extends iDynNode α where
  sensorList : List (Option Nat)
deriving DecidableEq

/-- The element `sensorList[i]` as seen from the rest of the list starting at index `i`:
`none` when the pointer is null or the list has ended. -/
def sensorAt (sensors : List (Option Nat)) : Option Nat := sensors.head?.join

/-- The first loop of `iDynSensorNode::solveWrench`, over the RBTs still to visit and the
sensors at the same indices: as in `iDynNode`, but a sensorized RBT has
`computeWrenchFromSensorNewtonEuler` called on its sensor. Dereferencing a missing sensor gives
no result. -/
def sensorSolveWrenchInputs [CommRing α] (ops : Collaborators α W) :
    List (RigidBodyTransformation α) → List (Option Nat) →
      Yarp.Vector α × Yarp.Vector α → W → Nat →
      Option (List (RigidBodyTransformation α) × (Yarp.Vector α × Yarp.Vector α) × W × Nat)
  | [], _, fm, world, outputNode => some ([], fm, world, outputNode)
  | rbt :: rest, sensors, fm, world, outputNode =>
    if rbt.wreFlow = FlowType.RBT_NODE_IN then
      let computed : Option W :=
        if rbt.hasSensor = true then
          (sensorAt sensors).map fun sensor =>
            ops.computeWrenchFromSensorNewtonEuler world sensor
        else
          some (rbt.computeLimbWrench ops world)
      match computed with
      | none => none
      | some world1 =>
        let g := rbt.getWrench ops fm.1 fm.2 world1
        match sensorSolveWrenchInputs ops rest sensors.tail g.2.1 g.2.2
            ((outputNode + 1) % 2 ^ 32) with
        | none => none
        | some r => some (g.1 :: r.1, r.2)
    else
      match sensorSolveWrenchInputs ops rest sensors.tail fm world outputNode with
      | none => none
      | some r => some (rbt :: r.1, r.2)

/-- The member function `iDynSensorNode::solveWrench()`: the returned flag, the node after the
call and the world, or nothing when a missing sensor is dereferenced. -/
def iDynSensorNode.solveWrench [CommRing α] (ops : Collaborators α W)
    (self : iDynSensorNode α) (world : W) : Option (Bool × iDynSensorNode α × W) :=
  match sensorSolveWrenchInputs ops self.rbtList self.sensorList
      (Yarp.Vector.assignScalar self.F 0, Yarp.Vector.assignScalar self.Mu 0) world 0 with
  | none => none
  | some scan =>
    let node1 := { self with rbtList := scan.1, F := scan.2.1.1, Mu := scan.2.1.2 }
    let out := solveWrenchOutputs ops (node1.F, node1.Mu) node1.rbtList scan.2.2.1
    some (true, { node1 with rbtList := out.1 }, out.2)


/-! ## Measurement injection -/

/-- The value an `int` holds after an arithmetic result `x`: reduced to the range
`-2 ^ 31 .. 2 ^ 31 - 1`. -/
def wrapInt32 (x : Int) : Int := (x + 2 ^ 31) % 2 ^ 32 - 2 ^ 31

/-- The counting loop of `setWrenchMeasure`: `inputNode` (an `int`) is incremented for every RBT
with wrench flow NODE_IN. -/
def countWrenchInputs : List (RigidBodyTransformation α) → Int → Int
  | [], inputNode => inputNode
  | rbt :: rest, inputNode =>
    if rbt.wreFlow = FlowType.RBT_NODE_IN then
      countWrenchInputs rest (wrapInt32 (inputNode + 1))
    else
      countWrenchInputs rest inputNode

/-- The loop of `iDynNode::setWrenchMeasure(FM)` taken when the input was accepted: column
`inputNode` of `FM` is read into `FMi`, its elements 0..2 are copied into the 3-vector `fi` and
its elements 3..5 into the 3-vector `mi`, `inputNode` is incremented and the RBT passes
`(fi, mi)` to its limb. -/
def setWrenchMeasureColumns [Zero α] (ops : Collaborators α W) (FM : Yarp.Matrix α) :
    List (RigidBodyTransformation α) → Int → W → W
  | [], _, world => world
  | rbt :: rest, inputNode, world =>
    if rbt.wreFlow = FlowType.RBT_NODE_IN then
      let FMi := FM.getCol inputNode.toNat
      let fi := [Yarp.Vector.get FMi 0, Yarp.Vector.get FMi 1, Yarp.Vector.get FMi 2]
      let mi := [Yarp.Vector.get FMi 3, Yarp.Vector.get FMi 4, Yarp.Vector.get FMi 5]
      setWrenchMeasureColumns ops FM rest (wrapInt32 (inputNode + 1))
        (rbt.setWrenchMeasure ops fi mi world).2.2
    else
      setWrenchMeasureColumns ops FM rest inputNode world

/-- The loop of `setWrenchMeasure` taken when the input was refused: every RBT with wrench flow
NODE_IN passes the default `(fi, mi)` to its limb. -/
def setWrenchMeasureDefaults (ops : Collaborators α W) (fi mi : Yarp.Vector α) :
    List (RigidBodyTransformation α) → W → W
  | [], world => world
  | rbt :: rest, world =>
    if rbt.wreFlow = FlowType.RBT_NODE_IN then
      setWrenchMeasureDefaults ops fi mi rest (rbt.setWrenchMeasure ops fi mi world).2.2
    else
      setWrenchMeasureDefaults ops fi mi rest world

/-- The member function `iDynNode::setWrenchMeasure(const Matrix &FM)`: the returned flag and
the world. No member of the node or of its RBTs is assigned. -/
def iDynNode.setWrenchMeasure [Zero α] (ops : Collaborators α W) (self : iDynNode α)
    (FM : Yarp.Matrix α) (world : W) : Bool × W :=
  let inputNode := countWrenchInputs self.rbtList 0
  let ok1 : Bool := if (FM.cols : Int) < inputNode then false else true
  let inputWasOk : Bool := if FM.rows ≠ 6 then false else ok1
  if inputWasOk = true then
    (inputWasOk, setWrenchMeasureColumns ops FM self.rbtList 0 world)
  else
    (inputWasOk, setWrenchMeasureDefaults ops [0, 0, 0] [0, 0, 0] self.rbtList world)

/-- The loop of `iDynNode::setWrenchMeasure(Fm, Mm)` taken when the input was accepted: the RBT
passes column `inputNode` of `Fm` and of `Mm` to its limb, then `inputNode` is incremented. -/
def setWrenchMeasureColumns2 [Zero α] (ops : Collaborators α W) (Fm Mm : Yarp.Matrix α) :
    List (RigidBodyTransformation α) → Int → W → W
  | [], _, world => world
  | rbt :: rest, inputNode, world =>
    if rbt.wreFlow = FlowType.RBT_NODE_IN then
      setWrenchMeasureColumns2 ops Fm Mm rest (wrapInt32 (inputNode + 1))
        (rbt.setWrenchMeasure ops (Fm.getCol inputNode.toNat) (Mm.getCol inputNode.toNat)
          world).2.2
    else
      setWrenchMeasureColumns2 ops Fm Mm rest inputNode world

/-- The member function `iDynNode::setWrenchMeasure(const Matrix &Fm, const Matrix &Mm)`: the
returned flag and the world. No member of the node is assigned. -/
def iDynNode.setWrenchMeasure2 [Zero α] (ops : Collaborators α W) (self : iDynNode α)
    (Fm Mm : Yarp.Matrix α) (world : W) : Bool × W :=
  let inputNode := countWrenchInputs self.rbtList 0
  let ok1 : Bool :=
    if (Fm.cols : Int) < inputNode ∨ (Mm.cols : Int) < inputNode then false else true
  let inputWasOk : Bool := if Fm.rows ≠ 3 ∨ Mm.rows ≠ 3 then false else ok1
  if inputWasOk = true then
    (inputWasOk, setWrenchMeasureColumns2 ops Fm Mm self.rbtList 0 world)
  else
    (inputWasOk, setWrenchMeasureDefaults ops [0, 0, 0] [0, 0, 0] self.rbtList world)


/-! ## Construction of RBTs and nodes -/

/-- The constructor of `RigidBodyTransformation`: the cached vectors are 3-vectors of zeros, `H`
is made the 4x4 identity and then `setRBT(_H)` is called. The limb is only pointed to. -/
def RigidBodyTransformation.construct [Zero α] [One α] (_limb : Nat) (_H : Yarp.Matrix α)
    (_info : String) (_hasSensor : Bool) (kin wre : FlowType) (_mode : NewEulMode) :
    RigidBodyTransformation α :=
  let s0 : RigidBodyTransformation α :=
    { limb := _limb, kinFlow := kin, wreFlow := wre, mode := _mode, info := _info,
      hasSensor := _hasSensor, F := [0, 0, 0], Mu := [0, 0, 0], w := [0, 0, 0],
      dw := [0, 0, 0], ddp := [0, 0, 0],
      H := ((Yarp.Matrix.empty : Yarp.Matrix α).resize 4 4).eye }
  (s0.setRBT _H).2

/-- The member function `iDynNode::zero()`. -/
def iDynNode.zero [Zero α] (self : iDynNode α) : iDynNode α :=
  { self with
    w := [0, 0, 0]
    dw := [0, 0, 0]
    ddp := [0, 0, 0]
    F := [0, 0, 0]
    Mu := [0, 0, 0] }

/-- The constructor `iDynNode(_info, _mode, verb)`: no RBT, zeroed aggregate. -/
def iDynNode.construct [Zero α] (_info : String) (_mode : NewEulMode) (verb : Nat) :
    iDynNode α :=
  iDynNode.zero
    { rbtList := [], mode := _mode, info := _info, verbose := verb, w := [], dw := [],
      ddp := [], F := [], Mu := [] }

/-- The member function `iDynNode::addLimb`: an RBT built from the arguments and the node's
mode is appended to `rbtList`. The argument `limbType` is what `limb->getType()` returns. -/
def iDynNode.addLimb [Zero α] [One α] (self : iDynNode α) (limbType : String) (limb : Nat)
    (H : Yarp.Matrix α) (kinFlow wreFlow : FlowType) (hasSensor : Bool) : iDynNode α :=
  { self with
    rbtList := self.rbtList ++
      [RigidBodyTransformation.construct limb H (limbType ++ " to node") hasSensor kinFlow
        wreFlow self.mode] }

/-- The constructor `iDynSensorNode(_info, _mode, verb)`: an empty node and no sensor. -/
def iDynSensorNode.construct [Zero α] (_info : String) (_mode : NewEulMode) (verb : Nat) :
    iDynSensorNode α :=
  { toiDynNode := iDynNode.construct _info _mode verb, sensorList := [] }

/-- The member function `iDynSensorNode::addLimb(limb, H, kinFlow, wreFlow)`: the RBT is added
without sensor and the null pointer is appended to `sensorList`. -/
def iDynSensorNode.addLimb [Zero α] [One α] (self : iDynSensorNode α) (limbType : String)
    (limb : Nat) (H : Yarp.Matrix α) (kinFlow wreFlow : FlowType) : iDynSensorNode α :=
  { toiDynNode := self.toiDynNode.addLimb limbType limb H kinFlow wreFlow false,
    sensorList := self.sensorList ++ [none] }

/-- The member function `iDynSensorNode::addLimb(limb, H, sensor, kinFlow, wreFlow)`: the RBT
is added as sensorized and the given pointer is appended to `sensorList`. -/
def iDynSensorNode.addLimbSensor [Zero α] [One α] (self : iDynSensorNode α)
    (limbType : String) (limb : Nat) (H : Yarp.Matrix α) (sensor : Option Nat)
    (kinFlow wreFlow : FlowType) : iDynSensorNode α :=
  { toiDynNode := self.toiDynNode.addLimb limbType limb H kinFlow wreFlow true,
    sensorList := self.sensorList ++ [sensor] }

/-! ## Measurement injection in a sensorized node -/

/-- The step both loops of `iDynSensorNode::setWrenchMeasure(FM)` make for a wrench-input RBT:
a sensorized RBT sets `(fi, mi)` on `sensorList[i]`, any other on its limb. Gives the world, or
nothing when a missing sensor is dereferenced. -/
def sensorSetWrenchMeasureStep (ops : Collaborators α W) (rbt : RigidBodyTransformation α)
    (sensors : List (Option Nat)) (fi mi : Yarp.Vector α) (world : W) : Option W :=
  if rbt.hasSensor = true then
    (rbt.setWrenchMeasureSensor ops (sensorAt sensors) fi mi world).map fun r => r.2.2
  else
    some (rbt.setWrenchMeasure ops fi mi world).2.2

/-- The loop of `iDynSensorNode::setWrenchMeasure(FM)` taken when the input was accepted, over
the RBTs still to visit and the sensors at the same indices. -/
def sensorSetWrenchMeasureColumns [Zero α] (ops : Collaborators α W) (FM : Yarp.Matrix α) :
    List (RigidBodyTransformation α) → List (Option Nat) → Int → W → Option W
  | [], _, _, world => some world
  | rbt :: rest, sensors, inputNode, world =>
    if rbt.wreFlow = FlowType.RBT_NODE_IN then
      let FMi := FM.getCol inputNode.toNat
      let fi := [Yarp.Vector.get FMi 0, Yarp.Vector.get FMi 1, Yarp.Vector.get FMi 2]
      let mi := [Yarp.Vector.get FMi 3, Yarp.Vector.get FMi 4, Yarp.Vector.get FMi 5]
      match sensorSetWrenchMeasureStep ops rbt sensors fi mi world with
      | none => none
      | some world1 =>
        sensorSetWrenchMeasureColumns ops FM rest sensors.tail (wrapInt32 (inputNode + 1)) world1
    else
      sensorSetWrenchMeasureColumns ops FM rest sensors.tail inputNode world

/-- The loop of `iDynSensorNode::setWrenchMeasure(FM)` taken when the input was refused. -/
def sensorSetWrenchMeasureDefaults (ops : Collaborators α W) (fi mi : Yarp.Vector α) :
    List (RigidBodyTransformation α) → List (Option Nat) → W → Option W
  | [], _, world => some world
  | rbt :: rest, sensors, world =>
    if rbt.wreFlow = FlowType.RBT_NODE_IN then
      match sensorSetWrenchMeasureStep ops rbt sensors fi mi world with
      | none => none
      | some world1 => sensorSetWrenchMeasureDefaults ops fi mi rest sensors.tail world1
    else
      sensorSetWrenchMeasureDefaults ops fi mi rest sensors.tail world

/-- The member function `iDynSensorNode::setWrenchMeasure(const Matrix &FM)`: the returned flag
and the world, or nothing when a missing sensor is dereferenced. No member of the node is
assigned. -/
def iDynSensorNode.setWrenchMeasure [Zero α] (ops : Collaborators α W)
    (self : iDynSensorNode α) (FM : Yarp.Matrix α) (world : W) : Option (Bool × W) :=
  let inputNode := countWrenchInputs self.rbtList 0
  let ok1 : Bool := if (FM.cols : Int) < inputNode then false else true
  let inputWasOk : Bool := if FM.rows ≠ 6 then false else ok1
  if inputWasOk = true then
    (sensorSetWrenchMeasureColumns ops FM self.rbtList self.sensorList 0 world).map
      fun world1 => (inputWasOk, world1)
  else
    (sensorSetWrenchMeasureDefaults ops [0, 0, 0] [0, 0, 0] self.rbtList self.sensorList
      world).map fun world1 => (inputWasOk, world1)


/-! ## The overloads taking measurements -/

/-- The first loop of `iDynNode::solveKinematics(w0, dw0, ddp0)`: as in `solveKinematics()`,
but every RBT with kinematic flow NODE_IN is first given `(w0, dw0, ddp0)` through
`setKinematicMeasure`, whose answer is dropped. -/
def solveKinematicsInputs3 [CommRing α] (ops : Collaborators α W)
    (w0 dw0 ddp0 : Yarp.Vector α) :
    List (RigidBodyTransformation α) → Yarp.Vector α × Yarp.Vector α × Yarp.Vector α → W → Nat →
      List (RigidBodyTransformation α) × (Yarp.Vector α × Yarp.Vector α × Yarp.Vector α) × W × Nat
  | [], k, world, inputNode => ([], k, world, inputNode)
  | rbt :: rest, k, world, inputNode =>
    if rbt.kinFlow = FlowType.RBT_NODE_IN then
      let m := rbt.setKinematicMeasure ops w0 dw0 ddp0 world
      let world1 := m.2.1.computeLimbKinematic ops m.2.2
      let g := m.2.1.getKinematic ops world1
      let r := solveKinematicsInputs3 ops w0 dw0 ddp0 rest g.2.1 g.2.2
        ((inputNode + 1) % 2 ^ 32)
      (g.1 :: r.1, r.2)
    else
      let r := solveKinematicsInputs3 ops w0 dw0 ddp0 rest k world inputNode
      (rbt :: r.1, r.2)

/-- The member function `iDynNode::solveKinematics(w0, dw0, ddp0)`: the returned flag, the node
after the call and the world. -/
def iDynNode.solveKinematics3 [CommRing α] (ops : Collaborators α W) (self : iDynNode α)
    (w0 dw0 ddp0 : Yarp.Vector α) (world : W) : Bool × iDynNode α × W :=
  let scan := solveKinematicsInputs3 ops w0 dw0 ddp0 self.rbtList (self.w, self.dw, self.ddp)
    world 0
  let node1 := { self with
    rbtList := scan.1, w := scan.2.1.1, dw := scan.2.1.2.1, ddp := scan.2.1.2.2 }
  if scan.2.2.2 = 1 then
    let out := solveKinematicsOutputs ops (node1.w, node1.dw, node1.ddp) node1.rbtList scan.2.2.1
    (true, { node1 with rbtList := out.1 }, out.2)
  else
    (false, node1, scan.2.2.1)

/-- The loop of `iDynNode::setKinematicMeasure`: every RBT with kinematic flow NODE_IN is given
`(w0, dw0, ddp0)` through its own `setKinematicMeasure`, whose answer is dropped. -/
def setKinematicMeasureInputs (ops : Collaborators α W) (w0 dw0 ddp0 : Yarp.Vector α) :
    List (RigidBodyTransformation α) → W → List (RigidBodyTransformation α) × W
  | [], world => ([], world)
  | rbt :: rest, world =>
    if rbt.kinFlow = FlowType.RBT_NODE_IN then
      let m := rbt.setKinematicMeasure ops w0 dw0 ddp0 world
      let r := setKinematicMeasureInputs ops w0 dw0 ddp0 rest m.2.2
      (m.2.1 :: r.1, r.2)
    else
      let r := setKinematicMeasureInputs ops w0 dw0 ddp0 rest world
      (rbt :: r.1, r.2)

/-- The member function `iDynNode::setKinematicMeasure(w0, dw0, ddp0)`: the returned flag, the
node after the call and the world. -/
def iDynNode.setKinematicMeasure (ops : Collaborators α W) (self : iDynNode α)
    (w0 dw0 ddp0 : Yarp.Vector α) (world : W) : Bool × iDynNode α × W :=
  if w0.length = 3 ∧ dw0.length = 3 ∧ ddp0.length = 3 then
    let r := setKinematicMeasureInputs ops w0 dw0 ddp0 self.rbtList world
    (true, { self with rbtList := r.1 }, r.2)
  else
    (false, self, world)

/-- The member function `iDynNode::solveWrench(const Matrix &FM)`: the returned flag, the node
after the call and the world. In `solveWrench() && inputWasOk` the call is the left operand and
is always made. -/
def iDynNode.solveWrench1 [CommRing α] (ops : Collaborators α W) (self : iDynNode α)
    (FM : Yarp.Matrix α) (world : W) : Bool × iDynNode α × W :=
  let m := self.setWrenchMeasure ops FM world
  let inputWasOk := m.1
  let s := self.solveWrench ops m.2
  (s.1 && inputWasOk, s.2.1, s.2.2)

/-- The member function `iDynNode::solveWrench(const Matrix &Fm, const Matrix &Mm)`: the
returned flag, the node after the call and the world. -/
def iDynNode.solveWrench2 [CommRing α] (ops : Collaborators α W) (self : iDynNode α)
    (Fm Mm : Yarp.Matrix α) (world : W) : Bool × iDynNode α × W :=
  let m := self.setWrenchMeasure2 ops Fm Mm world
  let inputWasOk := m.1
  let s := self.solveWrench ops m.2
  (s.1 && inputWasOk, s.2.1, s.2.2)

/-- The loop of `iDynSensorNode::setWrenchMeasure(Fm, Mm)` taken when the input was accepted, over
the RBTs still to visit and the sensors at the same indices: a sensorized RBT sets column
`inputNode` of `Fm` and of `Mm` on `sensorList[i]`, any other on its limb, then `inputNode` is
incremented. -/
def sensorSetWrenchMeasureColumns2 [Zero α] (ops : Collaborators α W) (Fm Mm : Yarp.Matrix α) :
    List (RigidBodyTransformation α) → List (Option Nat) → Int → W → Option W
  | [], _, _, world => some world
  | rbt :: rest, sensors, inputNode, world =>
    if rbt.wreFlow = FlowType.RBT_NODE_IN then
      let computed : Option W :=
        if rbt.hasSensor = true then
          (rbt.setWrenchMeasureSensor ops (sensorAt sensors) (Fm.getCol inputNode.toNat)
            (Mm.getCol inputNode.toNat) world).map fun r => r.2.2
        else
          some (rbt.setWrenchMeasure ops (Fm.getCol inputNode.toNat)
            (Mm.getCol inputNode.toNat) world).2.2
      match computed with
      | none => none
      | some world1 =>
        sensorSetWrenchMeasureColumns2 ops Fm Mm rest sensors.tail (wrapInt32 (inputNode + 1))
          world1
    else
      sensorSetWrenchMeasureColumns2 ops Fm Mm rest sensors.tail inputNode world

/-- The loop of `iDynSensorNode::setWrenchMeasure(Fm, Mm)` taken when the input was refused:
every RBT with wrench flow NODE_IN, sensorized or not, passes the default `(fi, mi)` to its limb
through `setWrenchMeasure(fi, mi)`. -/
def sensorSetWrenchMeasureDefaults2 (ops : Collaborators α W) (fi mi : Yarp.Vector α) :
    List (RigidBodyTransformation α) → W → W
  | [], world => world
  | rbt :: rest, world =>
    if rbt.wreFlow = FlowType.RBT_NODE_IN then
      sensorSetWrenchMeasureDefaults2 ops fi mi rest (rbt.setWrenchMeasure ops fi mi world).2.2
    else
      sensorSetWrenchMeasureDefaults2 ops fi mi rest world

/-- The member function `iDynSensorNode::setWrenchMeasure(const Matrix &Fm, const Matrix &Mm)`:
the returned flag and the world, or nothing when a missing sensor is dereferenced. No member of
the node is assigned. -/
def iDynSensorNode.setWrenchMeasure2 [Zero α] (ops : Collaborators α W)
    (self : iDynSensorNode α) (Fm Mm : Yarp.Matrix α) (world : W) : Option (Bool × W) :=
  let inputNode := countWrenchInputs self.rbtList 0
  let ok1 : Bool :=
    if (Fm.cols : Int) < inputNode ∨ (Mm.cols : Int) < inputNode then false else true
  let inputWasOk : Bool := if Fm.rows ≠ 3 ∨ Mm.rows ≠ 3 then false else ok1
  if inputWasOk = true then
    (sensorSetWrenchMeasureColumns2 ops Fm Mm self.rbtList self.sensorList 0 world).map
      fun world1 => (inputWasOk, world1)
  else
    some (inputWasOk,
      sensorSetWrenchMeasureDefaults2 ops [0, 0, 0] [0, 0, 0] self.rbtList world)


/-! ## The upper torso -/

/-- The class `UpperTorso`: a sensorized node together with the pointers to its three limbs and
two sensors and the three transforms. -/
structure UpperTorso (α : Type) extends iDynSensorNode α where
  leftArm : Nat
  rightArm : Nat
  head : Nat
  leftSensor : Nat
  rightSensor : Nat
  HHead : Yarp.Matrix α
  HLeftArm : Yarp.Matrix α
  HRightArm : Yarp.Matrix α
deriving DecidableEq

/-- The constructor `UpperTorso(_mode, verb)`. The five objects it allocates are named by the
arguments `leftArm`, `rightArm`, `head`, `leftSensor`, `rightSensor`, and the three strings are
what `getType()` returns on the limbs. The transforms are made 4x4 identities and the limbs are
added in the order head, right arm, left arm. -/
def UpperTorso.construct [Zero α] [One α] (_mode : NewEulMode) (verb : Nat)
    (leftArm rightArm head leftSensor rightSensor : Nat)
    (leftType rightType headType : String) : UpperTorso α :=
  let HHead : Yarp.Matrix α := ((Yarp.Matrix.empty : Yarp.Matrix α).resize 4 4).eye
  let HLeftArm : Yarp.Matrix α := ((Yarp.Matrix.empty : Yarp.Matrix α).resize 4 4).eye
  let HRightArm : Yarp.Matrix α := ((Yarp.Matrix.empty : Yarp.Matrix α).resize 4 4).eye
  let n0 : iDynSensorNode α := iDynSensorNode.construct "upper_torso" _mode verb
  let n1 := n0.addLimb headType head HHead FlowType.RBT_NODE_IN FlowType.RBT_NODE_IN
  let n2 := n1.addLimbSensor rightType rightArm HRightArm (some rightSensor)
    FlowType.RBT_NODE_OUT FlowType.RBT_NODE_IN
  let n3 := n2.addLimbSensor leftType leftArm HLeftArm (some leftSensor)
    FlowType.RBT_NODE_OUT FlowType.RBT_NODE_IN
  { toiDynSensorNode := n3, leftArm := leftArm, rightArm := rightArm, head := head,
    leftSensor := leftSensor, rightSensor := rightSensor, HHead := HHead,
    HLeftArm := HLeftArm, HRightArm := HRightArm }

/-- The member function `UpperTorso::setSensorMeasurement(FM_right, FM_left, FM_head)`: the
returned flag and the world, or nothing when a missing sensor is dereferenced. The call
`setWrenchMeasure(FM)` is the one of `iDynSensorNode`. -/
def UpperTorso.setSensorMeasurement [Zero α] (ops : Collaborators α W) (self : UpperTorso α)
    (FM_right FM_left FM_head : Yarp.Vector α) (world : W) : Option (Bool × W) :=
  let FM : Yarp.Matrix α := Yarp.Matrix.zeros 6 3
  if FM_right.length = 6 ∧ FM_left.length = 6 ∧ FM_head.length = 6 then
    let FM1 := FM.setCol 0 FM_head
    let FM2 := FM1.setCol 1 FM_right
    let FM3 := FM2.setCol 2 FM_left
    self.toiDynSensorNode.setWrenchMeasure ops FM3 world
  else
    (self.toiDynSensorNode.setWrenchMeasure ops FM world).map fun r => (false, r.2)

/-- The member function `UpperTorso::setSensorMeasurement(FM_right, FM_left)`: the head gets a
6-vector of zeros. -/
def UpperTorso.setSensorMeasurement2 [Zero α] (ops : Collaborators α W) (self : UpperTorso α)
    (FM_right FM_left : Yarp.Vector α) (world : W) : Option (Bool × W) :=
  self.setSensorMeasurement ops FM_right FM_left [0, 0, 0, 0, 0, 0] world

/-- The member function `UpperTorso::update()`: the returned flag, the object after the call
and the world, or nothing when a missing sensor is dereferenced. In
`isOk = isOk && solveWrench()` the right operand is evaluated only when `isOk` is true; the
call `solveWrench()` is the one of `iDynSensorNode`. -/
def UpperTorso.update [CommRing α] (ops : Collaborators α W) (self : UpperTorso α)
    (world : W) : Option (Bool × UpperTorso α × W) :=
  let k := self.toiDynNode.solveKinematics ops world
  let self1 : UpperTorso α := { self with toiDynNode := k.2.1 }
  if k.1 = true then
    (self1.toiDynSensorNode.solveWrench ops k.2.2).map fun r =>
      (r.1, { self1 with toiDynSensorNode := r.2.1 }, r.2.2)
  else
    some (false, self1, k.2.2)

/-- Modelled from the spec: the result accessors of a limb (`getForces`, `getMoments`,
`getTorques` of class `iDynLimb`, iDyn.h, not under src/), each giving its result and the world
it leaves. -/
structure LimbResults (α W : Type) where
  getForces : W → Nat → Yarp.Matrix α × W
  getMoments : W → Nat → Yarp.Matrix α × W
  getTorques : W → Nat → Yarp.Vector α × W

/-- The member function `UpperTorso::getForces(limbType)`: the result and the world. -/
def UpperTorso.getForces (acc : LimbResults α W) (self : UpperTorso α) (limbType : String)
    (world : W) : Yarp.Matrix α × W :=
  if limbType = "head" then acc.getForces world self.head
  else if limbType = "left_arm" then acc.getForces world self.leftArm
  else if limbType = "right_arm" then acc.getForces world self.rightArm
  else (Yarp.Matrix.empty, world)

/-- The member function `UpperTorso::getMoments(limbType)`: the result and the world. -/
def UpperTorso.getMoments (acc : LimbResults α W) (self : UpperTorso α) (limbType : String)
    (world : W) : Yarp.Matrix α × W :=
  if limbType = "head" then acc.getMoments world self.head
  else if limbType = "left_arm" then acc.getMoments world self.leftArm
  else if limbType = "right_arm" then acc.getMoments world self.rightArm
  else (Yarp.Matrix.empty, world)

/-- The member function `UpperTorso::getTorques(limbType)`: the result and the world. -/
def UpperTorso.getTorques (acc : LimbResults α W) (self : UpperTorso α) (limbType : String)
    (world : W) : Yarp.Vector α × W :=
  if limbType = "head" then acc.getTorques world self.head
  else if limbType = "left_arm" then acc.getTorques world self.leftArm
  else if limbType = "right_arm" then acc.getTorques world self.rightArm
  else ([], world)


/-- The member function `UpperTorso::setInertialMeasure(w0, dw0, ddp0)`: the returned flag, the
object after the call and the world. The call `setKinematicMeasure` is the one of `iDynNode`. -/
def UpperTorso.setInertialMeasure (ops : Collaborators α W) (self : UpperTorso α)
    (w0 dw0 ddp0 : Yarp.Vector α) (world : W) : Bool × UpperTorso α × W :=
  let r := self.toiDynNode.setKinematicMeasure ops w0 dw0 ddp0 world
  (r.1, { self with toiDynNode := r.2.1 }, r.2.2)

/-- The member function `UpperTorso::update(w0, dw0, ddp0, FM_right, FM_left, FM_head)`: the
returned flag, the object after the call and the world, or nothing when a missing sensor is
dereferenced. The answers of `setInertialMeasure` and `setSensorMeasurement` are dropped. -/
def UpperTorso.update6 [CommRing α] (ops : Collaborators α W) (self : UpperTorso α)
    (w0 dw0 ddp0 FM_right FM_left FM_head : Yarp.Vector α) (world : W) :
    Option (Bool × UpperTorso α × W) :=
  if FM_right.length = 6 ∧ FM_left.length = 6 ∧ FM_head.length = 6 ∧ w0.length = 3 ∧
      dw0.length = 3 ∧ ddp0.length = 3 then
    let i := self.setInertialMeasure ops w0 dw0 ddp0 world
    match i.2.1.setSensorMeasurement ops FM_right FM_left FM_head i.2.2 with
    | none => none
    | some m => i.2.1.update ops m.2
  else
    (self.update ops world).map fun r => (false, r.2)


/-! ## Reading the stored data as mathematical objects -/

/-- The 4x4 identity matrix, written out. -/
def identity4 (α : Type) [Zero α] [One α] : Yarp.Matrix α :=
  { rows := 4, cols := 4,
    data := [[1, 0, 0, 0], [0, 1, 0, 0], [0, 0, 1, 0], [0, 0, 0, 1]] }

/-- A stored vector read as a mathematical 3-vector (its first three elements). -/
def toFin3 [Zero α] (v : Yarp.Vector α) : Fin 3 → α :=
  ![Yarp.Vector.get v 0, Yarp.Vector.get v 1, Yarp.Vector.get v 2]

/-- A mathematical 3-vector as a stored vector of length 3. -/
def ofFin3 (f : Fin 3 → α) : Yarp.Vector α := [f 0, f 1, f 2]

/-- The rotation block `R` of `H = [R | t; 0 0 0 1]`: entries `(0..2, 0..2)`. -/
def rotation [Zero α] (H : Yarp.Matrix α) : Matrix (Fin 3) (Fin 3) α :=
  Matrix.of fun i j => H.get i.val j.val

/-- The translation column `t` of `H = [R | t; 0 0 0 1]`: entries `(0..2, 3)`. -/
def translation [Zero α] (H : Yarp.Matrix α) : Fin 3 → α :=
  fun i => H.get i.val 3

/-- The translation projected into the limb frame: `r = -(Rᵀ t)`. -/
def projectedTranslation [CommRing α] (H : Yarp.Matrix α) : Fin 3 → α :=
  -(Matrix.mulVec (Matrix.transpose (rotation H)) (translation H))

/-- The cached kinematic vectors `w`, `dw`, `ddp` of an RBT are 3-vectors and `H` is a
well-formed 4x4 matrix. -/
def KinSized (self : RigidBodyTransformation α) : Prop :=
  self.H.rows = 4 ∧ self.H.cols = 4 ∧ self.H.WellFormed ∧
    self.w.length = 3 ∧ self.dw.length = 3 ∧ self.ddp.length = 3

instance (self : RigidBodyTransformation α) : Decidable (KinSized self) := by
  unfold KinSized; exact inferInstance

/-- The cached wrench vectors `F`, `Mu` of an RBT are 3-vectors and `H` is a well-formed 4x4
matrix. -/
def WreSized (self : RigidBodyTransformation α) : Prop :=
  self.H.rows = 4 ∧ self.H.cols = 4 ∧ self.H.WellFormed ∧
    self.F.length = 3 ∧ self.Mu.length = 3

instance (self : RigidBodyTransformation α) : Decidable (WreSized self) := by
  unfold WreSized; exact inferInstance

/-- The mode is one of the three dynamic ones. -/
def NewEulMode.isDynamic (m : NewEulMode) : Prop :=
  m = NewEulMode.DYNAMIC ∨ m = NewEulMode.DYNAMIC_CORIOLIS_GRAVITY ∨
    m = NewEulMode.DYNAMIC_W_ROTOR

instance (m : NewEulMode) : Decidable m.isDynamic := by
  unfold NewEulMode.isDynamic; exact inferInstance

/-- The composition the round-trip properties speak about: `computeKinematic` with kinematic
flow NODE_IN, then `computeKinematic` with kinematic flow NODE_OUT on the result, `H` and the
mode being the same in both steps. -/
def kinematicInThenOut [CommRing α] (self : RigidBodyTransformation α) :
    RigidBodyTransformation α :=
  (((self.setInfoFlow FlowType.RBT_NODE_IN self.wreFlow).computeKinematic).setInfoFlow
    FlowType.RBT_NODE_OUT self.wreFlow).computeKinematic

/-- The number of RBTs of a node whose kinematic flow is NODE_IN. -/
def iDynNode.kinematicInputs (self : iDynNode α) : Nat :=
  self.rbtList.countP fun rbt => decide (rbt.kinFlow = FlowType.RBT_NODE_IN)

/-! ## Concrete data -/

/-- A quarter turn about the z axis with the translation `(0, -1, 0)`. -/
def quarterTurnH : Yarp.Matrix ℤ :=
  { rows := 4, cols := 4,
    data := [[0, -1, 0, 0], [1, 0, 0, -1], [0, 0, 1, 0], [0, 0, 0, 1]] }

/-- A quarter turn about the z axis with the translation `(0, 0, 2)` along that axis. -/
def axialH : Yarp.Matrix ℤ :=
  { rows := 4, cols := 4,
    data := [[0, -1, 0, 0], [1, 0, 0, 0], [0, 0, 1, 2], [0, 0, 0, 1]] }

/-- A matrix with three rows and four columns. -/
def threeByFourH : Yarp.Matrix ℤ :=
  { rows := 3, cols := 4, data := [[1, 0, 0, 5], [0, 1, 0, 6], [0, 0, 1, 7]] }

/-- An RBT on limb `limb` with the given flows, mode and transform, and non-trivial cached
vectors. -/
def sampleRBT (limb : Nat) (kin wre : FlowType) (mode : NewEulMode) (H : Yarp.Matrix ℤ) :
    RigidBodyTransformation ℤ :=
  { limb := limb, kinFlow := kin, wreFlow := wre, mode := mode, info := "limb to node",
    hasSensor := false, F := [1, 0, 2], Mu := [0, 3, 1],
    w := [1, 2, 3], dw := [4, 5, 6], ddp := [7, 8, 9], H := H }

/-- The transform `quarterTurnH` in DYNAMIC mode, with angular acceleration `(0, 0, 1)` and
everything else at rest. -/
def quarterTurnRBT : RigidBodyTransformation ℤ :=
  { limb := 0, kinFlow := FlowType.RBT_NODE_IN, wreFlow := FlowType.RBT_NODE_IN,
    mode := NewEulMode.DYNAMIC, info := "limb to node", hasSensor := false,
    F := [0, 0, 0], Mu := [0, 0, 0], w := [0, 0, 0], dw := [0, 0, 1], ddp := [0, 0, 0],
    H := quarterTurnH }

/-- A world in which every limb accepts what it is given, reports the kinematics
`(1, 2, 3), (4, 5, 6), (7, 8, 9)` and the wrench `(1, 0, 0), (0, 1, 0)`, and which counts the
calls made. -/
def countingCollaborators : Collaborators ℤ Nat :=
  { initKinematicNewtonEuler := fun n _ _ _ _ => (true, n + 1)
    computeKinematicNewtonEuler := fun n _ => n + 1
    getKinematicNewtonEuler := fun n _ _ => (([1, 2, 3], [4, 5, 6], [7, 8, 9]), n + 1)
    initWrenchNewtonEuler := fun n _ _ _ => (true, n + 1)
    computeWrenchNewtonEuler := fun n _ => n + 1
    getWrenchNewtonEuler := fun n _ _ => (([1, 0, 0], [0, 1, 0]), n + 1)
    setSensorMeasures := fun n _ _ _ => (true, n + 1)
    computeWrenchFromSensorNewtonEuler := fun n _ => n + 1 }

/-- A node with a head (kinematic input) and two arms (kinematic outputs), as the upper torso
has them. -/
def torsoNode : iDynNode ℤ :=
  { rbtList :=
      [ sampleRBT 0 FlowType.RBT_NODE_IN FlowType.RBT_NODE_IN NewEulMode.DYNAMIC (identity4 ℤ),
        sampleRBT 1 FlowType.RBT_NODE_OUT FlowType.RBT_NODE_IN NewEulMode.DYNAMIC quarterTurnH,
        sampleRBT 2 FlowType.RBT_NODE_OUT FlowType.RBT_NODE_IN NewEulMode.DYNAMIC axialH ],
    mode := NewEulMode.DYNAMIC, info := "upper_torso", verbose := 0,
    w := [0, 0, 0], dw := [0, 0, 0], ddp := [0, 0, 0], F := [0, 0, 0], Mu := [0, 0, 0] }

/-- The transform `quarterTurnH` with kinematic and wrench flow NODE_IN, in the mode
DYNAMIC_W_ROTOR. -/
def inDynamicRBT : RigidBodyTransformation ℤ :=
  sampleRBT 0 FlowType.RBT_NODE_IN FlowType.RBT_NODE_IN NewEulMode.DYNAMIC_W_ROTOR quarterTurnH

/-- The transform `quarterTurnH` with kinematic and wrench flow NODE_OUT, in the mode
DYNAMIC_CORIOLIS_GRAVITY. -/
def outDynamicRBT : RigidBodyTransformation ℤ :=
  sampleRBT 1 FlowType.RBT_NODE_OUT FlowType.RBT_NODE_OUT NewEulMode.DYNAMIC_CORIOLIS_GRAVITY
    quarterTurnH

/-- The transform `quarterTurnH` in STATIC mode. -/
def staticRBT : RigidBodyTransformation ℤ :=
  sampleRBT 2 FlowType.RBT_NODE_IN FlowType.RBT_NODE_OUT NewEulMode.STATIC quarterTurnH

/-- The transform `axialH`, whose translation lies on the rotation axis, in DYNAMIC mode. -/
def axialRBT : RigidBodyTransformation ℤ :=
  sampleRBT 0 FlowType.RBT_NODE_IN FlowType.RBT_NODE_IN NewEulMode.DYNAMIC axialH

/-! ## Recording the calls made to limbs and sensors -/

/-- A call received by a limb or a sensor, with the arguments passed by value. -/
inductive Call (α : Type) where
  | initKinematicNewtonEuler (limb : Nat) (w dw ddp : Yarp.Vector α)
  | computeKinematicNewtonEuler (limb : Nat)
  | getKinematicNewtonEuler (limb : Nat)
  | initWrenchNewtonEuler (limb : Nat) (F Mu : Yarp.Vector α)
  | computeWrenchNewtonEuler (limb : Nat)
  | getWrenchNewtonEuler (limb : Nat)
  | setSensorMeasures (sensor : Nat) (F Mu : Yarp.Vector α)
  | computeWrenchFromSensorNewtonEuler (sensor : Nat)
deriving DecidableEq

/-- The call is an `initKinematicNewtonEuler`. -/
def Call.isInitKinematic : Call α → Bool
  | Call.initKinematicNewtonEuler _ _ _ _ => true
  | _ => false

/-- The same collaborators, with the world extended by the list of calls received so far, the
most recent last. The answers are those of `ops`. -/
def recording (ops : Collaborators α W) : Collaborators α (W × List (Call α)) :=
  { initKinematicNewtonEuler := fun s limb w dw ddp =>
      ((ops.initKinematicNewtonEuler s.1 limb w dw ddp).1,
        ((ops.initKinematicNewtonEuler s.1 limb w dw ddp).2,
          s.2 ++ [Call.initKinematicNewtonEuler limb w dw ddp]))
    computeKinematicNewtonEuler := fun s limb =>
      (ops.computeKinematicNewtonEuler s.1 limb, s.2 ++ [Call.computeKinematicNewtonEuler limb])
    getKinematicNewtonEuler := fun s limb k =>
      ((ops.getKinematicNewtonEuler s.1 limb k).1,
        ((ops.getKinematicNewtonEuler s.1 limb k).2,
          s.2 ++ [Call.getKinematicNewtonEuler limb]))
    initWrenchNewtonEuler := fun s limb F Mu =>
      ((ops.initWrenchNewtonEuler s.1 limb F Mu).1,
        ((ops.initWrenchNewtonEuler s.1 limb F Mu).2,
          s.2 ++ [Call.initWrenchNewtonEuler limb F Mu]))
    computeWrenchNewtonEuler := fun s limb =>
      (ops.computeWrenchNewtonEuler s.1 limb, s.2 ++ [Call.computeWrenchNewtonEuler limb])
    getWrenchNewtonEuler := fun s limb fm =>
      ((ops.getWrenchNewtonEuler s.1 limb fm).1,
        ((ops.getWrenchNewtonEuler s.1 limb fm).2, s.2 ++ [Call.getWrenchNewtonEuler limb]))
    setSensorMeasures := fun s sensor F Mu =>
      ((ops.setSensorMeasures s.1 sensor F Mu).1,
        ((ops.setSensorMeasures s.1 sensor F Mu).2,
          s.2 ++ [Call.setSensorMeasures sensor F Mu]))
    computeWrenchFromSensorNewtonEuler := fun s sensor =>
      (ops.computeWrenchFromSensorNewtonEuler s.1 sensor,
        s.2 ++ [Call.computeWrenchFromSensorNewtonEuler sensor]) }

/-! ## Vocabulary of the node claims -/

/-- The RBTs of a list with kinematic flow NODE_IN, in attachment order. -/
def kinematicInputRBTs (l : List (RigidBodyTransformation α)) :
    List (RigidBodyTransformation α) :=
  l.filter fun rbt => decide (rbt.kinFlow = FlowType.RBT_NODE_IN)

/-- The RBTs of a list with kinematic flow NODE_OUT, in attachment order. -/
def kinematicOutputRBTs (l : List (RigidBodyTransformation α)) :
    List (RigidBodyTransformation α) :=
  l.filter fun rbt => decide (rbt.kinFlow = FlowType.RBT_NODE_OUT)

/-- The RBTs of a list with wrench flow NODE_IN, in attachment order. -/
def wrenchInputRBTs (l : List (RigidBodyTransformation α)) :
    List (RigidBodyTransformation α) :=
  l.filter fun rbt => decide (rbt.wreFlow = FlowType.RBT_NODE_IN)

/-- The RBTs of a list with wrench flow NODE_OUT, in attachment order. -/
def wrenchOutputRBTs (l : List (RigidBodyTransformation α)) :
    List (RigidBodyTransformation α) :=
  l.filter fun rbt => decide (rbt.wreFlow = FlowType.RBT_NODE_OUT)

/-- The number of RBTs of a node whose wrench flow is NODE_IN. -/
def iDynNode.wrenchInputs (self : iDynNode α) : Nat :=
  (wrenchInputRBTs self.rbtList).length

/-- The kinematic vectors cached in an RBT. -/
def RigidBodyTransformation.kinematicCache (self : RigidBodyTransformation α) :
    Yarp.Vector α × Yarp.Vector α × Yarp.Vector α :=
  (self.w, self.dw, self.ddp)

/-- The aggregate kinematic vectors of a node. -/
def iDynNode.aggregateKinematics (self : iDynNode α) :
    Yarp.Vector α × Yarp.Vector α × Yarp.Vector α :=
  (self.w, self.dw, self.ddp)

/-- The last RBT of a list with kinematic flow NODE_IN, if there is one. -/
def lastKinematicInput : List (RigidBodyTransformation α) → Option (RigidBodyTransformation α)
  | [] => none
  | rbt :: rest =>
    match lastKinematicInput rest with
    | some r => some r
    | none => if rbt.kinFlow = FlowType.RBT_NODE_IN then some rbt else none

/-- The RBT `rbt` after its cache was set to `k` and transformed by `computeKinematic`. -/
def RigidBodyTransformation.withKinematic [CommRing α] (rbt : RigidBodyTransformation α)
    (k : Yarp.Vector α × Yarp.Vector α × Yarp.Vector α) : RigidBodyTransformation α :=
  ({ rbt with w := k.1, dw := k.2.1, ddp := k.2.2 }).computeKinematic

/-- The two calls the kinematics protocol owes to a kinematic-output RBT for the aggregate `k`:
`initKinematicNewtonEuler` with the transformed aggregate, then
`computeKinematicNewtonEuler`. -/
def kinematicOutputCalls [CommRing α] (k : Yarp.Vector α × Yarp.Vector α × Yarp.Vector α)
    (rbt : RigidBodyTransformation α) : List (Call α) :=
  [ Call.initKinematicNewtonEuler rbt.limb (rbt.withKinematic k).w (rbt.withKinematic k).dw
      (rbt.withKinematic k).ddp,
    Call.computeKinematicNewtonEuler rbt.limb ]

/-- For each wrench-input RBT of the list, in attachment order, the RBT together with the
force and moment its limb reports through `getWrenchNewtonEuler` after its
`computeWrenchNewtonEuler`, the limbs being asked one after the other from `world` on. -/
def wrenchReports (ops : Collaborators α W) :
    List (RigidBodyTransformation α) → W →
      List (RigidBodyTransformation α × Yarp.Vector α × Yarp.Vector α)
  | [], _ => []
  | rbt :: rest, world =>
    if rbt.wreFlow = FlowType.RBT_NODE_IN then
      let asked := ops.getWrenchNewtonEuler (ops.computeWrenchNewtonEuler world rbt.limb)
        rbt.limb (rbt.F, rbt.Mu)
      (rbt, asked.1.1, asked.1.2) :: wrenchReports ops rest asked.2
    else
      wrenchReports ops rest world

/-- Every sensorized wrench-input RBT finds a sensor at its index. -/
def SensorsPresent : List (RigidBodyTransformation α) → List (Option Nat) → Prop
  | [], _ => True
  | rbt :: rest, sensors =>
    ((rbt.wreFlow = FlowType.RBT_NODE_IN ∧ rbt.hasSensor = true) → (sensorAt sensors).isSome) ∧
      SensorsPresent rest sensors.tail

/-- Whether `SensorsPresent` holds can be computed. -/
def SensorsPresent.decidable :
    (l : List (RigidBodyTransformation α)) → (sensors : List (Option Nat)) →
      Decidable (SensorsPresent l sensors)
  | [], _ => isTrue trivial
  | rbt :: rest, sensors =>
    have _inst : Decidable (SensorsPresent rest sensors.tail) :=
      SensorsPresent.decidable rest sensors.tail
    (inferInstance : Decidable
      (((rbt.wreFlow = FlowType.RBT_NODE_IN ∧ rbt.hasSensor = true) →
          (sensorAt sensors).isSome) ∧ SensorsPresent rest sensors.tail))

instance (l : List (RigidBodyTransformation α)) (sensors : List (Option Nat)) :
    Decidable (SensorsPresent l sensors) :=
  SensorsPresent.decidable l sensors

/-- The vertical stacking `[Fm; Mm]`: the rows of `Fm` followed by the rows of `Mm`. -/
def stack (Fm Mm : Yarp.Matrix α) : Yarp.Matrix α :=
  { rows := Fm.rows + Mm.rows, cols := Fm.cols, data := Fm.data ++ Mm.data }

/-- The call by which a wrench-input RBT hands column `k` of the 6-row matrix `FM` to its limb:
rows 0..2 as force, rows 3..5 as moment. -/
def wrenchMeasureCall [Zero α] (FM : Yarp.Matrix α) (k : Nat)
    (rbt : RigidBodyTransformation α) : Call α :=
  Call.initWrenchNewtonEuler rbt.limb [FM.get 0 k, FM.get 1 k, FM.get 2 k]
    [FM.get 3 k, FM.get 4 k, FM.get 5 k]


/-! ## Concrete data for the node claims -/

/-- A node with two kinematic inputs (limbs 0 and 1) and one kinematic output (limb 2). -/
def twoInputNode : iDynNode ℤ :=
  { rbtList :=
      [ sampleRBT 0 FlowType.RBT_NODE_IN FlowType.RBT_NODE_IN NewEulMode.DYNAMIC (identity4 ℤ),
        sampleRBT 1 FlowType.RBT_NODE_IN FlowType.RBT_NODE_IN NewEulMode.DYNAMIC quarterTurnH,
        sampleRBT 2 FlowType.RBT_NODE_OUT FlowType.RBT_NODE_IN NewEulMode.DYNAMIC axialH ],
    mode := NewEulMode.DYNAMIC, info := "two inputs", verbose := 0,
    w := [0, 0, 0], dw := [0, 0, 0], ddp := [0, 0, 0], F := [0, 0, 0], Mu := [0, 0, 0] }

/-- A node without any kinematic input: two kinematic outputs. -/
def noInputNode : iDynNode ℤ :=
  { rbtList :=
      [ sampleRBT 1 FlowType.RBT_NODE_OUT FlowType.RBT_NODE_IN NewEulMode.DYNAMIC quarterTurnH,
        sampleRBT 2 FlowType.RBT_NODE_OUT FlowType.RBT_NODE_OUT NewEulMode.DYNAMIC axialH ],
    mode := NewEulMode.DYNAMIC, info := "no input", verbose := 0,
    w := [3, 1, 4], dw := [1, 5, 9], ddp := [2, 6, 5], F := [0, 0, 0], Mu := [0, 0, 0] }

/-- A world in which limb 1 reports the force `(1, 0, 0)`, limb 2 the force `(0, 1, 0)` and
every other limb no force, all with zero moment; kinematic reports are
`(1, 2, 3), (4, 5, 6), (7, 8, 9)`; every call is counted. -/
def limbCollaborators : Collaborators ℤ Nat :=
  { initKinematicNewtonEuler := fun n _ _ _ _ => (true, n + 1)
    computeKinematicNewtonEuler := fun n _ => n + 1
    getKinematicNewtonEuler := fun n _ _ => (([1, 2, 3], [4, 5, 6], [7, 8, 9]), n + 1)
    initWrenchNewtonEuler := fun n _ _ _ => (true, n + 1)
    computeWrenchNewtonEuler := fun n _ => n + 1
    getWrenchNewtonEuler := fun n limb _ =>
      ((if limb = 1 then [1, 0, 0] else if limb = 2 then [0, 1, 0] else [0, 0, 0], [0, 0, 0]),
        n + 1)
    setSensorMeasures := fun n _ _ _ => (true, n + 1)
    computeWrenchFromSensorNewtonEuler := fun n _ => n + 1 }

/-- A node of three limbs with identity transforms: limb 0 is the wrench output, limbs 1 and 2
are wrench inputs; the aggregate holds leftovers of an earlier solve. -/
def threeLimbNode : iDynNode ℤ :=
  { rbtList :=
      [ sampleRBT 0 FlowType.RBT_NODE_IN FlowType.RBT_NODE_OUT NewEulMode.DYNAMIC (identity4 ℤ),
        sampleRBT 1 FlowType.RBT_NODE_OUT FlowType.RBT_NODE_IN NewEulMode.DYNAMIC (identity4 ℤ),
        sampleRBT 2 FlowType.RBT_NODE_OUT FlowType.RBT_NODE_IN NewEulMode.DYNAMIC (identity4 ℤ) ],
    mode := NewEulMode.DYNAMIC, info := "three limbs", verbose := 0,
    w := [0, 0, 0], dw := [0, 0, 0], ddp := [0, 0, 0], F := [5, 5, 5], Mu := [1, 1, 1] }

/-- The node `torsoNode` with sensors on the two arms and none on the head. -/
def torsoSensorNode : iDynSensorNode ℤ :=
  { rbtList :=
      [ sampleRBT 0 FlowType.RBT_NODE_IN FlowType.RBT_NODE_IN NewEulMode.DYNAMIC (identity4 ℤ),
        { sampleRBT 1 FlowType.RBT_NODE_OUT FlowType.RBT_NODE_IN NewEulMode.DYNAMIC
            (identity4 ℤ) with hasSensor := true },
        { sampleRBT 2 FlowType.RBT_NODE_OUT FlowType.RBT_NODE_IN NewEulMode.DYNAMIC
            (identity4 ℤ) with hasSensor := true } ],
    mode := NewEulMode.DYNAMIC, info := "upper_torso", verbose := 0,
    w := [0, 0, 0], dw := [0, 0, 0], ddp := [0, 0, 0], F := [0, 0, 0], Mu := [0, 0, 0],
    sensorList := [none, some 0, some 1] }

/-- A 6x3 measurement matrix: column `k` holds the force `(10k+1, 10k+2, 10k+3)` and the moment
`(10k+4, 10k+5, 10k+6)`. -/
def sixByThree : Yarp.Matrix ℤ :=
  { rows := 6, cols := 3,
    data := [[1, 11, 21], [2, 12, 22], [3, 13, 23], [4, 14, 24], [5, 15, 25], [6, 16, 26]] }

/-- A 6x4 measurement matrix: `sixByThree` with one more column. -/
def sixByFour : Yarp.Matrix ℤ :=
  { rows := 6, cols := 4,
    data := [[1, 11, 21, 31], [2, 12, 22, 32], [3, 13, 23, 33], [4, 14, 24, 34],
      [5, 15, 25, 35], [6, 16, 26, 36]] }

/-- A 6x2 measurement matrix: the first two columns of `sixByThree`. -/
def sixByTwo : Yarp.Matrix ℤ :=
  { rows := 6, cols := 2,
    data := [[1, 11], [2, 12], [3, 13], [4, 14], [5, 15], [6, 16]] }

/-- A 5x2 matrix. -/
def fiveByTwo : Yarp.Matrix ℤ :=
  { rows := 5, cols := 2, data := [[1, 11], [2, 12], [3, 13], [4, 14], [5, 15]] }

/-- The upper three rows of `sixByThree`. -/
def forceRows : Yarp.Matrix ℤ :=
  { rows := 3, cols := 3, data := [[1, 11, 21], [2, 12, 22], [3, 13, 23]] }

/-- The lower three rows of `sixByThree`. -/
def momentRows : Yarp.Matrix ℤ :=
  { rows := 3, cols := 3, data := [[4, 14, 24], [5, 15, 25], [6, 16, 26]] }


/-- The two calls the kinematics protocol makes on the limb of a kinematic-input RBT:
`computeKinematicNewtonEuler`, then `getKinematicNewtonEuler`. -/
def kinematicInputCalls (rbt : RigidBodyTransformation α) : List (Call α) :=
  [Call.computeKinematicNewtonEuler rbt.limb, Call.getKinematicNewtonEuler rbt.limb]

/-- What the limb of `rbt` reports through `getKinematicNewtonEuler` once its
`computeKinematicNewtonEuler` was triggered in `world`. -/
def kinematicReport (ops : Collaborators α W) (rbt : RigidBodyTransformation α) (world : W) :
    (Yarp.Vector α × Yarp.Vector α × Yarp.Vector α) × W :=
  ops.getKinematicNewtonEuler (ops.computeKinematicNewtonEuler world rbt.limb) rbt.limb
    (rbt.w, rbt.dw, rbt.ddp)


/-- The sum of `R_i F_i` over a list of wrench reports `(RBT_i, F_i, Mu_i)`. -/
def reportedForceSum [CommRing α]
    (reports : List (RigidBodyTransformation α × Yarp.Vector α × Yarp.Vector α)) : Fin 3 → α :=
  (reports.map fun p => Matrix.mulVec (rotation p.1.H) (toFin3 p.2.1)).sum

/-- The sum of `t_i × (R_i F_i) + R_i Mu_i` over a list of wrench reports
`(RBT_i, F_i, Mu_i)`. -/
def reportedMomentSum [CommRing α]
    (reports : List (RigidBodyTransformation α × Yarp.Vector α × Yarp.Vector α)) : Fin 3 → α :=
  (reports.map fun p =>
    crossProduct (translation p.1.H) (Matrix.mulVec (rotation p.1.H) (toFin3 p.2.1))
      + Matrix.mulVec (rotation p.1.H) (toFin3 p.2.2)).sum

/-- The RBT `rbt` after its wrench cache was set to `fm` and transformed by `computeWrench`. -/
def RigidBodyTransformation.withWrench [CommRing α] (rbt : RigidBodyTransformation α)
    (fm : Yarp.Vector α × Yarp.Vector α) : RigidBodyTransformation α :=
  ({ rbt with F := fm.1, Mu := fm.2 }).computeWrench


/-! ## Vocabulary of the composite claims -/

/-- The attachment an upper torso has after its constructor: head, right arm, left arm in
this order, the head as kinematic and wrench input without sensor, the arms as kinematic
outputs and wrench inputs with their sensors. -/
def UpperTorso.HasConstructorTopology (self : UpperTorso α) : Prop :=
  self.rbtList.map (fun r => (r.limb, r.kinFlow, r.wreFlow, r.hasSensor))
      = [ (self.head, FlowType.RBT_NODE_IN, FlowType.RBT_NODE_IN, false),
          (self.rightArm, FlowType.RBT_NODE_OUT, FlowType.RBT_NODE_IN, true),
          (self.leftArm, FlowType.RBT_NODE_OUT, FlowType.RBT_NODE_IN, true) ] ∧
    self.sensorList = [none, some self.rightSensor, some self.leftSensor]

instance (self : UpperTorso α) : Decidable self.HasConstructorTopology := by
  unfold UpperTorso.HasConstructorTopology; exact inferInstance

/-- One call of `addLimb` on a sensorized node: through the overload without sensor or through
the overload taking a sensor pointer (which may be null). -/
inductive AddLimbCall (α : Type) where
  | plain (limbType : String) (limb : Nat) (H : Yarp.Matrix α) (kinFlow wreFlow : FlowType)
  | withSensor (limbType : String) (limb : Nat) (H : Yarp.Matrix α) (sensor : Option Nat)
      (kinFlow wreFlow : FlowType)

/-- The call went through the overload taking a sensor. -/
def AddLimbCall.takesSensor : AddLimbCall α → Bool
  | AddLimbCall.plain _ _ _ _ _ => false
  | AddLimbCall.withSensor _ _ _ _ _ _ => true

/-- The sensor pointer the call supplied, null for the overload without sensor. -/
def AddLimbCall.sensorGiven : AddLimbCall α → Option Nat
  | AddLimbCall.plain _ _ _ _ _ => none
  | AddLimbCall.withSensor _ _ _ sensor _ _ => sensor

/-- The node after one call of `addLimb`. -/
def AddLimbCall.applyTo [Zero α] [One α] (node : iDynSensorNode α) :
    AddLimbCall α → iDynSensorNode α
  | AddLimbCall.plain limbType limb H kinFlow wreFlow =>
    node.addLimb limbType limb H kinFlow wreFlow
  | AddLimbCall.withSensor limbType limb H sensor kinFlow wreFlow =>
    node.addLimbSensor limbType limb H sensor kinFlow wreFlow

/-- The node after a sequence of calls of `addLimb`, made in the order of the list. -/
def addLimbs [Zero α] [One α] (node : iDynSensorNode α) (calls : List (AddLimbCall α)) :
    iDynSensorNode α :=
  calls.foldl AddLimbCall.applyTo node

/-! ## Concrete data for the composite claims -/

/-- An upper torso as its constructor leaves it: head is limb 0, right arm limb 1, left arm
limb 2, right sensor 10, left sensor 11. -/
def sampleTorso : UpperTorso ℤ :=
  UpperTorso.construct NewEulMode.DYNAMIC 0 2 1 0 11 10 "left_arm" "right_arm" "head"

/-- Limb results for the examples: limb `n` answers with the 1x1 matrix `(n)`, the 1x1 matrix
`(10 n)` and the vector `(n, n)`; the world counts the calls. -/
def sampleResults : LimbResults ℤ Nat :=
  { getForces := fun world n => ({ rows := 1, cols := 1, data := [[(n : ℤ)]] }, world + 1)
    getMoments := fun world n => ({ rows := 1, cols := 1, data := [[10 * (n : ℤ)]] }, world + 1)
    getTorques := fun world n => ([(n : ℤ), (n : ℤ)], world + 1) }

/-- A pure translation by `(1, 0, 0)`: identity rotation. -/
def shiftXH : Yarp.Matrix ℤ :=
  { rows := 4, cols := 4,
    data := [[1, 0, 0, 1], [0, 1, 0, 0], [0, 0, 1, 0], [0, 0, 0, 1]] }

/-- A node with one wrench input (limb 2, attached through the translation `(1, 0, 0)`) and one
wrench output (limb 0, attached through the identity). -/
def leverNode : iDynNode ℤ :=
  { rbtList :=
      [ sampleRBT 2 FlowType.RBT_NODE_OUT FlowType.RBT_NODE_IN NewEulMode.DYNAMIC shiftXH,
        sampleRBT 0 FlowType.RBT_NODE_IN FlowType.RBT_NODE_OUT NewEulMode.DYNAMIC (identity4 ℤ) ],
    mode := NewEulMode.DYNAMIC, info := "lever", verbose := 0,
    w := [0, 0, 0], dw := [0, 0, 0], ddp := [0, 0, 0], F := [5, 5, 5], Mu := [1, 1, 1] }


/-- The two calls the wrench protocol makes on the limb of a wrench-input RBT:
`computeWrenchNewtonEuler`, then `getWrenchNewtonEuler`. -/
def wrenchInputCalls (rbt : RigidBodyTransformation α) : List (Call α) :=
  [Call.computeWrenchNewtonEuler rbt.limb, Call.getWrenchNewtonEuler rbt.limb]

/-- The two calls the wrench protocol owes to a wrench-output RBT for the aggregate `fm`:
`initWrenchNewtonEuler` with the transformed aggregate, then `computeWrenchNewtonEuler`. -/
def wrenchOutputCalls [CommRing α] (fm : Yarp.Vector α × Yarp.Vector α)
    (rbt : RigidBodyTransformation α) : List (Call α) :=
  [ Call.initWrenchNewtonEuler rbt.limb (rbt.withWrench fm).F (rbt.withWrench fm).Mu,
    Call.computeWrenchNewtonEuler rbt.limb ]


/-! ## Vocabulary of the last claims -/

/-- The RBT after a sequence of `setRBT` calls, made in the order of the list. -/
def setRBTs [Zero α] [One α] (s : RigidBodyTransformation α) (Hs : List (Yarp.Matrix α)) :
    RigidBodyTransformation α :=
  Hs.foldl (fun r H => (r.setRBT H).2) s

/-- The matrix is 4x4, the test made by `setRBT`. -/
def isFourByFour (H : Yarp.Matrix α) : Prop := H.cols = 4 ∧ H.rows = 4

instance (H : Yarp.Matrix α) : Decidable (isFourByFour H) := by
  unfold isFourByFour; exact inferInstance

/-- The composition the wrench round trip speaks about: `computeWrench` with wrench flow
NODE_IN, then `computeWrench` with wrench flow NODE_OUT on the result, `H` being the same in
both steps. -/
def wrenchInThenOut [CommRing α] (self : RigidBodyTransformation α) :
    RigidBodyTransformation α :=
  (((self.setInfoFlow self.kinFlow FlowType.RBT_NODE_IN).computeWrench).setInfoFlow
    self.kinFlow FlowType.RBT_NODE_OUT).computeWrench

/-- The call by which a kinematic-input RBT hands the measure `(w0, dw0, ddp0)` to its limb. -/
def kinematicMeasureCall (w0 dw0 ddp0 : Yarp.Vector α) (rbt : RigidBodyTransformation α) :
    Call α :=
  Call.initKinematicNewtonEuler rbt.limb w0 dw0 ddp0

/-! ## Concrete data for the last claims -/

/-- The node `threeLimbNode` as a sensorized node without any sensor. -/
def plainSensorNode : iDynSensorNode ℤ :=
  { toiDynNode := threeLimbNode, sensorList := [none, none, none] }

/-- A world as `countingCollaborators`, in which every limb refuses what
`initKinematicNewtonEuler` gives it. -/
def refusingCollaborators : Collaborators ℤ Nat :=
  { countingCollaborators with
    initKinematicNewtonEuler := fun n _ _ _ _ => (false, n + 1) }

/-- The transform `quarterTurnH` with a cached force `(0, 0, 5)` along the rotation axis. -/
def axisForceRBT : RigidBodyTransformation ℤ :=
  { sampleRBT 0 FlowType.RBT_NODE_IN FlowType.RBT_NODE_IN NewEulMode.DYNAMIC quarterTurnH with
    F := [0, 0, 5] }

/-- The first two columns of `forceRows`. -/
def threeByTwoF : Yarp.Matrix ℤ :=
  { rows := 3, cols := 2, data := [[1, 11], [2, 12], [3, 13]] }

/-- The first two columns of `momentRows`. -/
def threeByTwoM : Yarp.Matrix ℤ :=
  { rows := 3, cols := 2, data := [[4, 14], [5, 15], [6, 16]] }


/-- The calls the first loop of `iDynSensorNode::solveWrench` owes to the wrench-input RBTs of a
list with the sensors at the same indices: for a sensorized RBT
`computeWrenchFromSensorNewtonEuler` on its sensor, for any other `computeWrenchNewtonEuler` on
its limb, each followed by `getWrenchNewtonEuler` on the limb. -/
def sensorWrenchInputCalls :
    List (RigidBodyTransformation α) → List (Option Nat) → List (Call α)
  | [], _ => []
  | rbt :: rest, sensors =>
    if rbt.wreFlow = FlowType.RBT_NODE_IN then
      (if rbt.hasSensor = true then
          ((sensorAt sensors).map Call.computeWrenchFromSensorNewtonEuler).toList
        else [Call.computeWrenchNewtonEuler rbt.limb])
        ++ Call.getWrenchNewtonEuler rbt.limb :: sensorWrenchInputCalls rest sensors.tail
    else
      sensorWrenchInputCalls rest sensors.tail


/-- A sensorized node built through `addLimb`: the head without sensor, the right arm with
sensor 7 and the left arm through the sensor overload with a null pointer. -/
def nullSensorNode : iDynSensorNode ℤ :=
  addLimbs (iDynSensorNode.construct "node" NewEulMode.DYNAMIC 0)
    [ AddLimbCall.plain "head" 0 (identity4 ℤ) FlowType.RBT_NODE_IN FlowType.RBT_NODE_IN,
      AddLimbCall.withSensor "right_arm" 1 quarterTurnH (some 7) FlowType.RBT_NODE_OUT
        FlowType.RBT_NODE_IN,
      AddLimbCall.withSensor "left_arm" 2 axialH none FlowType.RBT_NODE_OUT
        FlowType.RBT_NODE_IN ]


end iDyn

/-! ## Lemmas on the library operations -/

namespace Yarp.Matrix

variable {α : Type}

theorem resize_rows [Zero α] (m : Matrix α) (r c : Nat) : (m.resize r c).rows = r := by
  unfold resize
  split
  · rename_i h; exact h.1
  · rfl

theorem resize_cols [Zero α] (m : Matrix α) (r c : Nat) : (m.resize r c).cols = c := by
  unfold resize
  split
  · rename_i h; exact h.2
  · rfl

end Yarp.Matrix

namespace iDyn

variable {α W : Type}

theorem resize_eye_eq_identity4 [Zero α] [One α] (m : Yarp.Matrix α) :
    (m.resize 4 4).eye = identity4 α := by
  simp [Yarp.Matrix.eye, Yarp.Matrix.resize_rows, Yarp.Matrix.resize_cols, Yarp.Matrix.ofFn,
    identity4, List.range_succ]

theorem getR_mulVec [CommRing α] (self : RigidBodyTransformation α) (v : Yarp.Vector α) :
    self.getR.mulVec v = ofFin3 (Matrix.mulVec (rotation self.H) (toFin3 v)) := by
  simp [RigidBodyTransformation.getR, Yarp.Matrix.mulVec, Yarp.Matrix.submatrix,
    Yarp.Matrix.ofFn, Yarp.Matrix.get, List.range_succ, ofFin3, toFin3, rotation,
    Matrix.mulVec, Matrix.dotProduct, Fin.sum_univ_three]

theorem getR_transposed_mulVec [CommRing α] (self : RigidBodyTransformation α)
    (v : Yarp.Vector α) :
    self.getR.transposed.mulVec v
      = ofFin3 (Matrix.mulVec (Matrix.transpose (rotation self.H)) (toFin3 v)) := by
  simp [RigidBodyTransformation.getR, Yarp.Matrix.mulVec, Yarp.Matrix.submatrix,
    Yarp.Matrix.transposed, Yarp.Matrix.ofFn, Yarp.Matrix.get, List.range_succ, ofFin3, toFin3,
    rotation, Matrix.mulVec, Matrix.dotProduct, Fin.sum_univ_three]

theorem getr_false [CommRing α] (self : RigidBodyTransformation α) :
    self.getr false = ofFin3 (translation self.H) := by
  simp [RigidBodyTransformation.getr, Yarp.Matrix.getCol, Yarp.Matrix.submatrix,
    Yarp.Matrix.ofFn, Yarp.Matrix.get, List.range_succ, ofFin3, translation]

theorem getr_true [CommRing α] (self : RigidBodyTransformation α) :
    self.getr true = ofFin3 (projectedTranslation self.H) := by
  simp [RigidBodyTransformation.getr, RigidBodyTransformation.getR, Yarp.Matrix.getCol,
    Yarp.Matrix.submatrix, Yarp.Matrix.smul, Yarp.Matrix.transposed, Yarp.Matrix.mulVec,
    Yarp.Matrix.ofFn, Yarp.Matrix.get, Yarp.Vector.get, List.range_succ, ofFin3, translation,
    projectedTranslation, rotation, Matrix.mulVec, Matrix.dotProduct, Fin.sum_univ_three]
  refine ⟨?_, ?_, ?_⟩ <;> ring

theorem cross_eq [CommRing α] (a b : Yarp.Vector α) :
    ctrl.cross a b = ofFin3 (crossProduct (toFin3 a) (toFin3 b)) := by
  simp [ctrl.cross, ofFin3, toFin3, cross_apply]

theorem toFin3_ofFin3 [Zero α] (f : Fin 3 → α) : toFin3 (ofFin3 f) = f := by
  funext i
  fin_cases i <;> simp [toFin3, ofFin3, Yarp.Vector.get]

theorem ofFin3_toFin3 [Zero α] (v : Yarp.Vector α) (h : v.length = 3) :
    ofFin3 (toFin3 v) = v := by
  obtain ⟨a, b, c, rfl⟩ := List.length_eq_three.mp h
  simp [toFin3, ofFin3, Yarp.Vector.get]

theorem sub_ofFin3 [CommRing α] (f g : Fin 3 → α) :
    Yarp.Vector.sub (ofFin3 f) (ofFin3 g) = ofFin3 (f - g) := by
  simp [Yarp.Vector.sub, ofFin3]

theorem add_ofFin3 [CommRing α] (f g : Fin 3 → α) :
    Yarp.Vector.add (ofFin3 f) (ofFin3 g) = ofFin3 (f + g) := by
  simp [Yarp.Vector.add, ofFin3]

theorem assignScalar_zero [Zero α] (v : Yarp.Vector α) (h : v.length = 3) :
    Yarp.Vector.assignScalar v 0 = [0, 0, 0] := by
  simp [Yarp.Vector.assignScalar, h, List.replicate]

/-! ## Lemmas on rotations and cross products -/

theorem adjugate_eq_transpose_of_rotation [CommRing α] (R : Matrix (Fin 3) (Fin 3) α)
    (horth : Matrix.transpose R * R = 1) (hdet : Matrix.det R = 1) :
    Matrix.adjugate R = Matrix.transpose R := by
  have h1 : R * Matrix.adjugate R = 1 := by
    rw [Matrix.mul_adjugate, hdet, one_smul]
  calc Matrix.adjugate R = (Matrix.transpose R * R) * Matrix.adjugate R := by
        rw [horth, one_mul]
    _ = Matrix.transpose R * (R * Matrix.adjugate R) := by rw [Matrix.mul_assoc]
    _ = Matrix.transpose R := by rw [h1, mul_one]

theorem cross_mulVec_adjugate [CommRing α] (R : Matrix (Fin 3) (Fin 3) α)
    (a b : Fin 3 → α) :
    crossProduct (Matrix.mulVec R a) (Matrix.mulVec R b)
      = Matrix.mulVec (Matrix.transpose (Matrix.adjugate R)) (crossProduct a b) := by
  funext i
  fin_cases i <;>
    simp [Matrix.adjugate_fin_three, cross_apply, Matrix.mulVec, Matrix.dotProduct,
      Fin.sum_univ_three] <;> ring

theorem cross_mulVec_of_rotation [CommRing α] (R : Matrix (Fin 3) (Fin 3) α)
    (horth : Matrix.transpose R * R = 1) (hdet : Matrix.det R = 1) (a b : Fin 3 → α) :
    crossProduct (Matrix.mulVec R a) (Matrix.mulVec R b)
      = Matrix.mulVec R (crossProduct a b) := by
  rw [cross_mulVec_adjugate, adjugate_eq_transpose_of_rotation R horth hdet,
    Matrix.transpose_transpose]

theorem transpose_mulVec_mulVec [CommRing α] (R : Matrix (Fin 3) (Fin 3) α)
    (horth : Matrix.transpose R * R = 1) (v : Fin 3 → α) :
    Matrix.mulVec (Matrix.transpose R) (Matrix.mulVec R v) = v := by
  rw [Matrix.mulVec_mulVec, horth, Matrix.one_mulVec]

/-- With zero translation, or with a proper rotation that fixes the translation, the terms added
by the NODE_OUT step cancel those subtracted by the NODE_IN step. -/
theorem roundtrip_acceleration [CommRing α] (R : Matrix (Fin 3) (Fin 3) α)
    (t w dw ddp : Fin 3 → α) (horth : Matrix.transpose R * R = 1)
    (h : t = 0 ∨ (Matrix.det R = 1 ∧ Matrix.mulVec R t = t)) :
    Matrix.mulVec (Matrix.transpose R)
      (Matrix.mulVec R
          (ddp - crossProduct dw (-(Matrix.mulVec (Matrix.transpose R) t))
            - crossProduct w (crossProduct w (-(Matrix.mulVec (Matrix.transpose R) t))))
        + crossProduct (Matrix.mulVec R dw) (-(Matrix.mulVec (Matrix.transpose R) t))
        + crossProduct (Matrix.mulVec R w)
            (crossProduct (Matrix.mulVec R w) (-(Matrix.mulVec (Matrix.transpose R) t))))
      = ddp := by
  rcases h with h | ⟨hdet, hfix⟩
  · subst h
    simp only [Matrix.mulVec_zero, neg_zero, map_zero, sub_zero, add_zero]
    exact transpose_mulVec_mulVec R horth ddp
  · have hr : Matrix.mulVec (Matrix.transpose R) t = t := by
      conv_lhs => rw [← hfix]
      exact transpose_mulVec_mulVec R horth t
    rw [hr]
    have hfix2 : Matrix.mulVec R (-t) = -t := by rw [Matrix.mulVec_neg, hfix]
    have c1 : crossProduct (Matrix.mulVec R dw) (-t)
        = Matrix.mulVec R (crossProduct dw (-t)) := by
      conv_lhs => rw [← hfix2]
      exact cross_mulVec_of_rotation R horth hdet dw (-t)
    have c2 : crossProduct (Matrix.mulVec R w) (crossProduct (Matrix.mulVec R w) (-t))
        = Matrix.mulVec R (crossProduct w (crossProduct w (-t))) := by
      have c3 : crossProduct (Matrix.mulVec R w) (-t)
          = Matrix.mulVec R (crossProduct w (-t)) := by
        conv_lhs => rw [← hfix2]
        exact cross_mulVec_of_rotation R horth hdet w (-t)
      rw [c3]
      exact cross_mulVec_of_rotation R horth hdet w (crossProduct w (-t))
    rw [c1, c2, ← Matrix.mulVec_add, ← Matrix.mulVec_add]
    have e : ddp - crossProduct dw (-t) - crossProduct w (crossProduct w (-t))
        + crossProduct dw (-t) + crossProduct w (crossProduct w (-t)) = ddp := by abel
    rw [e]
    exact transpose_mulVec_mulVec R horth ddp

/-! ## What the transformations leave in the cache -/

/-- The fields `computeKinematic` does not assign. -/
theorem computeKinematic_frame [CommRing α] (self : RigidBodyTransformation α) :
    self.computeKinematic.H = self.H ∧ self.computeKinematic.mode = self.mode ∧
    self.computeKinematic.kinFlow = self.kinFlow ∧
    self.computeKinematic.wreFlow = self.wreFlow ∧
    self.computeKinematic.limb = self.limb ∧ self.computeKinematic.F = self.F ∧
    self.computeKinematic.Mu = self.Mu ∧ self.computeKinematic.hasSensor = self.hasSensor := by
  unfold RigidBodyTransformation.computeKinematic
  cases self.kinFlow <;> cases self.mode <;> simp

/-- What `computeKinematic` leaves in `(w, dw, ddp)` for flow NODE_IN in a dynamic mode. -/
theorem computeKinematic_in_dynamic_fields [CommRing α] (self : RigidBodyTransformation α)
    (hddp : self.ddp.length = 3) (hflow : self.kinFlow = FlowType.RBT_NODE_IN)
    (hmode : self.mode.isDynamic) :
    self.computeKinematic.w = ofFin3 (Matrix.mulVec (rotation self.H) (toFin3 self.w)) ∧
    self.computeKinematic.dw = ofFin3 (Matrix.mulVec (rotation self.H) (toFin3 self.dw)) ∧
    self.computeKinematic.ddp = ofFin3 (Matrix.mulVec (rotation self.H)
      (toFin3 self.ddp - crossProduct (toFin3 self.dw) (projectedTranslation self.H)
        - crossProduct (toFin3 self.w)
            (crossProduct (toFin3 self.w) (projectedTranslation self.H)))) := by
  have hd : Yarp.Vector.sub (Yarp.Vector.sub self.ddp
        (ctrl.cross self.dw (self.getr true)))
        (ctrl.cross self.w (ctrl.cross self.w (self.getr true)))
      = ofFin3 (toFin3 self.ddp - crossProduct (toFin3 self.dw) (projectedTranslation self.H)
        - crossProduct (toFin3 self.w)
            (crossProduct (toFin3 self.w) (projectedTranslation self.H))) := by
    rw [getr_true, cross_eq, cross_eq, cross_eq, toFin3_ofFin3, toFin3_ofFin3]
    conv_lhs => rw [← ofFin3_toFin3 self.ddp hddp]
    rw [sub_ofFin3, sub_ofFin3]
  rcases hmode with h | h | h <;>
    simp [RigidBodyTransformation.computeKinematic, hflow, h, getR_mulVec, hd, toFin3_ofFin3]

/-- What `computeKinematic` leaves in `(w, dw, ddp)` for flow NODE_OUT in a dynamic mode. -/
theorem computeKinematic_out_dynamic_fields [CommRing α] (self : RigidBodyTransformation α)
    (hddp : self.ddp.length = 3) (hflow : self.kinFlow = FlowType.RBT_NODE_OUT)
    (hmode : self.mode.isDynamic) :
    self.computeKinematic.w
      = ofFin3 (Matrix.mulVec (Matrix.transpose (rotation self.H)) (toFin3 self.w)) ∧
    self.computeKinematic.dw
      = ofFin3 (Matrix.mulVec (Matrix.transpose (rotation self.H)) (toFin3 self.dw)) ∧
    self.computeKinematic.ddp = ofFin3 (Matrix.mulVec (Matrix.transpose (rotation self.H))
      (toFin3 self.ddp + crossProduct (toFin3 self.dw) (projectedTranslation self.H)
        + crossProduct (toFin3 self.w)
            (crossProduct (toFin3 self.w) (projectedTranslation self.H)))) := by
  have hd : Yarp.Vector.add (Yarp.Vector.add self.ddp
        (ctrl.cross self.dw (self.getr true)))
        (ctrl.cross self.w (ctrl.cross self.w (self.getr true)))
      = ofFin3 (toFin3 self.ddp + crossProduct (toFin3 self.dw) (projectedTranslation self.H)
        + crossProduct (toFin3 self.w)
            (crossProduct (toFin3 self.w) (projectedTranslation self.H))) := by
    rw [getr_true, cross_eq, cross_eq, cross_eq, toFin3_ofFin3, toFin3_ofFin3]
    conv_lhs => rw [← ofFin3_toFin3 self.ddp hddp]
    rw [add_ofFin3, add_ofFin3]
  rcases hmode with h | h | h <;>
    simp [RigidBodyTransformation.computeKinematic, hflow, h, getR_transposed_mulVec, hd,
      toFin3_ofFin3]

/-- What `computeKinematic` leaves in `(w, dw, ddp)` in STATIC mode. -/
theorem computeKinematic_static_fields [CommRing α] (self : RigidBodyTransformation α)
    (hw : self.w.length = 3) (hdw : self.dw.length = 3)
    (hmode : self.mode = NewEulMode.STATIC) :
    self.computeKinematic.w = [0, 0, 0] ∧ self.computeKinematic.dw = [0, 0, 0] ∧
    (self.kinFlow = FlowType.RBT_NODE_IN →
      self.computeKinematic.ddp
        = ofFin3 (Matrix.mulVec (rotation self.H) (toFin3 self.ddp))) ∧
    (self.kinFlow = FlowType.RBT_NODE_OUT →
      self.computeKinematic.ddp
        = ofFin3 (Matrix.mulVec (Matrix.transpose (rotation self.H)) (toFin3 self.ddp))) := by
  cases hf : self.kinFlow <;>
    simp [RigidBodyTransformation.computeKinematic, hf, hmode, getR_mulVec,
      getR_transposed_mulVec, assignScalar_zero, hw, hdw]

/-- What `computeWrench` leaves in `(F, Mu)` for wrench flow NODE_IN. -/
theorem computeWrench_in_fields [CommRing α] (self : RigidBodyTransformation α)
    (hflow : self.wreFlow = FlowType.RBT_NODE_IN) :
    self.computeWrench.F = ofFin3 (Matrix.mulVec (rotation self.H) (toFin3 self.F)) ∧
    self.computeWrench.Mu = ofFin3
      (crossProduct (translation self.H) (Matrix.mulVec (rotation self.H) (toFin3 self.F))
        + Matrix.mulVec (rotation self.H) (toFin3 self.Mu)) := by
  simp [RigidBodyTransformation.computeWrench, hflow, getrDefaultProj, getR_mulVec,
    getr_false, cross_eq, toFin3_ofFin3, add_ofFin3]

/-- What `computeWrench` leaves in `(F, Mu)` for wrench flow NODE_OUT. -/
theorem computeWrench_out_fields [CommRing α] (self : RigidBodyTransformation α)
    (hMu : self.Mu.length = 3) (hflow : self.wreFlow = FlowType.RBT_NODE_OUT) :
    self.computeWrench.F
      = ofFin3 (Matrix.mulVec (Matrix.transpose (rotation self.H)) (toFin3 self.F)) ∧
    self.computeWrench.Mu = ofFin3 (Matrix.mulVec (Matrix.transpose (rotation self.H))
      (toFin3 self.Mu
        - crossProduct (translation self.H)
            (Matrix.mulVec (rotation self.H) (toFin3 self.F)))) := by
  have hd : Yarp.Vector.sub self.Mu (ctrl.cross (self.getr false) (self.getR.mulVec self.F))
      = ofFin3 (toFin3 self.Mu - crossProduct (translation self.H)
          (Matrix.mulVec (rotation self.H) (toFin3 self.F))) := by
    rw [getr_false, getR_mulVec, cross_eq, toFin3_ofFin3, toFin3_ofFin3]
    conv_lhs => rw [← ofFin3_toFin3 self.Mu hMu]
    rw [sub_ofFin3]
  simp [RigidBodyTransformation.computeWrench, hflow, getrDefaultProj,
    getR_transposed_mulVec, hd, toFin3_ofFin3]

/-- The result of `computeWrench` in `(F, Mu)` is the same whatever the mode. -/
theorem computeWrench_mode_independent [CommRing α] (self : RigidBodyTransformation α)
    (m : NewEulMode) :
    ({ self with mode := m }).computeWrench.F = self.computeWrench.F ∧
    ({ self with mode := m }).computeWrench.Mu = self.computeWrench.Mu := by
  cases hf : self.wreFlow <;>
    simp [RigidBodyTransformation.computeWrench, hf, RigidBodyTransformation.getR,
      RigidBodyTransformation.getr]

/-- Both steps of `kinematicInThenOut`, in a dynamic mode, written with `R`, `Rᵀ` and `r`. -/
theorem kinematicInThenOut_dynamic_fields [CommRing α] (self : RigidBodyTransformation α)
    (hddp : self.ddp.length = 3) (hmode : self.mode.isDynamic) :
    (kinematicInThenOut self).w = ofFin3 (Matrix.mulVec (Matrix.transpose (rotation self.H))
      (Matrix.mulVec (rotation self.H) (toFin3 self.w))) ∧
    (kinematicInThenOut self).dw = ofFin3 (Matrix.mulVec (Matrix.transpose (rotation self.H))
      (Matrix.mulVec (rotation self.H) (toFin3 self.dw))) ∧
    (kinematicInThenOut self).ddp = ofFin3 (Matrix.mulVec (Matrix.transpose (rotation self.H))
      (Matrix.mulVec (rotation self.H)
          (toFin3 self.ddp - crossProduct (toFin3 self.dw) (projectedTranslation self.H)
            - crossProduct (toFin3 self.w)
                (crossProduct (toFin3 self.w) (projectedTranslation self.H)))
        + crossProduct (Matrix.mulVec (rotation self.H) (toFin3 self.dw))
            (projectedTranslation self.H)
        + crossProduct (Matrix.mulVec (rotation self.H) (toFin3 self.w))
            (crossProduct (Matrix.mulVec (rotation self.H) (toFin3 self.w))
              (projectedTranslation self.H)))) := by
  have h1 := computeKinematic_in_dynamic_fields
    (self.setInfoFlow FlowType.RBT_NODE_IN self.wreFlow) hddp rfl hmode
  obtain ⟨hH, hm, -⟩ := computeKinematic_frame
    (self.setInfoFlow FlowType.RBT_NODE_IN self.wreFlow)
  have hlen : ((self.setInfoFlow FlowType.RBT_NODE_IN self.wreFlow).computeKinematic).ddp.length
      = 3 := by
    rw [h1.2.2]; rfl
  have hmode2 :
      ((self.setInfoFlow FlowType.RBT_NODE_IN self.wreFlow).computeKinematic).mode.isDynamic := by
    rw [hm]; exact hmode
  have h2 := computeKinematic_out_dynamic_fields
    (((self.setInfoFlow FlowType.RBT_NODE_IN self.wreFlow).computeKinematic).setInfoFlow
      FlowType.RBT_NODE_OUT self.wreFlow) hlen rfl hmode2
  unfold kinematicInThenOut
  rw [h2.1, h2.2.1, h2.2.2]
  have e1 : (((self.setInfoFlow FlowType.RBT_NODE_IN self.wreFlow).computeKinematic).setInfoFlow
      FlowType.RBT_NODE_OUT self.wreFlow).H = self.H := hH
  have e2 : (((self.setInfoFlow FlowType.RBT_NODE_IN self.wreFlow).computeKinematic).setInfoFlow
      FlowType.RBT_NODE_OUT self.wreFlow).w
        = ((self.setInfoFlow FlowType.RBT_NODE_IN self.wreFlow).computeKinematic).w := rfl
  have e3 : (((self.setInfoFlow FlowType.RBT_NODE_IN self.wreFlow).computeKinematic).setInfoFlow
      FlowType.RBT_NODE_OUT self.wreFlow).dw
        = ((self.setInfoFlow FlowType.RBT_NODE_IN self.wreFlow).computeKinematic).dw := rfl
  have e4 : (((self.setInfoFlow FlowType.RBT_NODE_IN self.wreFlow).computeKinematic).setInfoFlow
      FlowType.RBT_NODE_OUT self.wreFlow).ddp
        = ((self.setInfoFlow FlowType.RBT_NODE_IN self.wreFlow).computeKinematic).ddp := rfl
  rw [e1, e2, e3, e4, h1.1, h1.2.1, h1.2.2]
  have e5 : (self.setInfoFlow FlowType.RBT_NODE_IN self.wreFlow).H = self.H := rfl
  have e6 : (self.setInfoFlow FlowType.RBT_NODE_IN self.wreFlow).w = self.w := rfl
  have e7 : (self.setInfoFlow FlowType.RBT_NODE_IN self.wreFlow).dw = self.dw := rfl
  have e8 : (self.setInfoFlow FlowType.RBT_NODE_IN self.wreFlow).ddp = self.ddp := rfl
  rw [e5, e6, e7, e8]
  simp only [toFin3_ofFin3, and_self]

/-- Both steps of `kinematicInThenOut` in STATIC mode. -/
theorem kinematicInThenOut_static_fields [CommRing α] (self : RigidBodyTransformation α)
    (hw : self.w.length = 3) (hdw : self.dw.length = 3)
    (hmode : self.mode = NewEulMode.STATIC) :
    (kinematicInThenOut self).w = [0, 0, 0] ∧ (kinematicInThenOut self).dw = [0, 0, 0] ∧
    (kinematicInThenOut self).ddp = ofFin3 (Matrix.mulVec (Matrix.transpose (rotation self.H))
      (Matrix.mulVec (rotation self.H) (toFin3 self.ddp))) := by
  obtain ⟨a1, a2, a3, -⟩ := computeKinematic_static_fields
    (self.setInfoFlow FlowType.RBT_NODE_IN self.wreFlow) hw hdw hmode
  obtain ⟨hH, hm, -⟩ := computeKinematic_frame
    (self.setInfoFlow FlowType.RBT_NODE_IN self.wreFlow)
  have hw1 : (((self.setInfoFlow FlowType.RBT_NODE_IN self.wreFlow).computeKinematic).setInfoFlow
      FlowType.RBT_NODE_OUT self.wreFlow).w.length = 3 := by
    show ((self.setInfoFlow FlowType.RBT_NODE_IN self.wreFlow).computeKinematic).w.length = 3
    rw [a1]; rfl
  have hdw1 : (((self.setInfoFlow FlowType.RBT_NODE_IN self.wreFlow).computeKinematic).setInfoFlow
      FlowType.RBT_NODE_OUT self.wreFlow).dw.length = 3 := by
    show ((self.setInfoFlow FlowType.RBT_NODE_IN self.wreFlow).computeKinematic).dw.length = 3
    rw [a2]; rfl
  have hm1 : (((self.setInfoFlow FlowType.RBT_NODE_IN self.wreFlow).computeKinematic).setInfoFlow
      FlowType.RBT_NODE_OUT self.wreFlow).mode = NewEulMode.STATIC := by
    show ((self.setInfoFlow FlowType.RBT_NODE_IN self.wreFlow).computeKinematic).mode = _
    rw [hm]; exact hmode
  obtain ⟨b1, b2, -, b4⟩ := computeKinematic_static_fields _ hw1 hdw1 hm1
  refine ⟨b1, b2, ?_⟩
  have b5 := b4 rfl
  have e1 : (((self.setInfoFlow FlowType.RBT_NODE_IN self.wreFlow).computeKinematic).setInfoFlow
      FlowType.RBT_NODE_OUT self.wreFlow).H = self.H := hH
  have e4 : (((self.setInfoFlow FlowType.RBT_NODE_IN self.wreFlow).computeKinematic).setInfoFlow
      FlowType.RBT_NODE_OUT self.wreFlow).ddp
        = ((self.setInfoFlow FlowType.RBT_NODE_IN self.wreFlow).computeKinematic).ddp := rfl
  have e5 : (self.setInfoFlow FlowType.RBT_NODE_IN self.wreFlow).H = self.H := rfl
  have e8 : (self.setInfoFlow FlowType.RBT_NODE_IN self.wreFlow).ddp = self.ddp := rfl
  rw [e1, e4, a3 rfl, e5, e8, toFin3_ofFin3] at b5
  exact b5

/-! ## The counter of kinematic inputs -/

theorem solveKinematicsInputs_count [CommRing α] (ops : Collaborators α W)
    (l : List (RigidBodyTransformation α))
    (k : Yarp.Vector α × Yarp.Vector α × Yarp.Vector α) (world : W) (n : Nat)
    (hn : n < 2 ^ 32) :
    (solveKinematicsInputs ops l k world n).2.2.2
      = (n + l.countP fun rbt => decide (rbt.kinFlow = FlowType.RBT_NODE_IN)) % 2 ^ 32 := by
  induction l generalizing k world n with
  | nil =>
    simp only [solveKinematicsInputs, List.countP_nil, Nat.add_zero]
    exact (Nat.mod_eq_of_lt hn).symm
  | cons rbt rest ih =>
    by_cases h : rbt.kinFlow = FlowType.RBT_NODE_IN
    · simp only [solveKinematicsInputs, h, if_true, decide_True, List.countP_cons_of_pos]
      rw [ih _ _ _ (Nat.mod_lt _ (by norm_num))]
      omega
    · simp only [solveKinematicsInputs, h, if_false]
      rw [ih _ _ _ hn]
      simp [List.countP_cons, h]

/-- The flag returned by `solveKinematics()` on a list the loop index can traverse. -/
theorem solveKinematics_flag [CommRing α] (ops : Collaborators α W) (self : iDynNode α)
    (world : W) (hlen : self.rbtList.length < 2 ^ 32) :
    (self.solveKinematics ops world).1 = decide (self.kinematicInputs = 1) := by
  have hc := solveKinematicsInputs_count ops self.rbtList (self.w, self.dw, self.ddp) world 0
    (by norm_num)
  have hle : self.kinematicInputs ≤ self.rbtList.length := List.countP_le_length _
  have hc2 : (solveKinematicsInputs ops self.rbtList (self.w, self.dw, self.ddp) world 0).2.2.2
      = self.kinematicInputs := by
    rw [hc, Nat.zero_add]
    exact Nat.mod_eq_of_lt (lt_of_le_of_lt hle hlen)
  unfold iDynNode.solveKinematics
  simp only [hc2]
  by_cases h : self.kinematicInputs = 1 <;> simp [h]

/-! ## The transform of an RBT -/

/-- C1: for every 4x4 matrix `H` and every prior state of the RBT, `setRBT(H)` returns true and a
following `getRBT()` returns exactly `H`. -/
theorem setRBT_getRBT_roundtrip [Zero α] [One α] (self : RigidBodyTransformation α)
    (H : Yarp.Matrix α) (hr : H.rows = 4) (hc : H.cols = 4) :
    (self.setRBT H).1 = true ∧ (self.setRBT H).2.getRBT = H := by
  simp [RigidBodyTransformation.setRBT, RigidBodyTransformation.getRBT, hr, hc]

/-- C1 at a concrete input: the 4x4 matrix `axialH` offered to an RBT holding `quarterTurnH`. -/
theorem setRBT_getRBT_roundtrip_witness :
    axialH.rows = 4 ∧ axialH.cols = 4 ∧
    (quarterTurnRBT.setRBT axialH).1 = true ∧ (quarterTurnRBT.setRBT axialH).2.getRBT = axialH :=
  ⟨rfl, rfl, setRBT_getRBT_roundtrip quarterTurnRBT axialH rfl rfl⟩

/-- C2: for every matrix that is not 4x4 (rows or columns differ from 4) and every prior state,
`setRBT` returns false and a following `getRBT()` returns the 4x4 identity. -/
theorem setRBT_wrong_size [Zero α] [One α] (self : RigidBodyTransformation α)
    (H : Yarp.Matrix α) (h : H.rows ≠ 4 ∨ H.cols ≠ 4) :
    (self.setRBT H).1 = false ∧ (self.setRBT H).2.getRBT = identity4 α := by
  have hn : ¬ (H.cols = 4 ∧ H.rows = 4) := by
    rintro ⟨hc, hr⟩
    cases h with
    | inl h => exact h hr
    | inr h => exact h hc
  simp [RigidBodyTransformation.setRBT, RigidBodyTransformation.getRBT, hn,
    resize_eye_eq_identity4]

/-- C2 at a concrete input: a 3x4 matrix offered to an RBT holding `quarterTurnH`. -/
theorem setRBT_wrong_size_witness :
    threeByFourH.rows ≠ 4 ∧ (quarterTurnRBT.setRBT threeByFourH).1 = false ∧
    (quarterTurnRBT.setRBT threeByFourH).2.getRBT = identity4 ℤ :=
  ⟨by decide, setRBT_wrong_size quarterTurnRBT threeByFourH (Or.inl (by decide))⟩

/-! ## The kinematic transformation -/

/-- C3: with kinematic flow NODE_IN and any of the three dynamic modes, `computeKinematic`
replaces the cached `(w, dw, ddp)` by `w' = R w`, `dw' = R dw` and
`ddp' = R (ddp - dw × r - w × (w × r))`, where `R` is the rotation block of `H`, `t` its
translation column and `r = -(Rᵀ t)`; the right-hand sides do not mention the mode, so the
three dynamic modes give the same result. -/
theorem computeKinematic_node_in_dynamic [CommRing α] (self : RigidBodyTransformation α)
    (hsz : KinSized self) (hflow : self.kinFlow = FlowType.RBT_NODE_IN)
    (hmode : self.mode.isDynamic) :
    self.computeKinematic.w = ofFin3 (Matrix.mulVec (rotation self.H) (toFin3 self.w)) ∧
    self.computeKinematic.dw = ofFin3 (Matrix.mulVec (rotation self.H) (toFin3 self.dw)) ∧
    self.computeKinematic.ddp = ofFin3 (Matrix.mulVec (rotation self.H)
      (toFin3 self.ddp
        - crossProduct (toFin3 self.dw)
            (-(Matrix.mulVec (Matrix.transpose (rotation self.H)) (translation self.H)))
        - crossProduct (toFin3 self.w)
            (crossProduct (toFin3 self.w)
              (-(Matrix.mulVec (Matrix.transpose (rotation self.H)) (translation self.H)))))) :=
  computeKinematic_in_dynamic_fields self hsz.2.2.2.2.2 hflow hmode

/-- C3 at a concrete input: a quarter turn with translation, mode DYNAMIC_W_ROTOR; the linear acceleration `(7, 8, 9)` becomes `(0, 20, 11)`. -/
theorem computeKinematic_node_in_dynamic_witness :
    KinSized inDynamicRBT ∧ inDynamicRBT.kinFlow = FlowType.RBT_NODE_IN ∧
    inDynamicRBT.mode.isDynamic ∧
    inDynamicRBT.computeKinematic.w
      = ofFin3 (Matrix.mulVec (rotation inDynamicRBT.H) (toFin3 inDynamicRBT.w)) ∧
    inDynamicRBT.computeKinematic.ddp = [0, 20, 11] :=
  ⟨by decide, rfl, by decide,
    (computeKinematic_node_in_dynamic inDynamicRBT (by decide) rfl (by decide)).1, by decide⟩

/-- C4: with kinematic flow NODE_OUT and any of the three dynamic modes, `computeKinematic`
replaces the cached `(w, dw, ddp)` by `w' = Rᵀ w`, `dw' = Rᵀ dw` and
`ddp' = Rᵀ (ddp + dw × r + w × (w × r))`, with `R` the rotation block of `H` and
`r = -(Rᵀ t)`. -/
theorem computeKinematic_node_out_dynamic [CommRing α] (self : RigidBodyTransformation α)
    (hsz : KinSized self) (hflow : self.kinFlow = FlowType.RBT_NODE_OUT)
    (hmode : self.mode.isDynamic) :
    self.computeKinematic.w
      = ofFin3 (Matrix.mulVec (Matrix.transpose (rotation self.H)) (toFin3 self.w)) ∧
    self.computeKinematic.dw
      = ofFin3 (Matrix.mulVec (Matrix.transpose (rotation self.H)) (toFin3 self.dw)) ∧
    self.computeKinematic.ddp = ofFin3 (Matrix.mulVec (Matrix.transpose (rotation self.H))
      (toFin3 self.ddp
        + crossProduct (toFin3 self.dw)
            (-(Matrix.mulVec (Matrix.transpose (rotation self.H)) (translation self.H)))
        + crossProduct (toFin3 self.w)
            (crossProduct (toFin3 self.w)
              (-(Matrix.mulVec (Matrix.transpose (rotation self.H)) (translation self.H)))))) :=
  computeKinematic_out_dynamic_fields self hsz.2.2.2.2.2 hflow hmode

/-- C4 at a concrete input: a quarter turn with translation, mode DYNAMIC_CORIOLIS_GRAVITY; the linear acceleration `(7, 8, 9)` becomes `(16, 6, 7)`. -/
theorem computeKinematic_node_out_dynamic_witness :
    KinSized outDynamicRBT ∧ outDynamicRBT.kinFlow = FlowType.RBT_NODE_OUT ∧
    outDynamicRBT.mode.isDynamic ∧
    outDynamicRBT.computeKinematic.w
      = ofFin3 (Matrix.mulVec (Matrix.transpose (rotation outDynamicRBT.H))
          (toFin3 outDynamicRBT.w)) ∧
    outDynamicRBT.computeKinematic.ddp = [16, 6, 7] :=
  ⟨by decide, rfl, by decide,
    (computeKinematic_node_out_dynamic outDynamicRBT (by decide) rfl (by decide)).1,
    by decide⟩

/-- C5: in STATIC mode `computeKinematic` sets `w' = 0` and `dw' = 0` (3-vectors of zeros)
whatever the inputs and the translation, and only rotates the linear acceleration:
`ddp' = R ddp` for flow NODE_IN and `ddp' = Rᵀ ddp` for flow NODE_OUT. -/
theorem computeKinematic_static [CommRing α] (self : RigidBodyTransformation α)
    (hsz : KinSized self) (hmode : self.mode = NewEulMode.STATIC) :
    self.computeKinematic.w = [0, 0, 0] ∧ self.computeKinematic.dw = [0, 0, 0] ∧
    (self.kinFlow = FlowType.RBT_NODE_IN →
      self.computeKinematic.ddp
        = ofFin3 (Matrix.mulVec (rotation self.H) (toFin3 self.ddp))) ∧
    (self.kinFlow = FlowType.RBT_NODE_OUT →
      self.computeKinematic.ddp
        = ofFin3 (Matrix.mulVec (Matrix.transpose (rotation self.H)) (toFin3 self.ddp))) :=
  computeKinematic_static_fields self hsz.2.2.2.1 hsz.2.2.2.2.1 hmode

/-- C5 at a concrete input: a quarter turn with translation in STATIC mode, flow NODE_IN. -/
theorem computeKinematic_static_witness :
    KinSized staticRBT ∧ staticRBT.mode = NewEulMode.STATIC ∧
    staticRBT.computeKinematic.w = [0, 0, 0] ∧ staticRBT.computeKinematic.dw = [0, 0, 0] ∧
    staticRBT.computeKinematic.ddp
      = ofFin3 (Matrix.mulVec (rotation staticRBT.H) (toFin3 staticRBT.ddp)) :=
  ⟨by decide, rfl, (computeKinematic_static staticRBT (by decide) rfl).1,
    (computeKinematic_static staticRBT (by decide) rfl).2.1,
    (computeKinematic_static staticRBT (by decide) rfl).2.2.1 rfl⟩

/-! ## The wrench transformation -/

/-- C6: with wrench flow NODE_IN, `computeWrench` replaces the cached `(F, Mu)` by `F' = R F`
and `Mu' = t × (R F) + R Mu`, with `R` the rotation block and `t` the translation column of `H`
(not projected); the dynamics mode has no influence on the result. -/
theorem computeWrench_node_in [CommRing α] (self : RigidBodyTransformation α)
    (hflow : self.wreFlow = FlowType.RBT_NODE_IN) :
    (self.computeWrench.F = ofFin3 (Matrix.mulVec (rotation self.H) (toFin3 self.F)) ∧
     self.computeWrench.Mu = ofFin3
      (crossProduct (translation self.H) (Matrix.mulVec (rotation self.H) (toFin3 self.F))
        + Matrix.mulVec (rotation self.H) (toFin3 self.Mu))) ∧
    ∀ m : NewEulMode,
      ({ self with mode := m }).computeWrench.F = self.computeWrench.F ∧
      ({ self with mode := m }).computeWrench.Mu = self.computeWrench.Mu :=
  ⟨computeWrench_in_fields self hflow, computeWrench_mode_independent self⟩

/-- C6 at a concrete input: force `(1, 0, 2)` and moment `(0, 3, 1)` through a quarter turn with translation `(0, -1, 0)` give the moment `(-5, 0, 1)`. -/
theorem computeWrench_node_in_witness :
    WreSized inDynamicRBT ∧ inDynamicRBT.wreFlow = FlowType.RBT_NODE_IN ∧
    inDynamicRBT.computeWrench.F
      = ofFin3 (Matrix.mulVec (rotation inDynamicRBT.H) (toFin3 inDynamicRBT.F)) ∧
    inDynamicRBT.computeWrench.Mu = [-5, 0, 1] :=
  ⟨by decide, rfl, (computeWrench_node_in inDynamicRBT rfl).1.1, by decide⟩

/-- C7: with wrench flow NODE_OUT, `computeWrench` replaces the cached `(F, Mu)` by
`F' = Rᵀ F` and `Mu' = Rᵀ (Mu - t × (R F))`, where `F` on the right is the incoming force;
the dynamics mode has no influence on the result. -/
theorem computeWrench_node_out [CommRing α] (self : RigidBodyTransformation α)
    (hsz : WreSized self) (hflow : self.wreFlow = FlowType.RBT_NODE_OUT) :
    (self.computeWrench.F
      = ofFin3 (Matrix.mulVec (Matrix.transpose (rotation self.H)) (toFin3 self.F)) ∧
     self.computeWrench.Mu = ofFin3 (Matrix.mulVec (Matrix.transpose (rotation self.H))
      (toFin3 self.Mu
        - crossProduct (translation self.H)
            (Matrix.mulVec (rotation self.H) (toFin3 self.F))))) ∧
    ∀ m : NewEulMode,
      ({ self with mode := m }).computeWrench.F = self.computeWrench.F ∧
      ({ self with mode := m }).computeWrench.Mu = self.computeWrench.Mu :=
  ⟨computeWrench_out_fields self hsz.2.2.2.2 hflow, computeWrench_mode_independent self⟩

/-- C7 at a concrete input: a quarter turn with translation, wrench flow NODE_OUT. -/
theorem computeWrench_node_out_witness :
    WreSized outDynamicRBT ∧ outDynamicRBT.wreFlow = FlowType.RBT_NODE_OUT ∧
    outDynamicRBT.computeWrench.F
      = ofFin3 (Matrix.mulVec (Matrix.transpose (rotation outDynamicRBT.H))
          (toFin3 outDynamicRBT.F)) :=
  ⟨by decide, rfl, (computeWrench_node_out outDynamicRBT (by decide) rfl).1.1⟩

/-! ## NODE_IN followed by NODE_OUT -/

/-- C8 (as amended): for every transform `H` with orthonormal rotation `R` (any translation)
and every `(w, dw, ddp)`, in DYNAMIC mode, `computeKinematic` with flow NODE_IN followed by
`computeKinematic` with flow NODE_OUT on the same `H` reconstructs `w` and `dw` exactly; it
reconstructs `ddp` when the translation is zero or when `R` is a proper rotation (determinant
one) that leaves the translation fixed. -/
theorem kinematic_roundtrip_dynamic [CommRing α] (self : RigidBodyTransformation α)
    (hsz : KinSized self) (hmode : self.mode = NewEulMode.DYNAMIC)
    (horth : Matrix.transpose (rotation self.H) * rotation self.H = 1) :
    (kinematicInThenOut self).w = self.w ∧ (kinematicInThenOut self).dw = self.dw ∧
    ((translation self.H = 0 ∨
        (Matrix.det (rotation self.H) = 1 ∧
          Matrix.mulVec (rotation self.H) (translation self.H) = translation self.H)) →
      (kinematicInThenOut self).ddp = self.ddp) := by
  obtain ⟨_, _, _, hw, hdw, hddp⟩ := hsz
  obtain ⟨h1, h2, h3⟩ := kinematicInThenOut_dynamic_fields self hddp (Or.inl hmode)
  refine ⟨?_, ?_, ?_⟩
  · rw [h1, transpose_mulVec_mulVec _ horth, ofFin3_toFin3 _ hw]
  · rw [h2, transpose_mulVec_mulVec _ horth, ofFin3_toFin3 _ hdw]
  · intro h
    rw [h3]
    unfold projectedTranslation
    rw [roundtrip_acceleration _ _ _ _ _ horth h, ofFin3_toFin3 _ hddp]

/-- C8 (as amended) at a concrete input: a quarter turn about z with the translation `(0, 0, 2)` on the axis; all of `w`, `dw`, `ddp` come back. -/
theorem kinematic_roundtrip_dynamic_witness :
    KinSized axialRBT ∧ axialRBT.mode = NewEulMode.DYNAMIC ∧
    Matrix.transpose (rotation axialRBT.H) * rotation axialRBT.H = 1 ∧
    Matrix.det (rotation axialRBT.H) = 1 ∧
    Matrix.mulVec (rotation axialRBT.H) (translation axialRBT.H) = translation axialRBT.H ∧
    (kinematicInThenOut axialRBT).w = axialRBT.w ∧
    (kinematicInThenOut axialRBT).dw = axialRBT.dw ∧
    (kinematicInThenOut axialRBT).ddp = axialRBT.ddp :=
  have hdet : Matrix.det (rotation axialRBT.H) = 1 := by
    simp [Matrix.det_fin_three, rotation, axialRBT, sampleRBT, axialH, Yarp.Matrix.get]
  have hfix : Matrix.mulVec (rotation axialRBT.H) (translation axialRBT.H)
      = translation axialRBT.H := by decide
  ⟨by decide, rfl, by decide, hdet, hfix,
    (kinematic_roundtrip_dynamic axialRBT (by decide) rfl (by decide)).1,
    (kinematic_roundtrip_dynamic axialRBT (by decide) rfl (by decide)).2.1,
    (kinematic_roundtrip_dynamic axialRBT (by decide) rfl (by decide)).2.2
      (Or.inr ⟨hdet, hfix⟩)⟩

/-- C8 (counterexample): a quarter turn about z with translation `(0, -1, 0)` has an
orthonormal rotation block, the state is well sized and the mode is DYNAMIC, yet NODE_IN
followed by NODE_OUT turns the linear acceleration `(0, 0, 0)` into `(1, -1, 0)`, so the three
original vectors are not all reconstructed. -/
theorem kinematic_roundtrip_dynamic_counterexample :
    KinSized quarterTurnRBT ∧ quarterTurnRBT.mode = NewEulMode.DYNAMIC ∧
    Matrix.transpose (rotation quarterTurnRBT.H) * rotation quarterTurnRBT.H = 1 ∧
    quarterTurnRBT.ddp = [0, 0, 0] ∧
    (kinematicInThenOut quarterTurnRBT).ddp = [1, -1, 0] ∧
    ¬ ((kinematicInThenOut quarterTurnRBT).w = quarterTurnRBT.w ∧
       (kinematicInThenOut quarterTurnRBT).dw = quarterTurnRBT.dw ∧
       (kinematicInThenOut quarterTurnRBT).ddp = quarterTurnRBT.ddp) := by
  decide

/-- C9: for every transform `H` with orthonormal rotation `R` and every `(w, dw, ddp)`, in
STATIC mode, `computeKinematic` with flow NODE_IN followed by `computeKinematic` with flow
NODE_OUT on the same `H` yields `w = 0`, `dw = 0` and `ddp` equal to the original `ddp`. -/
theorem kinematic_roundtrip_static [CommRing α] (self : RigidBodyTransformation α)
    (hsz : KinSized self) (hmode : self.mode = NewEulMode.STATIC)
    (horth : Matrix.transpose (rotation self.H) * rotation self.H = 1) :
    (kinematicInThenOut self).w = [0, 0, 0] ∧ (kinematicInThenOut self).dw = [0, 0, 0] ∧
    (kinematicInThenOut self).ddp = self.ddp := by
  obtain ⟨_, _, _, hw, hdw, hddp⟩ := hsz
  obtain ⟨h1, h2, h3⟩ := kinematicInThenOut_static_fields self hw hdw hmode
  refine ⟨h1, h2, ?_⟩
  rw [h3, transpose_mulVec_mulVec _ horth, ofFin3_toFin3 _ hddp]

/-- C9 at a concrete input: a quarter turn with translation in STATIC mode; `ddp = (7, 8, 9)` comes back. -/
theorem kinematic_roundtrip_static_witness :
    KinSized staticRBT ∧ staticRBT.mode = NewEulMode.STATIC ∧
    Matrix.transpose (rotation staticRBT.H) * rotation staticRBT.H = 1 ∧
    (kinematicInThenOut staticRBT).w = [0, 0, 0] ∧
    (kinematicInThenOut staticRBT).dw = [0, 0, 0] ∧
    (kinematicInThenOut staticRBT).ddp = [7, 8, 9] :=
  ⟨by decide, rfl, by decide,
    kinematic_roundtrip_static staticRBT (by decide) rfl (by decide)⟩

/-! ## The kinematics protocol of a node -/

/-- C10: `iDynNode::solveKinematics()` returns true if and only if exactly one RBT of
`rbtList` has kinematic flow NODE_IN; with zero or with two or more of them it returns false.
The list is short enough for the `unsigned int` loop index to reach its end. -/
theorem solveKinematics_true_iff [CommRing α] (ops : Collaborators α W) (self : iDynNode α)
    (world : W) (hlen : self.rbtList.length < 2 ^ 32) :
    ((self.solveKinematics ops world).1 = true ↔ self.kinematicInputs = 1) ∧
    ((self.kinematicInputs = 0 ∨ 2 ≤ self.kinematicInputs) →
      (self.solveKinematics ops world).1 = false) := by
  rw [solveKinematics_flag ops self world hlen]
  refine ⟨by simp, ?_⟩
  intro h
  have hne : ¬ self.kinematicInputs = 1 := by omega
  simp [hne]

/-- C10 at a concrete input: a node with one kinematic input (head) and two kinematic outputs (arms). -/
theorem solveKinematics_true_iff_witness :
    torsoNode.rbtList.length < 2 ^ 32 ∧ torsoNode.kinematicInputs = 1 ∧
    (torsoNode.solveKinematics countingCollaborators 0).1 = true :=
  ⟨by decide, by decide,
    (solveKinematics_true_iff countingCollaborators torsoNode 0 (by decide)).1.mpr
      (by decide)⟩

/-! ## The first loop of the kinematics protocol -/

theorem getKinematic_kinFlow [CommRing α] (ops : Collaborators α W)
    (rbt : RigidBodyTransformation α) (world : W) :
    (rbt.getKinematic ops world).1.kinFlow = rbt.kinFlow :=
  (computeKinematic_frame _).2.2.1

theorem solveKinematicsInputs_no_input [CommRing α] (ops : Collaborators α W)
    (l : List (RigidBodyTransformation α))
    (k : Yarp.Vector α × Yarp.Vector α × Yarp.Vector α) (world : W) (n : Nat)
    (h : kinematicInputRBTs l = []) :
    solveKinematicsInputs ops l k world n = (l, k, world, n) := by
  induction l with
  | nil => rfl
  | cons rbt rest ih =>
    unfold kinematicInputRBTs at h ih
    by_cases hf : rbt.kinFlow = FlowType.RBT_NODE_IN
    · simp [List.filter_cons, hf] at h
    · simp only [List.filter_cons, hf, decide_False] at h
      simp only [solveKinematicsInputs, hf, if_false]
      rw [ih h]

/-- After the first loop the node's `(w, dw, ddp)` is the cache of the last kinematic-input RBT
of the visited list, or what it was when there is none. -/
theorem solveKinematicsInputs_last [CommRing α] (ops : Collaborators α W)
    (l : List (RigidBodyTransformation α))
    (k : Yarp.Vector α × Yarp.Vector α × Yarp.Vector α) (world : W) (n : Nat) :
    (solveKinematicsInputs ops l k world n).2.1
      = ((lastKinematicInput (solveKinematicsInputs ops l k world n).1).map
          RigidBodyTransformation.kinematicCache).getD k := by
  induction l generalizing k world n with
  | nil => rfl
  | cons rbt rest ih =>
    by_cases hf : rbt.kinFlow = FlowType.RBT_NODE_IN
    · simp only [solveKinematicsInputs, hf, if_true, lastKinematicInput]
      rw [ih]
      cases hl : lastKinematicInput (solveKinematicsInputs ops rest
          (rbt.getKinematic ops (rbt.computeLimbKinematic ops world)).2.1
          (rbt.getKinematic ops (rbt.computeLimbKinematic ops world)).2.2
          ((n + 1) % 2 ^ 32)).1 with
      | some r => rfl
      | none =>
        simp only [getKinematic_kinFlow, hf, if_true, Option.map_none', Option.getD_none,
          Option.map_some', Option.getD_some]
        rfl
    · simp only [solveKinematicsInputs, hf, if_false, lastKinematicInput]
      rw [ih]
      cases hl : lastKinematicInput (solveKinematicsInputs ops rest k world n).1 with
      | some r => rfl
      | none => rfl

theorem lastKinematicInput_isSome (l : List (RigidBodyTransformation α))
    (h : kinematicInputRBTs l ≠ []) : (lastKinematicInput l).isSome = true := by
  induction l with
  | nil => exact absurd rfl h
  | cons rbt rest ih =>
    unfold kinematicInputRBTs at h ih
    simp only [lastKinematicInput]
    cases hl : lastKinematicInput rest with
    | some r => rfl
    | none =>
      by_cases hf : rbt.kinFlow = FlowType.RBT_NODE_IN
      · simp [hf]
      · simp only [List.filter_cons, hf, decide_False] at h
        have := ih h
        rw [hl] at this
        exact absurd this (by simp)

/-- The first loop keeps the flows of the RBTs, so the visited list has the same number of
kinematic inputs. -/
theorem solveKinematicsInputs_inputs_ne_nil [CommRing α] (ops : Collaborators α W)
    (l : List (RigidBodyTransformation α))
    (k : Yarp.Vector α × Yarp.Vector α × Yarp.Vector α) (world : W) (n : Nat)
    (h : kinematicInputRBTs l ≠ []) :
    kinematicInputRBTs (solveKinematicsInputs ops l k world n).1 ≠ [] := by
  induction l generalizing k world n with
  | nil => exact absurd rfl h
  | cons rbt rest ih =>
    unfold kinematicInputRBTs at h ih ⊢
    by_cases hf : rbt.kinFlow = FlowType.RBT_NODE_IN
    · simp [solveKinematicsInputs, hf, List.filter_cons, getKinematic_kinFlow]
    · simp only [List.filter_cons, hf, decide_False] at h
      simp only [solveKinematicsInputs, hf, if_false, List.filter_cons, decide_False]
      exact ih _ _ _ h

theorem kinematicInputs_eq_length (self : iDynNode α) :
    self.kinematicInputs = (kinematicInputRBTs self.rbtList).length := by
  unfold iDynNode.kinematicInputs kinematicInputRBTs
  exact List.countP_eq_length_filter _ _


theorem solveKinematicsInputs_count_eq [CommRing α] (ops : Collaborators α W)
    (self : iDynNode α) (world : W) (hlen : self.rbtList.length < 2 ^ 32) :
    (solveKinematicsInputs ops self.rbtList (self.w, self.dw, self.ddp) world 0).2.2.2
      = self.kinematicInputs := by
  have hc := solveKinematicsInputs_count ops self.rbtList (self.w, self.dw, self.ddp) world 0
    (by norm_num)
  have hle : self.kinematicInputs ≤ self.rbtList.length := List.countP_le_length _
  rw [hc, Nat.zero_add]
  exact Nat.mod_eq_of_lt (lt_of_le_of_lt hle hlen)

/-- When the count of kinematic inputs is not one, `solveKinematics()` returns after the first
loop with the node and the world as that loop left them. -/
theorem solveKinematics_of_ne_one [CommRing α] (ops : Collaborators α W) (self : iDynNode α)
    (world : W) (hlen : self.rbtList.length < 2 ^ 32) (h : self.kinematicInputs ≠ 1) :
    self.solveKinematics ops world
      = (false,
          { self with
            rbtList :=
              (solveKinematicsInputs ops self.rbtList (self.w, self.dw, self.ddp) world 0).1,
            w := (solveKinematicsInputs ops self.rbtList (self.w, self.dw, self.ddp)
              world 0).2.1.1,
            dw := (solveKinematicsInputs ops self.rbtList (self.w, self.dw, self.ddp)
              world 0).2.1.2.1,
            ddp := (solveKinematicsInputs ops self.rbtList (self.w, self.dw, self.ddp)
              world 0).2.1.2.2 },
          (solveKinematicsInputs ops self.rbtList (self.w, self.dw, self.ddp) world 0).2.2.1) := by
  unfold iDynNode.solveKinematics
  simp only [solveKinematicsInputs_count_eq ops self world hlen, h, if_false]

/-! ## Failure of the kinematics protocol -/

/-- C11 (as amended): when `solveKinematics()` fails because no RBT is NODE_IN-flagged, the
node (its aggregate `w`, `dw`, `ddp` included) and the world are as before the call; when it
fails because two or more RBTs are NODE_IN-flagged, the aggregate `(w, dw, ddp)` has been
overwritten and equals the kinematic cache of the last NODE_IN-flagged RBT. -/
theorem solveKinematics_failure_aggregate [CommRing α] (ops : Collaborators α W)
    (self : iDynNode α) (world : W) (hlen : self.rbtList.length < 2 ^ 32) :
    (self.kinematicInputs = 0 → self.solveKinematics ops world = (false, self, world)) ∧
    (2 ≤ self.kinematicInputs →
      (self.solveKinematics ops world).1 = false ∧
      (lastKinematicInput (self.solveKinematics ops world).2.1.rbtList).map
          RigidBodyTransformation.kinematicCache
        = some (self.solveKinematics ops world).2.1.aggregateKinematics) := by
  refine ⟨?_, ?_⟩
  · intro h0
    have hnil : kinematicInputRBTs self.rbtList = [] := by
      rw [kinematicInputs_eq_length] at h0
      exact List.length_eq_zero.mp h0
    rw [solveKinematics_of_ne_one ops self world hlen (by omega),
      solveKinematicsInputs_no_input ops _ _ _ _ hnil]
  · intro h2
    have hne : kinematicInputRBTs self.rbtList ≠ [] := by
      intro hnil
      rw [kinematicInputs_eq_length, hnil] at h2
      simp at h2
    rw [solveKinematics_of_ne_one ops self world hlen (by omega)]
    refine ⟨rfl, ?_⟩
    have hlast := solveKinematicsInputs_last ops self.rbtList (self.w, self.dw, self.ddp) world 0
    have hsome := lastKinematicInput_isSome _
      (solveKinematicsInputs_inputs_ne_nil ops self.rbtList (self.w, self.dw, self.ddp) world 0
        hne)
    show (lastKinematicInput
        (solveKinematicsInputs ops self.rbtList (self.w, self.dw, self.ddp) world 0).1).map
          RigidBodyTransformation.kinematicCache
      = some (solveKinematicsInputs ops self.rbtList (self.w, self.dw, self.ddp) world 0).2.1
    rw [hlast]
    cases hl : lastKinematicInput
        (solveKinematicsInputs ops self.rbtList (self.w, self.dw, self.ddp) world 0).1 with
    | some r => rfl
    | none => rw [hl] at hsome; exact absurd hsome (by simp)

/-- C11 (as amended) at concrete inputs: a node without kinematic input is left as it was, and
a node with two kinematic inputs ends with the cache of the second one as aggregate. -/
theorem solveKinematics_failure_aggregate_witness :
    noInputNode.rbtList.length < 2 ^ 32 ∧ noInputNode.kinematicInputs = 0 ∧
    noInputNode.solveKinematics countingCollaborators 0 = (false, noInputNode, 0) ∧
    twoInputNode.rbtList.length < 2 ^ 32 ∧ 2 ≤ twoInputNode.kinematicInputs ∧
    (twoInputNode.solveKinematics countingCollaborators 0).1 = false ∧
    (lastKinematicInput (twoInputNode.solveKinematics countingCollaborators 0).2.1.rbtList).map
        RigidBodyTransformation.kinematicCache
      = some (twoInputNode.solveKinematics countingCollaborators 0).2.1.aggregateKinematics :=
  ⟨by decide, by decide,
    (solveKinematics_failure_aggregate countingCollaborators noInputNode 0 (by decide)).1
      (by decide),
    by decide, by decide,
    (solveKinematics_failure_aggregate countingCollaborators twoInputNode 0 (by decide)).2
      (by decide)⟩

/-- C11 (counterexample): a node with two NODE_IN-flagged RBTs whose aggregate is zero before
the call; `solveKinematics()` returns failure and leaves `w = (-2, 1, 3)`, `dw = (-5, 4, 6)`,
`ddp = (0, 20, 11)`, the transform of what the second limb reported. -/
theorem solveKinematics_failure_aggregate_counterexample :
    twoInputNode.kinematicInputs = 2 ∧
    (twoInputNode.solveKinematics countingCollaborators 0).1 = false ∧
    twoInputNode.aggregateKinematics = ([0, 0, 0], [0, 0, 0], [0, 0, 0]) ∧
    (twoInputNode.solveKinematics countingCollaborators 0).2.1.aggregateKinematics
      = ([-2, 1, 3], [-5, 4, 6], [0, 20, 11]) ∧
    ¬ ((twoInputNode.solveKinematics countingCollaborators 0).2.1.w = twoInputNode.w ∧
       (twoInputNode.solveKinematics countingCollaborators 0).2.1.dw = twoInputNode.dw ∧
       (twoInputNode.solveKinematics countingCollaborators 0).2.1.ddp = twoInputNode.ddp) := by
  decide


/-! ## The calls of the kinematics protocol -/

theorem withKinematic_frame [CommRing α] (rbt : RigidBodyTransformation α)
    (k : Yarp.Vector α × Yarp.Vector α × Yarp.Vector α) :
    (rbt.withKinematic k).limb = rbt.limb ∧ (rbt.withKinematic k).kinFlow = rbt.kinFlow := by
  have h := computeKinematic_frame ({ rbt with w := k.1, dw := k.2.1, ddp := k.2.2 })
  exact ⟨h.2.2.2.2.1, h.2.2.1⟩

/-- The calls made by the first loop: the two input calls for every kinematic-input RBT. -/
theorem solveKinematicsInputs_log [CommRing α] (ops : Collaborators α W)
    (l : List (RigidBodyTransformation α))
    (k : Yarp.Vector α × Yarp.Vector α × Yarp.Vector α) (world : W) (log : List (Call α))
    (n : Nat) :
    (solveKinematicsInputs (recording ops) l k (world, log) n).2.2.1.2
      = log ++ (kinematicInputRBTs l).flatMap kinematicInputCalls := by
  induction l generalizing k world log n with
  | nil => simp [solveKinematicsInputs, kinematicInputRBTs]
  | cons rbt rest ih =>
    unfold kinematicInputRBTs at ih ⊢
    by_cases hf : rbt.kinFlow = FlowType.RBT_NODE_IN
    · simp only [solveKinematicsInputs, hf, if_true, List.filter_cons, decide_True,
        List.flatMap_cons]
      rw [show (rbt.getKinematic (recording ops)
            (rbt.computeLimbKinematic (recording ops) (world, log))).2.2
          = ((kinematicReport ops rbt world).2, log ++ kinematicInputCalls rbt) by
        simp [RigidBodyTransformation.getKinematic,
          RigidBodyTransformation.computeLimbKinematic, recording, kinematicReport,
          kinematicInputCalls]]
      rw [ih, List.append_assoc]
    · simp only [solveKinematicsInputs, hf, if_false, List.filter_cons, decide_False]
      exact ih _ _ _ _

/-- With exactly one kinematic-input RBT `rin`, the first loop leaves in the node the transform
of what the limb of `rin` reported, and the world as that limb left it. -/
theorem solveKinematicsInputs_single [CommRing α] (ops : Collaborators α W)
    (l : List (RigidBodyTransformation α)) (rin : RigidBodyTransformation α)
    (k : Yarp.Vector α × Yarp.Vector α × Yarp.Vector α) (world : W) (n : Nat)
    (h : kinematicInputRBTs l = [rin]) :
    (solveKinematicsInputs ops l k world n).2.1
      = (rin.withKinematic (kinematicReport ops rin world).1).kinematicCache ∧
    (solveKinematicsInputs ops l k world n).2.2.1 = (kinematicReport ops rin world).2 := by
  induction l with
  | nil => simp [kinematicInputRBTs] at h
  | cons rbt rest ih =>
    unfold kinematicInputRBTs at h ih
    by_cases hf : rbt.kinFlow = FlowType.RBT_NODE_IN
    · simp only [List.filter_cons, hf, decide_True, if_true, List.cons.injEq] at h
      obtain ⟨rfl, hrest⟩ := h
      simp only [solveKinematicsInputs, hf, if_true]
      rw [solveKinematicsInputs_no_input ops rest _ _ _ hrest]
      exact ⟨rfl, rfl⟩
    · simp only [List.filter_cons, hf, decide_False] at h
      simp only [solveKinematicsInputs, hf, if_false]
      exact ih h

/-- The first loop does not touch the kinematic-output RBTs. -/
theorem solveKinematicsInputs_outputs [CommRing α] (ops : Collaborators α W)
    (l : List (RigidBodyTransformation α))
    (k : Yarp.Vector α × Yarp.Vector α × Yarp.Vector α) (world : W) (n : Nat) :
    kinematicOutputRBTs (solveKinematicsInputs ops l k world n).1 = kinematicOutputRBTs l := by
  induction l generalizing k world n with
  | nil => rfl
  | cons rbt rest ih =>
    unfold kinematicOutputRBTs at ih ⊢
    by_cases hf : rbt.kinFlow = FlowType.RBT_NODE_IN
    · simp only [solveKinematicsInputs, hf, if_true, List.filter_cons, getKinematic_kinFlow]
      simp only [show decide (FlowType.RBT_NODE_IN = FlowType.RBT_NODE_OUT) = false from rfl]
      exact ih _ _ _
    · simp only [solveKinematicsInputs, hf, if_false, List.filter_cons]
      rw [ih]

/-- The calls made by the second loop: the two output calls for every kinematic-output RBT. -/
theorem solveKinematicsOutputs_log [CommRing α] (ops : Collaborators α W)
    (k : Yarp.Vector α × Yarp.Vector α × Yarp.Vector α)
    (l : List (RigidBodyTransformation α)) (world : W) (log : List (Call α)) :
    (solveKinematicsOutputs (recording ops) k l (world, log)).2.2
      = log ++ (kinematicOutputRBTs l).flatMap (kinematicOutputCalls k) := by
  induction l generalizing world log with
  | nil => simp [solveKinematicsOutputs, kinematicOutputRBTs]
  | cons rbt rest ih =>
    unfold kinematicOutputRBTs at ih ⊢
    by_cases hf : rbt.kinFlow = FlowType.RBT_NODE_OUT
    · simp only [solveKinematicsOutputs, hf, if_true, List.filter_cons, decide_True,
        List.flatMap_cons]
      rw [show (rbt.setKinematic (recording ops) k.1 k.2.1 k.2.2 (world, log)).2.1.computeLimbKinematic
            (recording ops) (rbt.setKinematic (recording ops) k.1 k.2.1 k.2.2 (world, log)).2.2
          = (ops.computeKinematicNewtonEuler
              (ops.initKinematicNewtonEuler world rbt.limb (rbt.withKinematic k).w
                (rbt.withKinematic k).dw (rbt.withKinematic k).ddp).2 rbt.limb,
             log ++ kinematicOutputCalls k rbt) by
        have hl := (withKinematic_frame rbt k).1
        unfold RigidBodyTransformation.withKinematic at hl
        simp [RigidBodyTransformation.setKinematic,
          RigidBodyTransformation.computeLimbKinematic, recording, kinematicOutputCalls,
          RigidBodyTransformation.withKinematic, hl]]
      rw [ih, List.append_assoc]
    · simp only [solveKinematicsOutputs, hf, if_false, List.filter_cons, decide_False]
      exact ih _ _


/-- When the count of kinematic inputs is one, `solveKinematics()` runs both loops and returns
true. -/
theorem solveKinematics_of_one [CommRing α] (ops : Collaborators α W) (self : iDynNode α)
    (world : W) (hlen : self.rbtList.length < 2 ^ 32) (h : self.kinematicInputs = 1) :
    (self.solveKinematics ops world).1 = true ∧
    (self.solveKinematics ops world).2.1.aggregateKinematics
      = (solveKinematicsInputs ops self.rbtList (self.w, self.dw, self.ddp) world 0).2.1 ∧
    (self.solveKinematics ops world).2.2
      = (solveKinematicsOutputs ops
          (solveKinematicsInputs ops self.rbtList (self.w, self.dw, self.ddp) world 0).2.1
          (solveKinematicsInputs ops self.rbtList (self.w, self.dw, self.ddp) world 0).1
          (solveKinematicsInputs ops self.rbtList (self.w, self.dw, self.ddp) world 0).2.2.1).2 := by
  unfold iDynNode.solveKinematics
  simp only [solveKinematicsInputs_count_eq ops self world hlen, h, if_true]
  refine ⟨?_, ?_, ?_⟩ <;> first | rfl | trivial

theorem kinematicReport_recording (ops : Collaborators α W) (rbt : RigidBodyTransformation α)
    (world : W) (log : List (Call α)) :
    (kinematicReport (recording ops) rbt (world, log)).1 = (kinematicReport ops rbt world).1 := by
  simp [kinematicReport, recording]

/-! ## The kinematics protocol with one input -/

/-- C12: when exactly one RBT, `rin`, is kinematic NODE_IN, `solveKinematics()` returns true,
(i) sets the node aggregate `(w, dw, ddp)` to the `computeKinematic` transform (by `rin`, whose
flow is NODE_IN) of what the limb of `rin` reports through `getKinematicNewtonEuler` after its
`computeKinematicNewtonEuler`, and (ii) the calls received by the limbs are: those two calls on
the limb of `rin`, then for every kinematic NODE_OUT RBT in attachment order
`initKinematicNewtonEuler` with the `computeKinematic` transform (by that RBT) of the aggregate
followed by `computeKinematicNewtonEuler`. When the count is not one, no limb receives
`initKinematicNewtonEuler`. -/
theorem solveKinematics_protocol [CommRing α] (ops : Collaborators α W) (self : iDynNode α)
    (world : W) (hlen : self.rbtList.length < 2 ^ 32) :
    (∀ rin : RigidBodyTransformation α, kinematicInputRBTs self.rbtList = [rin] →
      rin.kinFlow = FlowType.RBT_NODE_IN ∧
      (self.solveKinematics (recording ops) (world, [])).1 = true ∧
      (self.solveKinematics (recording ops) (world, [])).2.1.aggregateKinematics
        = (rin.withKinematic (kinematicReport ops rin world).1).kinematicCache ∧
      (self.solveKinematics (recording ops) (world, [])).2.2.2
        = kinematicInputCalls rin ++
          (kinematicOutputRBTs self.rbtList).flatMap
            (kinematicOutputCalls
              (self.solveKinematics (recording ops) (world, [])).2.1.aggregateKinematics)) ∧
    (self.kinematicInputs ≠ 1 →
      ∀ c ∈ (self.solveKinematics (recording ops) (world, [])).2.2.2,
        c.isInitKinematic = false) := by
  refine ⟨?_, ?_⟩
  · intro rin hrin
    have hone : self.kinematicInputs = 1 := by
      rw [kinematicInputs_eq_length, hrin]; rfl
    have hflow : rin.kinFlow = FlowType.RBT_NODE_IN := by
      have hm : rin ∈ kinematicInputRBTs self.rbtList := by rw [hrin]; exact List.mem_singleton.mpr rfl
      unfold kinematicInputRBTs at hm
      simpa using (List.mem_filter.mp hm).2
    obtain ⟨h1, h2, h3⟩ := solveKinematics_of_one (recording ops) self (world, []) hlen hone
    obtain ⟨s1, -⟩ := solveKinematicsInputs_single (recording ops) self.rbtList rin
      (self.w, self.dw, self.ddp) (world, []) 0 hrin
    have hlog := solveKinematicsInputs_log ops self.rbtList (self.w, self.dw, self.ddp) world [] 0
    refine ⟨hflow, h1, ?_, ?_⟩
    · rw [h2, s1, kinematicReport_recording]
    · rw [h3, h2]
      have hsplit : (solveKinematicsInputs (recording ops) self.rbtList
            (self.w, self.dw, self.ddp) (world, []) 0).2.2.1
          = ((solveKinematicsInputs (recording ops) self.rbtList
              (self.w, self.dw, self.ddp) (world, []) 0).2.2.1.1,
             (solveKinematicsInputs (recording ops) self.rbtList
              (self.w, self.dw, self.ddp) (world, []) 0).2.2.1.2) := rfl
      rw [hsplit, solveKinematicsOutputs_log, hlog, solveKinematicsInputs_outputs, hrin]
      simp
  · intro hne c hc
    rw [solveKinematics_of_ne_one (recording ops) self (world, []) hlen hne] at hc
    have hlog := solveKinematicsInputs_log ops self.rbtList (self.w, self.dw, self.ddp) world [] 0
    simp only [hlog, List.nil_append, List.mem_flatMap] at hc
    obtain ⟨rbt, -, hmem⟩ := hc
    simp only [kinematicInputCalls, List.mem_cons, List.mem_singleton, List.not_mem_nil,
      or_false] at hmem
    rcases hmem with rfl | rfl <;> rfl


/-- C12 at a concrete input: the node `torsoNode`, whose head (limb 0) is the kinematic input
and whose arms (limbs 1 and 2) are kinematic outputs; the head reports
`(1, 2, 3), (4, 5, 6), (7, 8, 9)` through an identity transform. -/
theorem solveKinematics_protocol_witness :
    torsoNode.rbtList.length < 2 ^ 32 ∧
    kinematicInputRBTs torsoNode.rbtList
      = [sampleRBT 0 FlowType.RBT_NODE_IN FlowType.RBT_NODE_IN NewEulMode.DYNAMIC
          (identity4 ℤ)] ∧
    (torsoNode.solveKinematics (recording countingCollaborators) (0, [])).1 = true ∧
    (torsoNode.solveKinematics (recording countingCollaborators) (0, [])).2.1.aggregateKinematics
      = ([1, 2, 3], [4, 5, 6], [7, 8, 9]) ∧
    (torsoNode.solveKinematics (recording countingCollaborators) (0, [])).2.2.2
      = [ Call.computeKinematicNewtonEuler 0, Call.getKinematicNewtonEuler 0,
          Call.initKinematicNewtonEuler 1 [2, -1, 3] [5, -4, 6] [16, 6, 7],
          Call.computeKinematicNewtonEuler 1,
          Call.initKinematicNewtonEuler 2 [2, -1, 3] [5, -4, 6] [4, 9, 19],
          Call.computeKinematicNewtonEuler 2 ] :=
  ⟨by decide, by decide,
    ((solveKinematics_protocol countingCollaborators torsoNode 0 (by decide)).1
      (sampleRBT 0 FlowType.RBT_NODE_IN FlowType.RBT_NODE_IN NewEulMode.DYNAMIC (identity4 ℤ))
      (by decide)).2.1,
    by decide, by decide⟩

/-! ## The wrench side: lemmas -/

/-- The fields `computeWrench` does not assign. -/
theorem computeWrench_frame [CommRing α] (self : RigidBodyTransformation α) :
    self.computeWrench.H = self.H ∧ self.computeWrench.wreFlow = self.wreFlow ∧
    self.computeWrench.kinFlow = self.kinFlow ∧ self.computeWrench.limb = self.limb ∧
    self.computeWrench.hasSensor = self.hasSensor ∧ self.computeWrench.mode = self.mode := by
  unfold RigidBodyTransformation.computeWrench
  cases self.wreFlow <;> simp

/-- After `computeWrench` the cached force and moment are 3-vectors, whatever they were. -/
theorem computeWrench_lengths [CommRing α] (self : RigidBodyTransformation α) :
    self.computeWrench.F.length = 3 ∧ self.computeWrench.Mu.length = 3 := by
  cases hf : self.wreFlow
  · obtain ⟨h1, h2⟩ := computeWrench_in_fields self hf
    rw [h1, h2]
    exact ⟨rfl, rfl⟩
  · simp only [RigidBodyTransformation.computeWrench, hf, getR_transposed_mulVec]
    exact ⟨rfl, rfl⟩

theorem getWrench_eq [CommRing α] (ops : Collaborators α W) (rbt : RigidBodyTransformation α)
    (FNode MuNode : Yarp.Vector α) (world : W) :
    rbt.getWrench ops FNode MuNode world
      = (rbt.withWrench (ops.getWrenchNewtonEuler world rbt.limb (rbt.F, rbt.Mu)).1,
          (Yarp.Vector.add FNode
              (rbt.withWrench (ops.getWrenchNewtonEuler world rbt.limb (rbt.F, rbt.Mu)).1).F,
            Yarp.Vector.add MuNode
              (rbt.withWrench (ops.getWrenchNewtonEuler world rbt.limb (rbt.F, rbt.Mu)).1).Mu),
          (ops.getWrenchNewtonEuler world rbt.limb (rbt.F, rbt.Mu)).2) := rfl

theorem withWrench_frame [CommRing α] (rbt : RigidBodyTransformation α)
    (fm : Yarp.Vector α × Yarp.Vector α) :
    (rbt.withWrench fm).H = rbt.H ∧ (rbt.withWrench fm).wreFlow = rbt.wreFlow ∧
    (rbt.withWrench fm).limb = rbt.limb := by
  have h := computeWrench_frame ({ rbt with F := fm.1, Mu := fm.2 })
  exact ⟨h.1, h.2.1, h.2.2.2.1⟩

/-- The wrench a wrench-input RBT hands to the node for the report `fm` of its limb. -/
theorem withWrench_in_fields [CommRing α] (rbt : RigidBodyTransformation α)
    (fm : Yarp.Vector α × Yarp.Vector α) (hflow : rbt.wreFlow = FlowType.RBT_NODE_IN) :
    (rbt.withWrench fm).F = ofFin3 (Matrix.mulVec (rotation rbt.H) (toFin3 fm.1)) ∧
    (rbt.withWrench fm).Mu = ofFin3
      (crossProduct (translation rbt.H) (Matrix.mulVec (rotation rbt.H) (toFin3 fm.1))
        + Matrix.mulVec (rotation rbt.H) (toFin3 fm.2)) :=
  computeWrench_in_fields ({ rbt with F := fm.1, Mu := fm.2 }) hflow

/-- The first loop of the wrench protocol adds to the node's `(F, Mu)` the sums over the
reports of the wrench-input RBTs. -/
theorem solveWrenchInputs_sum [CommRing α] (ops : Collaborators α W)
    (l : List (RigidBodyTransformation α)) (a b : Fin 3 → α) (world : W) (n : Nat) :
    (solveWrenchInputs ops l (ofFin3 a, ofFin3 b) world n).2.1
      = (ofFin3 (a + reportedForceSum (wrenchReports ops l world)),
         ofFin3 (b + reportedMomentSum (wrenchReports ops l world))) := by
  induction l generalizing a b world n with
  | nil => simp [solveWrenchInputs, wrenchReports, reportedForceSum, reportedMomentSum]
  | cons rbt rest ih =>
    by_cases hf : rbt.wreFlow = FlowType.RBT_NODE_IN
    · simp only [solveWrenchInputs, wrenchReports, hf, if_true, getWrench_eq,
        RigidBodyTransformation.computeLimbWrench]
      rw [(withWrench_in_fields rbt _ hf).1, (withWrench_in_fields rbt _ hf).2, add_ofFin3,
        add_ofFin3, ih]
      simp only [reportedForceSum, reportedMomentSum, List.map_cons, List.sum_cons, add_assoc]
    · simp only [solveWrenchInputs, wrenchReports, hf, if_false]
      exact ih _ _ _ _

/-! ## The aggregate wrench of a node -/

/-- C13: after `iDynNode::solveWrench()`, whatever the node's previous `F` and `Mu` (3-vectors),
the aggregate is `F = Σ R_i F_i` and `Mu = Σ (t_i × (R_i F_i) + R_i Mu_i)`, the sums running
over the wrench NODE_IN RBTs in attachment order, with `(F_i, Mu_i)` what limb `i` reports
through `getWrenchNewtonEuler`. -/
theorem solveWrench_aggregate [CommRing α] (ops : Collaborators α W) (self : iDynNode α)
    (world : W) (hF : self.F.length = 3) (hMu : self.Mu.length = 3) :
    (self.solveWrench ops world).2.1.F
      = ofFin3 (reportedForceSum (wrenchReports ops self.rbtList world)) ∧
    (self.solveWrench ops world).2.1.Mu
      = ofFin3 (reportedMomentSum (wrenchReports ops self.rbtList world)) := by
  have h0 : ∀ v : Yarp.Vector α, v.length = 3 →
      Yarp.Vector.assignScalar v 0 = ofFin3 (0 : Fin 3 → α) := by
    intro v hv
    rw [assignScalar_zero v hv]; rfl
  have hs := solveWrenchInputs_sum ops self.rbtList 0 0 world 0
  rw [zero_add, zero_add] at hs
  unfold iDynNode.solveWrench
  simp only [h0 self.F hF, h0 self.Mu hMu, hs, and_self]

/-- C13 at the concrete input named by the claim: identity transforms, two wrench inputs
reporting the forces `(1, 0, 0)` and `(0, 1, 0)`, a third limb as wrench output and leftovers
`(5, 5, 5)` in the aggregate; after the call the aggregate force is `(1, 1, 0)`. -/
theorem solveWrench_aggregate_witness :
    threeLimbNode.F = [5, 5, 5] ∧ threeLimbNode.Mu.length = 3 ∧
    (wrenchReports limbCollaborators threeLimbNode.rbtList 0).map (fun p => p.2.1)
      = [[1, 0, 0], [0, 1, 0]] ∧
    (threeLimbNode.solveWrench limbCollaborators 0).2.1.F
      = ofFin3 (reportedForceSum (wrenchReports limbCollaborators threeLimbNode.rbtList 0)) ∧
    (threeLimbNode.solveWrench limbCollaborators 0).2.1.F = [1, 1, 0] :=
  ⟨rfl, rfl, by decide,
    (solveWrench_aggregate limbCollaborators threeLimbNode 0 (by decide) (by decide)).1,
    by decide⟩


/-! ## Accumulation in getWrench -/

theorem add_eq_ofFin3 [CommRing α] (a b : Yarp.Vector α) (ha : a.length = 3)
    (hb : b.length = 3) : Yarp.Vector.add a b = ofFin3 (toFin3 a + toFin3 b) := by
  conv_lhs => rw [← ofFin3_toFin3 a ha, ← ofFin3_toFin3 b hb]
  exact add_ofFin3 _ _

theorem add_eq_right_iff [CommRing α] (a b : Yarp.Vector α) (ha : a.length = 3)
    (hb : b.length = 3) : Yarp.Vector.add a b = b ↔ a = [0, 0, 0] := by
  obtain ⟨a0, a1, a2, rfl⟩ := List.length_eq_three.mp ha
  obtain ⟨b0, b1, b2, rfl⟩ := List.length_eq_three.mp hb
  simp [Yarp.Vector.add]

/-- C20: `getWrench` accumulates. The RBT caches the `computeWrench` transform `(F', Mu')` of
what its limb reports; for every incoming `(FNode, MuNode)` (3-vectors) the call leaves
`FNode + F'` in `FNode` and `MuNode + Mu'` in `MuNode`; the outputs equal `(F', Mu')` exactly
when the caller passed zeros. -/
theorem getWrench_accumulates [CommRing α] (ops : Collaborators α W)
    (rbt : RigidBodyTransformation α) (FNode MuNode : Yarp.Vector α) (world : W)
    (hF : FNode.length = 3) (hMu : MuNode.length = 3) :
    (rbt.getWrench ops FNode MuNode world).1
      = rbt.withWrench (ops.getWrenchNewtonEuler world rbt.limb (rbt.F, rbt.Mu)).1 ∧
    (rbt.getWrench ops FNode MuNode world).2.1.1
      = ofFin3 (toFin3 FNode + toFin3 (rbt.getWrench ops FNode MuNode world).1.F) ∧
    (rbt.getWrench ops FNode MuNode world).2.1.2
      = ofFin3 (toFin3 MuNode + toFin3 (rbt.getWrench ops FNode MuNode world).1.Mu) ∧
    (((rbt.getWrench ops FNode MuNode world).2.1.1
          = (rbt.getWrench ops FNode MuNode world).1.F ∧
        (rbt.getWrench ops FNode MuNode world).2.1.2
          = (rbt.getWrench ops FNode MuNode world).1.Mu) ↔
      (FNode = [0, 0, 0] ∧ MuNode = [0, 0, 0])) := by
  rw [getWrench_eq]
  obtain ⟨h1, h2⟩ := computeWrench_lengths
    ({ rbt with F := (ops.getWrenchNewtonEuler world rbt.limb (rbt.F, rbt.Mu)).1.1,
                Mu := (ops.getWrenchNewtonEuler world rbt.limb (rbt.F, rbt.Mu)).1.2 })
  refine ⟨rfl, add_eq_ofFin3 _ _ hF h1, add_eq_ofFin3 _ _ hMu h2, ?_⟩
  exact and_congr (add_eq_right_iff _ _ hF h1) (add_eq_right_iff _ _ hMu h2)

/-- C20 at a concrete input: the node already holds `F = (5, 5, 5)`, `Mu = (1, 1, 1)`; the
limb reports `F = (1, 0, 0)`, `Mu = (0, 1, 0)` through a quarter turn with translation
`(0, -1, 0)`, which gives `F' = (0, 1, 0)`, `Mu' = (-1, 0, 0)`; the call leaves
`(5, 6, 5)` and `(0, 1, 1)`. -/
theorem getWrench_accumulates_witness :
    (inDynamicRBT.getWrench countingCollaborators [5, 5, 5] [1, 1, 1] 0).1.F = [0, 1, 0] ∧
    (inDynamicRBT.getWrench countingCollaborators [5, 5, 5] [1, 1, 1] 0).1.Mu = [-1, 0, 0] ∧
    (inDynamicRBT.getWrench countingCollaborators [5, 5, 5] [1, 1, 1] 0).2.1
      = ([5, 6, 5], [0, 1, 1]) ∧
    (inDynamicRBT.getWrench countingCollaborators [5, 5, 5] [1, 1, 1] 0).2.1.1
      = ofFin3 (toFin3 [5, 5, 5]
          + toFin3 (inDynamicRBT.getWrench countingCollaborators [5, 5, 5] [1, 1, 1] 0).1.F) :=
  ⟨by decide, by decide, by decide,
    (getWrench_accumulates countingCollaborators inDynamicRBT [5, 5, 5] [1, 1, 1] 0 rfl rfl).2.1⟩


/-! ## The wrench protocol never fails -/

theorem getWrench_wreFlow [CommRing α] (ops : Collaborators α W)
    (rbt : RigidBodyTransformation α) (FNode MuNode : Yarp.Vector α) (world : W) :
    (rbt.getWrench ops FNode MuNode world).1.wreFlow = rbt.wreFlow :=
  (computeWrench_frame _).2.1

/-- The first loop of the wrench protocol does not touch the wrench-output RBTs. -/
theorem solveWrenchInputs_outputs [CommRing α] (ops : Collaborators α W)
    (l : List (RigidBodyTransformation α)) (fm : Yarp.Vector α × Yarp.Vector α) (world : W)
    (n : Nat) :
    wrenchOutputRBTs (solveWrenchInputs ops l fm world n).1 = wrenchOutputRBTs l := by
  induction l generalizing fm world n with
  | nil => rfl
  | cons rbt rest ih =>
    unfold wrenchOutputRBTs at ih ⊢
    by_cases hf : rbt.wreFlow = FlowType.RBT_NODE_IN
    · simp only [solveWrenchInputs, hf, if_true, List.filter_cons, getWrench_wreFlow]
      simp only [show decide (FlowType.RBT_NODE_IN = FlowType.RBT_NODE_OUT) = false from rfl]
      exact ih _ _ _
    · simp only [solveWrenchInputs, hf, if_false, List.filter_cons]
      rw [ih]

/-- Without wrench-output RBT the last loop of the wrench protocol does nothing. -/
theorem solveWrenchOutputs_no_output [CommRing α] (ops : Collaborators α W)
    (fm : Yarp.Vector α × Yarp.Vector α) (l : List (RigidBodyTransformation α)) (world : W)
    (h : wrenchOutputRBTs l = []) : solveWrenchOutputs ops fm l world = (l, world) := by
  induction l with
  | nil => rfl
  | cons rbt rest ih =>
    unfold wrenchOutputRBTs at h ih
    by_cases hf : rbt.wreFlow = FlowType.RBT_NODE_OUT
    · simp [List.filter_cons, hf] at h
    · simp only [List.filter_cons, hf, decide_False] at h
      simp only [solveWrenchOutputs, hf, if_false]
      rw [ih h]

theorem solveWrenchInputs_count [CommRing α] (ops : Collaborators α W)
    (l : List (RigidBodyTransformation α)) (fm : Yarp.Vector α × Yarp.Vector α) (world : W)
    (n : Nat) (hn : n < 2 ^ 32) :
    (solveWrenchInputs ops l fm world n).2.2.2
      = (n + (wrenchInputRBTs l).length) % 2 ^ 32 := by
  induction l generalizing fm world n with
  | nil =>
    simp only [solveWrenchInputs, wrenchInputRBTs, List.filter_nil, List.length_nil,
      Nat.add_zero]
    exact (Nat.mod_eq_of_lt hn).symm
  | cons rbt rest ih =>
    unfold wrenchInputRBTs at ih ⊢
    by_cases h : rbt.wreFlow = FlowType.RBT_NODE_IN
    · simp only [solveWrenchInputs, h, if_true, List.filter_cons, decide_True,
        List.length_cons]
      rw [ih _ _ _ (Nat.mod_lt _ (by norm_num))]
      omega
    · simp only [solveWrenchInputs, h, if_false, List.filter_cons, decide_False]
      exact ih _ _ _ hn

/-- Without wrench-output RBT every RBT is a wrench input. -/
theorem wrenchInputRBTs_of_no_output (l : List (RigidBodyTransformation α))
    (h : wrenchOutputRBTs l = []) : wrenchInputRBTs l = l := by
  induction l with
  | nil => rfl
  | cons rbt rest ih =>
    unfold wrenchOutputRBTs at h ih
    unfold wrenchInputRBTs at ih ⊢
    cases hf : rbt.wreFlow with
    | RBT_NODE_IN =>
      simp only [List.filter_cons, hf] at h
      simp only [List.filter_cons, hf, decide_True, if_true, List.cons.injEq, true_and]
      exact ih (by simpa using h)
    | RBT_NODE_OUT => simp [List.filter_cons, hf] at h

/-- With every needed sensor present the first loop of the sensorized wrench protocol gives a
result. -/
theorem sensorSolveWrenchInputs_isSome [CommRing α] (ops : Collaborators α W)
    (l : List (RigidBodyTransformation α)) (sensors : List (Option Nat))
    (fm : Yarp.Vector α × Yarp.Vector α) (world : W) (n : Nat)
    (h : SensorsPresent l sensors) :
    (sensorSolveWrenchInputs ops l sensors fm world n).isSome = true := by
  induction l generalizing sensors fm world n with
  | nil => rfl
  | cons rbt rest ih =>
    obtain ⟨hhead, hrest⟩ := h
    by_cases hf : rbt.wreFlow = FlowType.RBT_NODE_IN
    · by_cases hs : rbt.hasSensor = true
      · obtain ⟨sensor, hsensor⟩ := Option.isSome_iff_exists.mp (hhead ⟨hf, hs⟩)
        have hnext := ih sensors.tail
          (rbt.getWrench ops fm.1 fm.2
            (ops.computeWrenchFromSensorNewtonEuler world sensor)).2.1
          (rbt.getWrench ops fm.1 fm.2
            (ops.computeWrenchFromSensorNewtonEuler world sensor)).2.2
          ((n + 1) % 2 ^ 32) hrest
        obtain ⟨r, hr⟩ := Option.isSome_iff_exists.mp hnext
        simp only [sensorSolveWrenchInputs, hf, hs, hsensor, if_true, Option.map_some', hr]
        rfl
      · have hnext := ih sensors.tail
          (rbt.getWrench ops fm.1 fm.2 (rbt.computeLimbWrench ops world)).2.1
          (rbt.getWrench ops fm.1 fm.2 (rbt.computeLimbWrench ops world)).2.2
          ((n + 1) % 2 ^ 32) hrest
        obtain ⟨r, hr⟩ := Option.isSome_iff_exists.mp hnext
        simp only [sensorSolveWrenchInputs, hf, hs, if_true, if_false, Bool.false_eq_true, hr]
        rfl
    · have hnext := ih sensors.tail fm world n hrest
      obtain ⟨r, hr⟩ := Option.isSome_iff_exists.mp hnext
      simp only [sensorSolveWrenchInputs, hf, if_false, hr]
      rfl

/-- Whenever `iDynSensorNode::solveWrench()` returns, it returns true. -/
theorem sensorSolveWrench_flag [CommRing α] (ops : Collaborators α W)
    (self : iDynSensorNode α) (world : W) (r : Bool × iDynSensorNode α × W)
    (h : self.solveWrench ops world = some r) : r.1 = true := by
  unfold iDynSensorNode.solveWrench at h
  cases hs : sensorSolveWrenchInputs ops self.rbtList self.sensorList
      (Yarp.Vector.assignScalar self.F 0, Yarp.Vector.assignScalar self.Mu 0) world 0 with
  | none => rw [hs] at h; exact absurd h (by simp)
  | some scan =>
    rw [hs] at h
    simp only [Option.some.injEq] at h
    rw [← h]

theorem sensorSolveWrench_isSome [CommRing α] (ops : Collaborators α W)
    (self : iDynSensorNode α) (world : W)
    (h : SensorsPresent self.rbtList self.sensorList) :
    (self.solveWrench ops world).isSome = true := by
  obtain ⟨scan, hscan⟩ := Option.isSome_iff_exists.mp
    (sensorSolveWrenchInputs_isSome ops self.rbtList self.sensorList
      (Yarp.Vector.assignScalar self.F 0, Yarp.Vector.assignScalar self.Mu 0) world 0 h)
  unfold iDynSensorNode.solveWrench
  rw [hscan]
  rfl

/-- Without wrench-output RBT, `iDynNode::solveWrench()` returns the node and the world as the
accumulation loop left them. -/
theorem solveWrench_of_no_output [CommRing α] (ops : Collaborators α W) (self : iDynNode α)
    (world : W) (h : wrenchOutputRBTs self.rbtList = []) :
    self.solveWrench ops world
      = (true,
          { self with
            rbtList := (solveWrenchInputs ops self.rbtList
              (Yarp.Vector.assignScalar self.F 0, Yarp.Vector.assignScalar self.Mu 0)
              world 0).1,
            F := (solveWrenchInputs ops self.rbtList
              (Yarp.Vector.assignScalar self.F 0, Yarp.Vector.assignScalar self.Mu 0)
              world 0).2.1.1,
            Mu := (solveWrenchInputs ops self.rbtList
              (Yarp.Vector.assignScalar self.F 0, Yarp.Vector.assignScalar self.Mu 0)
              world 0).2.1.2 },
          (solveWrenchInputs ops self.rbtList
            (Yarp.Vector.assignScalar self.F 0, Yarp.Vector.assignScalar self.Mu 0)
            world 0).2.2.1) := by
  unfold iDynNode.solveWrench
  simp only
  rw [solveWrenchOutputs_no_output ops _ _ _
    ((solveWrenchInputs_outputs ops self.rbtList _ world 0).trans h)]


/-- The first loop of `iDynSensorNode::solveWrench` gives a result only if every sensorized
wrench input finds its sensor. -/
theorem sensorsPresent_of_isSome [CommRing α] (ops : Collaborators α W)
    (l : List (RigidBodyTransformation α)) (sensors : List (Option Nat))
    (fm : Yarp.Vector α × Yarp.Vector α) (world : W) (n : Nat)
    (h : (sensorSolveWrenchInputs ops l sensors fm world n).isSome = true) :
    SensorsPresent l sensors := by
  induction l generalizing sensors fm world n with
  | nil => trivial
  | cons rbt rest ih =>
    by_cases hf : rbt.wreFlow = FlowType.RBT_NODE_IN
    · by_cases hs : rbt.hasSensor = true
      · cases hsens : sensorAt sensors with
        | none => simp [sensorSolveWrenchInputs, hf, hs, hsens] at h
        | some sensor =>
          simp only [sensorSolveWrenchInputs, hf, hs, hsens, if_true, Option.map_some'] at h
          cases hnext : sensorSolveWrenchInputs ops rest sensors.tail
              (rbt.getWrench ops fm.1 fm.2
                (ops.computeWrenchFromSensorNewtonEuler world sensor)).2.1
              (rbt.getWrench ops fm.1 fm.2
                (ops.computeWrenchFromSensorNewtonEuler world sensor)).2.2
              ((n + 1) % 2 ^ 32) with
          | none => rw [hnext] at h; simp at h
          | some r1 =>
            exact ⟨fun _ => by rw [hsens]; rfl, ih _ _ _ _ (by rw [hnext]; rfl)⟩
      · have hs2 : rbt.hasSensor = false := by simpa using hs
        simp only [sensorSolveWrenchInputs, hf, hs2, if_true, Bool.false_eq_true,
          if_false] at h
        cases hnext : sensorSolveWrenchInputs ops rest sensors.tail
            (rbt.getWrench ops fm.1 fm.2 (rbt.computeLimbWrench ops world)).2.1
            (rbt.getWrench ops fm.1 fm.2 (rbt.computeLimbWrench ops world)).2.2
            ((n + 1) % 2 ^ 32) with
        | none => rw [hnext] at h; simp at h
        | some r1 =>
          exact ⟨fun hh => absurd hh.2 hs, ih _ _ _ _ (by rw [hnext]; rfl)⟩
    · simp only [sensorSolveWrenchInputs, hf, if_false] at h
      cases hnext : sensorSolveWrenchInputs ops rest sensors.tail fm world n with
      | none => rw [hnext] at h; simp at h
      | some r1 =>
        exact ⟨fun hh => absurd hh.1 hf, ih _ _ _ _ (by rw [hnext]; rfl)⟩

/-- The first loop of `iDynSensorNode::solveWrench` does not touch the wrench-output RBTs. -/
theorem sensorSolveWrenchInputs_outputs [CommRing α] (ops : Collaborators α W)
    (l : List (RigidBodyTransformation α)) (sensors : List (Option Nat))
    (fm : Yarp.Vector α × Yarp.Vector α) (world : W) (n : Nat)
    (r : List (RigidBodyTransformation α) × (Yarp.Vector α × Yarp.Vector α) × W × Nat)
    (h : sensorSolveWrenchInputs ops l sensors fm world n = some r) :
    wrenchOutputRBTs r.1 = wrenchOutputRBTs l := by
  induction l generalizing sensors fm world n r with
  | nil =>
    simp only [sensorSolveWrenchInputs, Option.some.injEq] at h
    rw [← h]
  | cons rbt rest ih =>
    by_cases hf : rbt.wreFlow = FlowType.RBT_NODE_IN
    · have hout : ∀ (v : W) (a b : Yarp.Vector α),
          decide ((rbt.getWrench ops a b v).1.wreFlow = FlowType.RBT_NODE_OUT) = false := by
        intro v a b
        rw [getWrench_wreFlow, hf]
        rfl
      by_cases hs : rbt.hasSensor = true
      · cases hsens : sensorAt sensors with
        | none => simp [sensorSolveWrenchInputs, hf, hs, hsens] at h
        | some sensor =>
          simp only [sensorSolveWrenchInputs, hf, hs, hsens, if_true, Option.map_some'] at h
          cases hnext : sensorSolveWrenchInputs ops rest sensors.tail
              (rbt.getWrench ops fm.1 fm.2
                (ops.computeWrenchFromSensorNewtonEuler world sensor)).2.1
              (rbt.getWrench ops fm.1 fm.2
                (ops.computeWrenchFromSensorNewtonEuler world sensor)).2.2
              ((n + 1) % 2 ^ 32) with
          | none => rw [hnext] at h; simp at h
          | some r1 =>
            rw [hnext] at h
            simp only [Option.some.injEq] at h
            have hi := ih sensors.tail _ _ _ r1 hnext
            rw [← h]
            unfold wrenchOutputRBTs at hi ⊢
            simp only [List.filter_cons, hout, hf, hi]
            simp
      · have hs2 : rbt.hasSensor = false := by simpa using hs
        simp only [sensorSolveWrenchInputs, hf, hs2, if_true, Bool.false_eq_true,
          if_false] at h
        cases hnext : sensorSolveWrenchInputs ops rest sensors.tail
            (rbt.getWrench ops fm.1 fm.2 (rbt.computeLimbWrench ops world)).2.1
            (rbt.getWrench ops fm.1 fm.2 (rbt.computeLimbWrench ops world)).2.2
            ((n + 1) % 2 ^ 32) with
        | none => rw [hnext] at h; simp at h
        | some r1 =>
          rw [hnext] at h
          simp only [Option.some.injEq] at h
          have hi := ih sensors.tail _ _ _ r1 hnext
          rw [← h]
          unfold wrenchOutputRBTs at hi ⊢
          simp only [List.filter_cons, hout, hf, hi]
          simp
    · simp only [sensorSolveWrenchInputs, hf, if_false] at h
      cases hnext : sensorSolveWrenchInputs ops rest sensors.tail fm world n with
      | none => rw [hnext] at h; simp at h
      | some r1 =>
        rw [hnext] at h
        simp only [Option.some.injEq] at h
        have hi := ih sensors.tail _ _ _ r1 hnext
        rw [← h]
        unfold wrenchOutputRBTs at hi ⊢
        simp only [List.filter_cons, hi]

/-- The call `iDynSensorNode::solveWrench()` returns exactly when every sensorized wrench input
finds its sensor. -/
theorem sensorSolveWrench_isSome_iff [CommRing α] (ops : Collaborators α W)
    (self : iDynSensorNode α) (world : W) :
    (self.solveWrench ops world).isSome = true
      ↔ SensorsPresent self.rbtList self.sensorList := by
  constructor
  · intro h
    apply sensorsPresent_of_isSome ops self.rbtList self.sensorList
      (Yarp.Vector.assignScalar self.F 0, Yarp.Vector.assignScalar self.Mu 0) world 0
    unfold iDynSensorNode.solveWrench at h
    cases hs : sensorSolveWrenchInputs ops self.rbtList self.sensorList
        (Yarp.Vector.assignScalar self.F 0, Yarp.Vector.assignScalar self.Mu 0) world 0 with
    | none => rw [hs] at h; simp at h
    | some scan => rfl
  · exact sensorSolveWrench_isSome ops self world

/-- Without wrench-output RBT, `iDynSensorNode::solveWrench()` returns true with the node and
the world as the accumulation loop left them, whenever that loop returns. -/
theorem sensorSolveWrench_of_no_output [CommRing α] (ops : Collaborators α W)
    (self : iDynSensorNode α) (world : W) (h : wrenchOutputRBTs self.rbtList = []) :
    self.solveWrench ops world
      = (sensorSolveWrenchInputs ops self.rbtList self.sensorList
          (Yarp.Vector.assignScalar self.F 0, Yarp.Vector.assignScalar self.Mu 0) world 0).map
          fun scan =>
            (true, { self with rbtList := scan.1, F := scan.2.1.1, Mu := scan.2.1.2 },
              scan.2.2.1) := by
  unfold iDynSensorNode.solveWrench
  cases hs : sensorSolveWrenchInputs ops self.rbtList self.sensorList
      (Yarp.Vector.assignScalar self.F 0, Yarp.Vector.assignScalar self.Mu 0) world 0 with
  | none => rfl
  | some scan =>
    have ho : wrenchOutputRBTs scan.1 = [] :=
      (sensorSolveWrenchInputs_outputs ops _ _ _ _ _ scan hs).trans h
    simp only [Option.map_some']
    rw [solveWrenchOutputs_no_output ops _ _ _ ho]

/-- C14, as the code has it: `iDynNode::solveWrench()` returns true for every node
configuration, and when every RBT is a wrench input (no wrench-output RBT) the node and the
world are as the accumulation loop left them, so the balance check changes nothing and does
not fail the call. `iDynSensorNode::solveWrench()` returns exactly when every sensorized
wrench-input RBT finds a sensor at its index, and then returns true, again with the node and
the world of the accumulation loop when there is no wrench-output RBT; with a null or missing
sensor the pointer is dereferenced and the call gives no result. -/
theorem solveWrench_returns_true [CommRing α] (ops : Collaborators α W) (self : iDynNode α)
    (sensorNode : iDynSensorNode α) (world : W) :
    (self.solveWrench ops world).1 = true ∧
    (wrenchOutputRBTs self.rbtList = [] →
      self.solveWrench ops world
        = (true,
            { self with
              rbtList := (solveWrenchInputs ops self.rbtList
                (Yarp.Vector.assignScalar self.F 0, Yarp.Vector.assignScalar self.Mu 0)
                world 0).1,
              F := (solveWrenchInputs ops self.rbtList
                (Yarp.Vector.assignScalar self.F 0, Yarp.Vector.assignScalar self.Mu 0)
                world 0).2.1.1,
              Mu := (solveWrenchInputs ops self.rbtList
                (Yarp.Vector.assignScalar self.F 0, Yarp.Vector.assignScalar self.Mu 0)
                world 0).2.1.2 },
            (solveWrenchInputs ops self.rbtList
              (Yarp.Vector.assignScalar self.F 0, Yarp.Vector.assignScalar self.Mu 0)
              world 0).2.2.1)) ∧
    ((sensorNode.solveWrench ops world).isSome = true
      ↔ SensorsPresent sensorNode.rbtList sensorNode.sensorList) ∧
    (SensorsPresent sensorNode.rbtList sensorNode.sensorList →
      (sensorNode.solveWrench ops world).map (fun r => r.1) = some true) ∧
    (¬ SensorsPresent sensorNode.rbtList sensorNode.sensorList →
      sensorNode.solveWrench ops world = none) ∧
    (wrenchOutputRBTs sensorNode.rbtList = [] →
      sensorNode.solveWrench ops world
        = (sensorSolveWrenchInputs ops sensorNode.rbtList sensorNode.sensorList
            (Yarp.Vector.assignScalar sensorNode.F 0, Yarp.Vector.assignScalar sensorNode.Mu 0)
            world 0).map
            fun scan =>
              (true,
                { sensorNode with rbtList := scan.1, F := scan.2.1.1, Mu := scan.2.1.2 },
                scan.2.2.1)) := by
  refine ⟨rfl, solveWrench_of_no_output ops self world,
    sensorSolveWrench_isSome_iff ops sensorNode world, ?_, ?_,
    sensorSolveWrench_of_no_output ops sensorNode world⟩
  · intro hp
    obtain ⟨r, hr⟩ := Option.isSome_iff_exists.mp (sensorSolveWrench_isSome ops sensorNode world hp)
    rw [hr, Option.map_some', sensorSolveWrench_flag ops sensorNode world r hr]
  · intro hp
    cases hr : sensorNode.solveWrench ops world with
    | none => rfl
    | some r =>
      exact absurd ((sensorSolveWrench_isSome_iff ops sensorNode world).mp (by rw [hr]; rfl)) hp

/-- C14 at concrete inputs: a node and a sensorized node in which all three RBTs are wrench
inputs and both sensorized arms have their sensors; both calls return true and leave the
aggregate forces `(1, 2, 0)` and `(3, 0, 0)` of the accumulation loop. -/
theorem solveWrench_returns_true_witness :
    wrenchOutputRBTs torsoNode.rbtList = [] ∧
    (torsoNode.solveWrench countingCollaborators 0).1 = true ∧
    (torsoNode.solveWrench countingCollaborators 0).2.1.F = [1, 2, 0] ∧
    SensorsPresent torsoSensorNode.rbtList torsoSensorNode.sensorList ∧
    wrenchOutputRBTs torsoSensorNode.rbtList = [] ∧
    (torsoSensorNode.solveWrench countingCollaborators 0).isSome = true ∧
    (torsoSensorNode.solveWrench countingCollaborators 0).map (fun r => r.1) = some true ∧
    (torsoSensorNode.solveWrench countingCollaborators 0).map (fun r => r.2.1.F)
      = some [3, 0, 0] :=
  ⟨by decide,
    (solveWrench_returns_true countingCollaborators torsoNode torsoSensorNode 0).1,
    by decide, by decide, by decide,
    (solveWrench_returns_true countingCollaborators torsoNode torsoSensorNode 0).2.2.1.mpr
      (by decide),
    (solveWrench_returns_true countingCollaborators torsoNode torsoSensorNode 0).2.2.2.1
      (by decide),
    by decide⟩

/-- C14 fails as stated: the sensorized node `nullSensorNode`, built through `addLimb` alone,
has a sensorized wrench-input RBT (the left arm) whose sensor pointer is null;
`iDynSensorNode::solveWrench()` dereferences it and gives no result, so it does not return
true. -/
theorem solveWrench_returns_true_counterexample :
    nullSensorNode.rbtList.map (fun r => (r.limb, r.wreFlow, r.hasSensor))
      = [(0, FlowType.RBT_NODE_IN, false), (1, FlowType.RBT_NODE_IN, true),
          (2, FlowType.RBT_NODE_IN, true)] ∧
    nullSensorNode.sensorList = [none, some 7, none] ∧
    (nullSensorNode.solveWrench countingCollaborators 0).isSome = false ∧
    ¬ ((nullSensorNode.solveWrench countingCollaborators 0).map (fun r => r.1) = some true) := by
  decide

/-! ## No wrench output -/

/-- C15 (as amended): for every node in which no RBT has wrench flow NODE_OUT, `solveWrench()`
returns true; the missing output only makes the condition of the balance warning,
`outputNode==rbtList.size()`, hold. -/
theorem solveWrench_no_output [CommRing α] (ops : Collaborators α W) (self : iDynNode α)
    (world : W) (hlen : self.rbtList.length < 2 ^ 32)
    (hout : wrenchOutputRBTs self.rbtList = []) :
    (self.solveWrench ops world).1 = true ∧ self.solveWrenchWarns ops world = true := by
  refine ⟨rfl, ?_⟩
  unfold iDynNode.solveWrenchWarns
  rw [solveWrenchInputs_count ops _ _ _ 0 (by norm_num), wrenchInputRBTs_of_no_output _ hout,
    Nat.zero_add, Nat.mod_eq_of_lt hlen]
  exact decide_eq_true rfl

/-- C15 (as amended) at a concrete input: the node `torsoNode`, whose three RBTs are all wrench
inputs. -/
theorem solveWrench_no_output_witness :
    torsoNode.rbtList.length < 2 ^ 32 ∧ wrenchOutputRBTs torsoNode.rbtList = [] ∧
    (torsoNode.solveWrench countingCollaborators 0).1 = true ∧
    torsoNode.solveWrenchWarns countingCollaborators 0 = true :=
  ⟨by decide, by decide,
    solveWrench_no_output countingCollaborators torsoNode 0 (by decide) (by decide)⟩

/-- C15 (counterexample): the node `torsoNode` has no RBT with wrench flow NODE_OUT, and
`solveWrench()` does not return false on it. -/
theorem solveWrench_no_output_counterexample :
    wrenchOutputRBTs torsoNode.rbtList = [] ∧
    ¬ ((torsoNode.solveWrench countingCollaborators 0).1 = false) := by
  decide


/-! ## Measurement injection: lemmas -/

theorem wrapInt32_of_range (x : Int) (h0 : 0 ≤ x) (h1 : x < 2 ^ 31) : wrapInt32 x = x := by
  unfold wrapInt32
  norm_num at h1 ⊢
  omega

theorem countWrenchInputs_eq (l : List (RigidBodyTransformation α)) (n : Int) (hn : 0 ≤ n)
    (hb : n + (wrenchInputRBTs l).length < 2 ^ 31) :
    countWrenchInputs l n = n + (wrenchInputRBTs l).length := by
  induction l generalizing n with
  | nil => simp [countWrenchInputs, wrenchInputRBTs]
  | cons rbt rest ih =>
    unfold wrenchInputRBTs at ih hb ⊢
    by_cases hf : rbt.wreFlow = FlowType.RBT_NODE_IN
    · simp only [List.filter_cons, hf, decide_True, if_true, List.length_cons,
        Nat.cast_add, Nat.cast_one] at hb ⊢
      have hw : wrapInt32 (n + 1) = n + 1 := wrapInt32_of_range _ (by omega) (by omega)
      simp only [countWrenchInputs, hf, if_true, hw]
      rw [ih (n + 1) (by omega) (by omega)]
      omega
    · simp only [List.filter_cons, hf, decide_False] at hb ⊢
      simp only [countWrenchInputs, hf, if_false]
      exact ih n hn hb

theorem wrenchInputs_le_length (self : iDynNode α) :
    self.wrenchInputs ≤ self.rbtList.length :=
  List.length_filter_le _ _

/-- The value of `inputNode` after the counting loop, for a list the `int` counter can count. -/
theorem countWrenchInputs_node (self : iDynNode α) (hlen : self.rbtList.length < 2 ^ 31) :
    countWrenchInputs self.rbtList 0 = (self.wrenchInputs : Int) := by
  have hle := wrenchInputs_le_length self
  unfold iDynNode.wrenchInputs at hle ⊢
  rw [countWrenchInputs_eq self.rbtList 0 (le_refl 0) (by norm_num at hlen ⊢; omega)]
  omega

/-- The flag returned by `setWrenchMeasure(FM)`. -/
theorem setWrenchMeasure_flag [Zero α] (ops : Collaborators α W) (self : iDynNode α)
    (FM : Yarp.Matrix α) (world : W) (hlen : self.rbtList.length < 2 ^ 31) :
    (self.setWrenchMeasure ops FM world).1
      = decide (FM.rows = 6 ∧ self.wrenchInputs ≤ FM.cols) := by
  unfold iDynNode.setWrenchMeasure
  simp only [countWrenchInputs_node self hlen, Nat.cast_lt]
  by_cases hr : FM.rows = 6 <;> by_cases hc : FM.cols < self.wrenchInputs <;>
    simp [hr, hc, Nat.not_le.mpr, Nat.le_of_not_lt]

/-- The column read for the `k`-th wrench input, split into force and moment. -/
theorem getCol_split [Zero α] (FM : Yarp.Matrix α) (k : Nat) (hrows : FM.rows = 6) :
    [Yarp.Vector.get (FM.getCol k) 0, Yarp.Vector.get (FM.getCol k) 1,
        Yarp.Vector.get (FM.getCol k) 2] = [FM.get 0 k, FM.get 1 k, FM.get 2 k] ∧
    [Yarp.Vector.get (FM.getCol k) 3, Yarp.Vector.get (FM.getCol k) 4,
        Yarp.Vector.get (FM.getCol k) 5] = [FM.get 3 k, FM.get 4 k, FM.get 5 k] := by
  simp [Yarp.Matrix.getCol, hrows, List.range_succ, Yarp.Vector.get]

/-- The calls made by the loop over the columns, starting with column `n`. -/
theorem setWrenchMeasureColumns_log [Zero α] (ops : Collaborators α W) (FM : Yarp.Matrix α)
    (hrows : FM.rows = 6) (l : List (RigidBodyTransformation α)) (n : Nat) (world : W)
    (log : List (Call α)) (hb : n + (wrenchInputRBTs l).length < 2 ^ 31) :
    (setWrenchMeasureColumns (recording ops) FM l (n : Int) (world, log)).2
      = log ++ ((wrenchInputRBTs l).enumFrom n).map fun p => wrenchMeasureCall FM p.1 p.2 := by
  induction l generalizing n world log with
  | nil => simp [setWrenchMeasureColumns, wrenchInputRBTs]
  | cons rbt rest ih =>
    unfold wrenchInputRBTs at ih hb ⊢
    by_cases hf : rbt.wreFlow = FlowType.RBT_NODE_IN
    · simp only [List.filter_cons, hf, decide_True, if_true, List.length_cons] at hb ⊢
      have hw : wrapInt32 ((n : Int) + 1) = ((n + 1 : Nat) : Int) := by
        rw [wrapInt32_of_range _ (by omega) (by norm_num at hb ⊢; omega)]
        simp
      simp only [setWrenchMeasureColumns, hf, if_true, hw, Int.toNat_ofNat,
        (getCol_split FM n hrows).1, (getCol_split FM n hrows).2]
      rw [show (rbt.setWrenchMeasure (recording ops) [FM.get 0 n, FM.get 1 n, FM.get 2 n]
            [FM.get 3 n, FM.get 4 n, FM.get 5 n] (world, log)).2.2
          = ((ops.initWrenchNewtonEuler world rbt.limb [FM.get 0 n, FM.get 1 n, FM.get 2 n]
                [FM.get 3 n, FM.get 4 n, FM.get 5 n]).2,
              log ++ [wrenchMeasureCall FM n rbt]) from rfl]
      rw [ih (n + 1) _ _ (by omega)]
      simp [List.enumFrom_cons]
    · simp only [List.filter_cons, hf, decide_False] at hb ⊢
      simp only [setWrenchMeasureColumns, hf, if_false]
      exact ih n _ _ hb

/-- The calls made by the loop that substitutes the defaults. -/
theorem setWrenchMeasureDefaults_log (ops : Collaborators α W) (fi mi : Yarp.Vector α)
    (l : List (RigidBodyTransformation α)) (world : W) (log : List (Call α)) :
    (setWrenchMeasureDefaults (recording ops) fi mi l (world, log)).2
      = log ++ (wrenchInputRBTs l).map fun rbt => Call.initWrenchNewtonEuler rbt.limb fi mi := by
  induction l generalizing world log with
  | nil => simp [setWrenchMeasureDefaults, wrenchInputRBTs]
  | cons rbt rest ih =>
    unfold wrenchInputRBTs at ih ⊢
    by_cases hf : rbt.wreFlow = FlowType.RBT_NODE_IN
    · simp only [List.filter_cons, hf, decide_True, if_true, setWrenchMeasureDefaults]
      rw [show (rbt.setWrenchMeasure (recording ops) fi mi (world, log)).2.2
          = ((ops.initWrenchNewtonEuler world rbt.limb fi mi).2,
              log ++ [Call.initWrenchNewtonEuler rbt.limb fi mi]) from rfl]
      rw [ih]
      simp
    · simp only [List.filter_cons, hf, decide_False, setWrenchMeasureDefaults, if_false]
      exact ih _ _


/-! ## Measurement injection: the 6xN form -/

/-- C16 (as amended): for a 6-row matrix `FM` with `N` columns, `setWrenchMeasure(FM)` returns
false when `N` is smaller than the number of wrench-input RBTs and true when `N` equals that
number or is larger. The list is short enough for the `int` counter to count it. -/
theorem setWrenchMeasure_columns_check [Zero α] (ops : Collaborators α W) (self : iDynNode α)
    (FM : Yarp.Matrix α) (world : W) (hlen : self.rbtList.length < 2 ^ 31)
    (hrows : FM.rows = 6) :
    (FM.cols < self.wrenchInputs → (self.setWrenchMeasure ops FM world).1 = false) ∧
    (self.wrenchInputs ≤ FM.cols → (self.setWrenchMeasure ops FM world).1 = true) := by
  rw [setWrenchMeasure_flag ops self FM world hlen]
  refine ⟨fun h => ?_, fun h => ?_⟩
  · simp [hrows, Nat.not_le.mpr h]
  · simp [hrows, h]

/-- C16 (as amended) at concrete inputs: against three wrench inputs a 6x2 matrix is refused,
a 6x3 and a 6x4 matrix are accepted. -/
theorem setWrenchMeasure_columns_check_witness :
    torsoNode.rbtList.length < 2 ^ 31 ∧ torsoNode.wrenchInputs = 3 ∧
    (torsoNode.setWrenchMeasure countingCollaborators sixByTwo 0).1 = false ∧
    (torsoNode.setWrenchMeasure countingCollaborators sixByThree 0).1 = true ∧
    (torsoNode.setWrenchMeasure countingCollaborators sixByFour 0).1 = true :=
  ⟨by decide, by decide,
    (setWrenchMeasure_columns_check countingCollaborators torsoNode sixByTwo 0 (by decide)
      rfl).1 (by decide),
    (setWrenchMeasure_columns_check countingCollaborators torsoNode sixByThree 0 (by decide)
      rfl).2 (by decide),
    (setWrenchMeasure_columns_check countingCollaborators torsoNode sixByFour 0 (by decide)
      rfl).2 (by decide)⟩

/-- C16 (counterexample): the node `torsoNode` has three wrench inputs and `sixByFour` has six
rows and four columns, a column count that differs from three, yet `setWrenchMeasure` does not
return false. -/
theorem setWrenchMeasure_columns_check_counterexample :
    sixByFour.rows = 6 ∧ sixByFour.cols ≠ torsoNode.wrenchInputs ∧
    ¬ ((torsoNode.setWrenchMeasure countingCollaborators sixByFour 0).1 = false) := by
  decide

/-- C17: for every accepted 6xN matrix `FM` (six rows, at least as many columns as wrench
inputs), `setWrenchMeasure(FM)` returns true and the calls received are exactly one
`initWrenchNewtonEuler` per wrench-input RBT, in attachment order, the `k`-th of them (from 0,
wrench-output RBTs not counted) on the limb of that RBT with force
`(FM(0,k), FM(1,k), FM(2,k))` and moment `(FM(3,k), FM(4,k), FM(5,k))`: nothing is transformed
and no wrench-output RBT is called. -/
theorem setWrenchMeasure_accepted [Zero α] (ops : Collaborators α W) (self : iDynNode α)
    (FM : Yarp.Matrix α) (world : W) (hlen : self.rbtList.length < 2 ^ 31)
    (hrows : FM.rows = 6) (hcols : self.wrenchInputs ≤ FM.cols) :
    (self.setWrenchMeasure (recording ops) FM (world, [])).1 = true ∧
    (self.setWrenchMeasure (recording ops) FM (world, [])).2.2
      = (wrenchInputRBTs self.rbtList).enum.map fun p => wrenchMeasureCall FM p.1 p.2 := by
  have hle := wrenchInputs_le_length self
  have hlog := setWrenchMeasureColumns_log ops FM hrows self.rbtList 0 world []
    (by unfold iDynNode.wrenchInputs at hle; norm_num at hlen ⊢; omega)
  have hok : (if FM.rows ≠ 6 then false
      else if (FM.cols : Int) < countWrenchInputs self.rbtList 0 then false else true) = true := by
    rw [countWrenchInputs_node self hlen]
    simp [hrows, hcols]
  unfold iDynNode.setWrenchMeasure
  simp only [hok, if_true, true_and]
  simpa [List.enum] using hlog

/-- C17 at a concrete input: the three wrench inputs of `torsoNode` (limbs 0, 1, 2) receive the
three columns of `sixByThree`. -/
theorem setWrenchMeasure_accepted_witness :
    torsoNode.rbtList.length < 2 ^ 31 ∧ sixByThree.rows = 6 ∧
    torsoNode.wrenchInputs ≤ sixByThree.cols ∧
    (torsoNode.setWrenchMeasure (recording countingCollaborators) sixByThree (0, [])).1 = true ∧
    (torsoNode.setWrenchMeasure (recording countingCollaborators) sixByThree (0, [])).2.2
      = [ Call.initWrenchNewtonEuler 0 [1, 2, 3] [4, 5, 6],
          Call.initWrenchNewtonEuler 1 [11, 12, 13] [14, 15, 16],
          Call.initWrenchNewtonEuler 2 [21, 22, 23] [24, 25, 26] ] :=
  ⟨by decide, rfl, by decide,
    (setWrenchMeasure_accepted countingCollaborators torsoNode sixByThree 0 (by decide) rfl
      (by decide)).1,
    by decide⟩

/-- C18: for every matrix `FM` whose row count is not 6, `setWrenchMeasure(FM)` returns false and
the calls received are exactly one `initWrenchNewtonEuler` with force `(0, 0, 0)` and moment
`(0, 0, 0)` on the limb of every wrench-input RBT. -/
theorem setWrenchMeasure_wrong_rows [Zero α] (ops : Collaborators α W) (self : iDynNode α)
    (FM : Yarp.Matrix α) (world : W) (hrows : FM.rows ≠ 6) :
    (self.setWrenchMeasure (recording ops) FM (world, [])).1 = false ∧
    (self.setWrenchMeasure (recording ops) FM (world, [])).2.2
      = (wrenchInputRBTs self.rbtList).map fun rbt =>
          Call.initWrenchNewtonEuler rbt.limb [0, 0, 0] [0, 0, 0] := by
  have hlog := setWrenchMeasureDefaults_log ops [0, 0, 0] [0, 0, 0] self.rbtList world []
  unfold iDynNode.setWrenchMeasure
  simp only [hrows, ne_eq, not_false_eq_true, if_true, Bool.false_eq_true, if_false, true_and]
  simpa using hlog

/-- C18 at the concrete input named by the claim: a 5x2 matrix offered to a node with three
wrench inputs. -/
theorem setWrenchMeasure_wrong_rows_witness :
    fiveByTwo.rows ≠ 6 ∧
    (torsoNode.setWrenchMeasure (recording countingCollaborators) fiveByTwo (0, [])).1 = false ∧
    (torsoNode.setWrenchMeasure (recording countingCollaborators) fiveByTwo (0, [])).2.2
      = [ Call.initWrenchNewtonEuler 0 [0, 0, 0] [0, 0, 0],
          Call.initWrenchNewtonEuler 1 [0, 0, 0] [0, 0, 0],
          Call.initWrenchNewtonEuler 2 [0, 0, 0] [0, 0, 0] ] :=
  ⟨by decide,
    (setWrenchMeasure_wrong_rows countingCollaborators torsoNode fiveByTwo 0 (by decide)).1,
    by decide⟩


/-! ## Measurement injection: the two forms -/

/-- Column `k` of the stacking `[Fm; Mm]` of two 3-row matrices, split as the 6xN form does,
gives column `k` of `Fm` and column `k` of `Mm`. -/
theorem stack_getCol_split [Zero α] (Fm Mm : Yarp.Matrix α) (k : Nat)
    (hFm : Fm.WellFormed) (hFr : Fm.rows = 3) (hMr : Mm.rows = 3) :
    [Yarp.Vector.get ((stack Fm Mm).getCol k) 0, Yarp.Vector.get ((stack Fm Mm).getCol k) 1,
        Yarp.Vector.get ((stack Fm Mm).getCol k) 2] = Fm.getCol k ∧
    [Yarp.Vector.get ((stack Fm Mm).getCol k) 3, Yarp.Vector.get ((stack Fm Mm).getCol k) 4,
        Yarp.Vector.get ((stack Fm Mm).getCol k) 5] = Mm.getCol k := by
  obtain ⟨rows, cols, data⟩ := Fm
  obtain ⟨hlen, -⟩ := hFm
  simp only at hFr hlen
  subst hFr
  obtain ⟨r0, r1, r2, rfl⟩ := List.length_eq_three.mp hlen
  simp [Yarp.Matrix.getCol, stack, hMr, List.range_succ, Yarp.Vector.get, Yarp.Matrix.get]

theorem setWrenchMeasureColumns2_eq [Zero α] (ops : Collaborators α W) (Fm Mm : Yarp.Matrix α)
    (hFm : Fm.WellFormed) (hFr : Fm.rows = 3) (hMr : Mm.rows = 3)
    (l : List (RigidBodyTransformation α)) (n : Int) (world : W) :
    setWrenchMeasureColumns2 ops Fm Mm l n world
      = setWrenchMeasureColumns ops (stack Fm Mm) l n world := by
  induction l generalizing n world with
  | nil => rfl
  | cons rbt rest ih =>
    by_cases hf : rbt.wreFlow = FlowType.RBT_NODE_IN
    · simp only [setWrenchMeasureColumns2, setWrenchMeasureColumns, hf, if_true,
        (stack_getCol_split Fm Mm n.toNat hFm hFr hMr).1,
        (stack_getCol_split Fm Mm n.toNat hFm hFr hMr).2]
      exact ih _ _
    · simp only [setWrenchMeasureColumns2, setWrenchMeasureColumns, hf, if_false]
      exact ih _ _

/-- The two forms of `setWrenchMeasure` agree on every world, whatever the collaborators. -/
theorem setWrenchMeasure2_eq [Zero α] (ops : Collaborators α W) (self : iDynNode α)
    (Fm Mm : Yarp.Matrix α) (world : W) (hFm : Fm.WellFormed) (hFr : Fm.rows = 3)
    (hMr : Mm.rows = 3) (hc : Fm.cols = Mm.cols) :
    self.setWrenchMeasure2 ops Fm Mm world = self.setWrenchMeasure ops (stack Fm Mm) world := by
  unfold iDynNode.setWrenchMeasure2 iDynNode.setWrenchMeasure
  have hrows : (stack Fm Mm).rows = 6 := by simp [stack, hFr, hMr]
  have hcols : (stack Fm Mm).cols = Fm.cols := rfl
  simp only [hFr, hMr, hrows, hcols, ← hc, or_self, ne_eq, not_true_eq_false, if_false,
    setWrenchMeasureColumns2_eq ops Fm Mm hFm hFr hMr]

/-- The stacking of two well-formed 3xN matrices is a well-formed 6xN matrix. -/
theorem stack_wellFormed (Fm Mm : Yarp.Matrix α) (hFm : Fm.WellFormed) (hMm : Mm.WellFormed)
    (hFr : Fm.rows = 3) (hMr : Mm.rows = 3) (hc : Fm.cols = Mm.cols) :
    (stack Fm Mm).WellFormed ∧ (stack Fm Mm).rows = 6 ∧ (stack Fm Mm).cols = Fm.cols := by
  refine ⟨⟨?_, ?_⟩, ?_, rfl⟩
  · simp [stack, hFm.1, hMm.1]
  · intro row hrow
    simp only [stack, List.mem_append] at hrow ⊢
    rcases hrow with h | h
    · exact hFm.2 row h
    · rw [hc]; exact hMm.2 row h
  · simp [stack, hFr, hMr]

/-- C19: for `iDynNode` the two measurement forms are equivalent: for every pair of 3xN matrices
`Fm`, `Mm` (any `N`) and their vertical stacking `[Fm; Mm]`, `setWrenchMeasure(Fm, Mm)` and
`setWrenchMeasure([Fm; Mm])` return the same flag, leave the same world and make the same calls
with the same arguments on the same limbs, whatever the limbs answer. -/
theorem setWrenchMeasure_forms_agree [Zero α] (ops : Collaborators α W) (self : iDynNode α)
    (Fm Mm : Yarp.Matrix α) (world : W) (hFm : Fm.WellFormed) (hMm : Mm.WellFormed)
    (hFr : Fm.rows = 3) (hMr : Mm.rows = 3) (hc : Fm.cols = Mm.cols) :
    ((stack Fm Mm).WellFormed ∧ (stack Fm Mm).rows = 6 ∧ (stack Fm Mm).cols = Fm.cols) ∧
    self.setWrenchMeasure2 ops Fm Mm world = self.setWrenchMeasure ops (stack Fm Mm) world ∧
    (self.setWrenchMeasure2 (recording ops) Fm Mm (world, [])).1
      = (self.setWrenchMeasure (recording ops) (stack Fm Mm) (world, [])).1 ∧
    (self.setWrenchMeasure2 (recording ops) Fm Mm (world, [])).2.2
      = (self.setWrenchMeasure (recording ops) (stack Fm Mm) (world, [])).2.2 := by
  refine ⟨stack_wellFormed Fm Mm hFm hMm hFr hMr hc,
    setWrenchMeasure2_eq ops self Fm Mm world hFm hFr hMr hc, ?_, ?_⟩
  · rw [setWrenchMeasure2_eq (recording ops) self Fm Mm (world, []) hFm hFr hMr hc]
  · rw [setWrenchMeasure2_eq (recording ops) self Fm Mm (world, []) hFm hFr hMr hc]

/-- C19 at concrete inputs: the two halves of `sixByThree` against `sixByThree` itself, on a
node with three wrench inputs. -/
theorem setWrenchMeasure_forms_agree_witness :
    forceRows.WellFormed ∧ momentRows.WellFormed ∧ stack forceRows momentRows = sixByThree ∧
    (torsoNode.setWrenchMeasure2 (recording countingCollaborators) forceRows momentRows
        (0, [])).1
      = (torsoNode.setWrenchMeasure (recording countingCollaborators)
          (stack forceRows momentRows) (0, [])).1 ∧
    (torsoNode.setWrenchMeasure2 (recording countingCollaborators) forceRows momentRows
        (0, [])).2.2
      = (torsoNode.setWrenchMeasure (recording countingCollaborators)
          (stack forceRows momentRows) (0, [])).2.2 ∧
    (torsoNode.setWrenchMeasure2 (recording countingCollaborators) forceRows momentRows
        (0, [])).2.2
      = [ Call.initWrenchNewtonEuler 0 [1, 2, 3] [4, 5, 6],
          Call.initWrenchNewtonEuler 1 [11, 12, 13] [14, 15, 16],
          Call.initWrenchNewtonEuler 2 [21, 22, 23] [24, 25, 26] ] :=
  ⟨by decide, by decide, by decide,
    (setWrenchMeasure_forms_agree countingCollaborators torsoNode forceRows momentRows 0
      (by decide) (by decide) rfl rfl rfl).2.2.1,
    (setWrenchMeasure_forms_agree countingCollaborators torsoNode forceRows momentRows 0
      (by decide) (by decide) rfl rfl rfl).2.2.2,
    by decide⟩


/-! ## Setting the kinematics of an RBT -/

/-- C21: `setKinematic(wNode, dwNode, ddpNode)` leaves in the RBT the `computeKinematic`
transform of the supplied triple, taken by the RBT's own `kinFlow`, `H` and `mode` (which the
call keeps); it makes exactly one call, `initKinematicNewtonEuler` on its limb with that
transformed triple, and returns the flag and leaves the world of that call. -/
theorem setKinematic_forwards [CommRing α] (ops : Collaborators α W)
    (rbt : RigidBodyTransformation α) (wNode dwNode ddpNode : Yarp.Vector α) (world : W) :
    (rbt.setKinematic ops wNode dwNode ddpNode world).2.1
      = ({ rbt with w := wNode, dw := dwNode, ddp := ddpNode }).computeKinematic ∧
    (rbt.setKinematic ops wNode dwNode ddpNode world).2.1
      = rbt.withKinematic (wNode, dwNode, ddpNode) ∧
    (rbt.withKinematic (wNode, dwNode, ddpNode)).H = rbt.H ∧
    (rbt.withKinematic (wNode, dwNode, ddpNode)).kinFlow = rbt.kinFlow ∧
    (rbt.withKinematic (wNode, dwNode, ddpNode)).mode = rbt.mode ∧
    (rbt.setKinematic (recording ops) wNode dwNode ddpNode (world, [])).2.2.2
      = [Call.initKinematicNewtonEuler rbt.limb
          (rbt.withKinematic (wNode, dwNode, ddpNode)).w
          (rbt.withKinematic (wNode, dwNode, ddpNode)).dw
          (rbt.withKinematic (wNode, dwNode, ddpNode)).ddp] ∧
    (rbt.setKinematic ops wNode dwNode ddpNode world).1
      = (ops.initKinematicNewtonEuler world rbt.limb
          (rbt.withKinematic (wNode, dwNode, ddpNode)).w
          (rbt.withKinematic (wNode, dwNode, ddpNode)).dw
          (rbt.withKinematic (wNode, dwNode, ddpNode)).ddp).1 ∧
    (rbt.setKinematic ops wNode dwNode ddpNode world).2.2
      = (ops.initKinematicNewtonEuler world rbt.limb
          (rbt.withKinematic (wNode, dwNode, ddpNode)).w
          (rbt.withKinematic (wNode, dwNode, ddpNode)).dw
          (rbt.withKinematic (wNode, dwNode, ddpNode)).ddp).2 := by
  have hf := computeKinematic_frame ({ rbt with w := wNode, dw := dwNode, ddp := ddpNode })
  have hl : (rbt.withKinematic (wNode, dwNode, ddpNode)).limb = rbt.limb := hf.2.2.2.2.1
  have key : ∀ {V : Type} (ops1 : Collaborators α V) (world1 : V),
      rbt.setKinematic ops1 wNode dwNode ddpNode world1
        = ((ops1.initKinematicNewtonEuler world1 rbt.limb
              (rbt.withKinematic (wNode, dwNode, ddpNode)).w
              (rbt.withKinematic (wNode, dwNode, ddpNode)).dw
              (rbt.withKinematic (wNode, dwNode, ddpNode)).ddp).1,
            rbt.withKinematic (wNode, dwNode, ddpNode),
            (ops1.initKinematicNewtonEuler world1 rbt.limb
              (rbt.withKinematic (wNode, dwNode, ddpNode)).w
              (rbt.withKinematic (wNode, dwNode, ddpNode)).dw
              (rbt.withKinematic (wNode, dwNode, ddpNode)).ddp).2) := by
    intro V ops1 world1
    show ((ops1.initKinematicNewtonEuler world1 (rbt.withKinematic (wNode, dwNode, ddpNode)).limb
              (rbt.withKinematic (wNode, dwNode, ddpNode)).w
              (rbt.withKinematic (wNode, dwNode, ddpNode)).dw
              (rbt.withKinematic (wNode, dwNode, ddpNode)).ddp).1,
            rbt.withKinematic (wNode, dwNode, ddpNode),
            (ops1.initKinematicNewtonEuler world1 (rbt.withKinematic (wNode, dwNode, ddpNode)).limb
              (rbt.withKinematic (wNode, dwNode, ddpNode)).w
              (rbt.withKinematic (wNode, dwNode, ddpNode)).dw
              (rbt.withKinematic (wNode, dwNode, ddpNode)).ddp).2) = _
    rw [hl]
  refine ⟨rfl, rfl, hf.1, hf.2.2.1, hf.2.1, ?_, ?_, ?_⟩
  · rw [key]; rfl
  · rw [key]
  · rw [key]

/-! ## Measures handed to the limb of an RBT -/

/-- C22: `setKinematicMeasure(w0, dw0, ddp0)` and `setWrenchMeasure(F0, Mu0)` of an RBT make
exactly one call each, `initKinematicNewtonEuler` and `initWrenchNewtonEuler` on the limb with
the supplied vectors as they are, whatever `H`, the flows and the mode; they return the flag and
leave the world of that call, and the RBT after the call is the RBT before it. -/
theorem measures_forwarded (ops : Collaborators α W) (rbt : RigidBodyTransformation α)
    (w0 dw0 ddp0 F0 Mu0 : Yarp.Vector α) (world : W) :
    rbt.setKinematicMeasure ops w0 dw0 ddp0 world
      = ((ops.initKinematicNewtonEuler world rbt.limb w0 dw0 ddp0).1, rbt,
          (ops.initKinematicNewtonEuler world rbt.limb w0 dw0 ddp0).2) ∧
    (rbt.setKinematicMeasure (recording ops) w0 dw0 ddp0 (world, [])).2.2.2
      = [Call.initKinematicNewtonEuler rbt.limb w0 dw0 ddp0] ∧
    rbt.setWrenchMeasure ops F0 Mu0 world
      = ((ops.initWrenchNewtonEuler world rbt.limb F0 Mu0).1, rbt,
          (ops.initWrenchNewtonEuler world rbt.limb F0 Mu0).2) ∧
    (rbt.setWrenchMeasure (recording ops) F0 Mu0 (world, [])).2.2.2
      = [Call.initWrenchNewtonEuler rbt.limb F0 Mu0] :=
  ⟨rfl, rfl, rfl, rfl⟩

/-! ## The direction of getKinematic and setKinematic -/

/-- C23, as the code has it: on one RBT in a dynamic mode, `getKinematic` and `setKinematic`
apply the same transform, selected by the RBT's own `kinFlow`. What `getKinematic` yields for
the report `k` of the limb is what `setKinematic` caches when given `k`, and in both the angular
velocity and acceleration are mapped with `R` when the flow is NODE_IN and with `Rᵀ` when it is
NODE_OUT. The directions are opposite only between a NODE_IN RBT and a NODE_OUT RBT. -/
theorem getKinematic_setKinematic_same_direction [CommRing α] (ops : Collaborators α W)
    (rbt : RigidBodyTransformation α) (world : W)
    (k : Yarp.Vector α × Yarp.Vector α × Yarp.Vector α)
    (hk : (ops.getKinematicNewtonEuler world rbt.limb (rbt.w, rbt.dw, rbt.ddp)).1 = k)
    (hddp : k.2.2.length = 3) (hmode : rbt.mode.isDynamic) :
    (rbt.getKinematic ops world).2.1 = (rbt.withKinematic k).kinematicCache ∧
    (rbt.setKinematic ops k.1 k.2.1 k.2.2 world).2.1 = rbt.withKinematic k ∧
    (rbt.withKinematic k).w
      = ofFin3 (Matrix.mulVec
          (if rbt.kinFlow = FlowType.RBT_NODE_IN then rotation rbt.H
            else Matrix.transpose (rotation rbt.H)) (toFin3 k.1)) ∧
    (rbt.withKinematic k).dw
      = ofFin3 (Matrix.mulVec
          (if rbt.kinFlow = FlowType.RBT_NODE_IN then rotation rbt.H
            else Matrix.transpose (rotation rbt.H)) (toFin3 k.2.1)) := by
  subst hk
  refine ⟨rfl, rfl, ?_⟩
  cases hf : rbt.kinFlow
  · have h := computeKinematic_in_dynamic_fields
      ({ rbt with
          w := (ops.getKinematicNewtonEuler world rbt.limb (rbt.w, rbt.dw, rbt.ddp)).1.1,
          dw := (ops.getKinematicNewtonEuler world rbt.limb (rbt.w, rbt.dw, rbt.ddp)).1.2.1,
          ddp := (ops.getKinematicNewtonEuler world rbt.limb (rbt.w, rbt.dw, rbt.ddp)).1.2.2 })
      hddp hf hmode
    simp only [if_true]
    exact ⟨h.1, h.2.1⟩
  · have h := computeKinematic_out_dynamic_fields
      ({ rbt with
          w := (ops.getKinematicNewtonEuler world rbt.limb (rbt.w, rbt.dw, rbt.ddp)).1.1,
          dw := (ops.getKinematicNewtonEuler world rbt.limb (rbt.w, rbt.dw, rbt.ddp)).1.2.1,
          ddp := (ops.getKinematicNewtonEuler world rbt.limb (rbt.w, rbt.dw, rbt.ddp)).1.2.2 })
      hddp hf hmode
    simp only [show (FlowType.RBT_NODE_OUT = FlowType.RBT_NODE_IN) = False from by simp,
      if_false]
    exact ⟨h.1, h.2.1⟩

/-- C23 at a concrete input: a NODE_OUT RBT with a quarter turn, whose limb reports the angular
velocity `(1, 2, 3)`; both functions leave `Rᵀ (1, 2, 3) = (2, -1, 3)`. -/
theorem getKinematic_setKinematic_same_direction_witness :
    (countingCollaborators.getKinematicNewtonEuler 0 outDynamicRBT.limb
        (outDynamicRBT.w, outDynamicRBT.dw, outDynamicRBT.ddp)).1
      = ([1, 2, 3], [4, 5, 6], [7, 8, 9]) ∧
    outDynamicRBT.mode.isDynamic ∧
    (outDynamicRBT.getKinematic countingCollaborators 0).2.1
      = (outDynamicRBT.withKinematic ([1, 2, 3], [4, 5, 6], [7, 8, 9])).kinematicCache ∧
    (outDynamicRBT.setKinematic countingCollaborators [1, 2, 3] [4, 5, 6] [7, 8, 9] 0).2.1
      = outDynamicRBT.withKinematic ([1, 2, 3], [4, 5, 6], [7, 8, 9]) ∧
    (outDynamicRBT.withKinematic ([1, 2, 3], [4, 5, 6], [7, 8, 9])).w
      = ofFin3 (Matrix.mulVec
          (if outDynamicRBT.kinFlow = FlowType.RBT_NODE_IN then rotation outDynamicRBT.H
            else Matrix.transpose (rotation outDynamicRBT.H)) (toFin3 [1, 2, 3])) ∧
    (outDynamicRBT.withKinematic ([1, 2, 3], [4, 5, 6], [7, 8, 9])).w = [2, -1, 3] :=
  have h := getKinematic_setKinematic_same_direction countingCollaborators outDynamicRBT 0
    ([1, 2, 3], [4, 5, 6], [7, 8, 9]) rfl rfl (by decide)
  ⟨rfl, by decide, h.1, h.2.1, h.2.2.1, by decide⟩

/-- C23 fails as stated: on the NODE_OUT RBT `outDynamicRBT` (a quarter turn `R`),
`setKinematic` maps the angular velocity `(1, 2, 3)` with `Rᵀ` to `(2, -1, 3)`, and
`getKinematic`, for a limb reporting `(1, 2, 3)`, yields `(2, -1, 3)` as well and not
`R (1, 2, 3) = (-2, 1, 3)`. -/
theorem getKinematic_setKinematic_same_direction_counterexample :
    outDynamicRBT.kinFlow = FlowType.RBT_NODE_OUT ∧
    (outDynamicRBT.setKinematic countingCollaborators [1, 2, 3] [4, 5, 6] [7, 8, 9] 0).2.1.w
      = ofFin3 (Matrix.mulVec (Matrix.transpose (rotation outDynamicRBT.H))
          (toFin3 [1, 2, 3])) ∧
    (countingCollaborators.getKinematicNewtonEuler 0 outDynamicRBT.limb
        (outDynamicRBT.w, outDynamicRBT.dw, outDynamicRBT.ddp)).1.1 = [1, 2, 3] ∧
    (outDynamicRBT.getKinematic countingCollaborators 0).2.1.1 = [2, -1, 3] ∧
    ofFin3 (Matrix.mulVec (rotation outDynamicRBT.H) (toFin3 [1, 2, 3])) = [-2, 1, 3] ∧
    (outDynamicRBT.getKinematic countingCollaborators 0).2.1.1
      ≠ ofFin3 (Matrix.mulVec (rotation outDynamicRBT.H) (toFin3 [1, 2, 3])) := by
  decide


/-! ## The two passes of the upper torso -/

/-- What the constructor of an RBT stores: the arguments, and as transform the given matrix when
it is 4x4 and the identity otherwise. -/
theorem construct_fields [Zero α] [One α] (limb : Nat) (H : Yarp.Matrix α) (info : String)
    (hasSensor : Bool) (kin wre : FlowType) (mode : NewEulMode) :
    (RigidBodyTransformation.construct limb H info hasSensor kin wre mode).limb = limb ∧
    (RigidBodyTransformation.construct limb H info hasSensor kin wre mode).kinFlow = kin ∧
    (RigidBodyTransformation.construct limb H info hasSensor kin wre mode).wreFlow = wre ∧
    (RigidBodyTransformation.construct limb H info hasSensor kin wre mode).hasSensor
      = hasSensor ∧
    (RigidBodyTransformation.construct limb H info hasSensor kin wre mode).mode = mode ∧
    (RigidBodyTransformation.construct limb H info hasSensor kin wre mode).H
      = if H.cols = 4 ∧ H.rows = 4 then H else identity4 α := by
  unfold RigidBodyTransformation.construct RigidBodyTransformation.setRBT
  by_cases h : H.cols = 4 ∧ H.rows = 4
  · simp only [h, and_self, if_true]
  · simp only [h, if_false, resize_eye_eq_identity4, and_self]

/-- C25: a freshly constructed `UpperTorso` holds exactly three RBTs, on the head, the right arm
and the left arm in this order, all with the 4x4 identity transform; the head RBT has kinematic
flow NODE_IN and wrench flow NODE_IN, both arm RBTs have kinematic flow NODE_OUT and wrench flow
NODE_IN, so there is exactly one kinematic input and no wrench output. Only the arms are
sensorized, and the sensors are stored at the indices of their arms. -/
theorem upperTorso_construct [Zero α] [One α] (mode : NewEulMode) (verb : Nat)
    (leftArm rightArm head leftSensor rightSensor : Nat)
    (leftType rightType headType : String) :
    ((UpperTorso.construct mode verb leftArm rightArm head leftSensor rightSensor leftType
        rightType headType : UpperTorso α).rbtList.map
          fun r => (r.limb, r.H, r.kinFlow, r.wreFlow, r.hasSensor))
      = [ (head, identity4 α, FlowType.RBT_NODE_IN, FlowType.RBT_NODE_IN, false),
          (rightArm, identity4 α, FlowType.RBT_NODE_OUT, FlowType.RBT_NODE_IN, true),
          (leftArm, identity4 α, FlowType.RBT_NODE_OUT, FlowType.RBT_NODE_IN, true) ] ∧
    (UpperTorso.construct mode verb leftArm rightArm head leftSensor rightSensor leftType
        rightType headType : UpperTorso α).rbtList.length = 3 ∧
    (UpperTorso.construct mode verb leftArm rightArm head leftSensor rightSensor leftType
        rightType headType : UpperTorso α).sensorList
      = [none, some rightSensor, some leftSensor] ∧
    (UpperTorso.construct mode verb leftArm rightArm head leftSensor rightSensor leftType
        rightType headType : UpperTorso α).toiDynNode.kinematicInputs = 1 ∧
    wrenchOutputRBTs (UpperTorso.construct mode verb leftArm rightArm head leftSensor
        rightSensor leftType rightType headType : UpperTorso α).rbtList = [] := by
  have hI : (identity4 α).cols = 4 ∧ (identity4 α).rows = 4 := ⟨rfl, rfl⟩
  have hlist : (UpperTorso.construct mode verb leftArm rightArm head leftSensor rightSensor
      leftType rightType headType : UpperTorso α).rbtList
        = [ RigidBodyTransformation.construct head (identity4 α) (headType ++ " to node") false
              FlowType.RBT_NODE_IN FlowType.RBT_NODE_IN mode,
            RigidBodyTransformation.construct rightArm (identity4 α)
              (rightType ++ " to node") true FlowType.RBT_NODE_OUT FlowType.RBT_NODE_IN mode,
            RigidBodyTransformation.construct leftArm (identity4 α)
              (leftType ++ " to node") true FlowType.RBT_NODE_OUT FlowType.RBT_NODE_IN mode ] := by
    simp only [UpperTorso.construct, iDynSensorNode.addLimbSensor, iDynSensorNode.addLimb,
      iDynNode.addLimb, iDynSensorNode.construct, iDynNode.construct, iDynNode.zero,
      resize_eye_eq_identity4, List.nil_append, List.cons_append]
  have hc := fun (limb : Nat) (info : String) (s : Bool) (kin wre : FlowType) =>
    construct_fields limb (identity4 α) info s kin wre mode
  refine ⟨?_, ?_, ?_, ?_, ?_⟩
  · rw [hlist]
    simp only [List.map_cons, List.map_nil, hc, hI, and_self, if_true]
  · rw [hlist]; rfl
  · simp only [UpperTorso.construct, iDynSensorNode.addLimbSensor, iDynSensorNode.addLimb,
      iDynSensorNode.construct, List.nil_append, List.cons_append]
  · unfold iDynNode.kinematicInputs
    rw [hlist]
    simp [List.countP_cons, hc]
  · unfold wrenchOutputRBTs
    rw [hlist]
    simp [List.filter_cons, hc]


/-! ## Sensor measurements of the upper torso -/

/-- On a node with the attachment of an upper torso, `setWrenchMeasure(FM)` of a 6x3 matrix
returns true and hands column 0 to the limb of the first RBT, column 1 to the first sensor and
column 2 to the second sensor. -/
theorem sensorSetWrenchMeasure_torso [Zero α] (ops : Collaborators α W)
    (node : iDynSensorNode α) (FM : Yarp.Matrix α) (world : W)
    (r0 r1 r2 : RigidBodyTransformation α) (s1 s2 : Nat)
    (hl : node.rbtList = [r0, r1, r2]) (hs : node.sensorList = [none, some s1, some s2])
    (h0 : r0.wreFlow = FlowType.RBT_NODE_IN) (h0s : r0.hasSensor = false)
    (h1 : r1.wreFlow = FlowType.RBT_NODE_IN) (h1s : r1.hasSensor = true)
    (h2 : r2.wreFlow = FlowType.RBT_NODE_IN) (h2s : r2.hasSensor = true)
    (hrows : FM.rows = 6) (hcols : FM.cols = 3) :
    (node.setWrenchMeasure (recording ops) FM (world, [])).map (fun r => (r.1, r.2.2))
      = some (true,
          [ Call.initWrenchNewtonEuler r0.limb [FM.get 0 0, FM.get 1 0, FM.get 2 0]
              [FM.get 3 0, FM.get 4 0, FM.get 5 0],
            Call.setSensorMeasures s1 [FM.get 0 1, FM.get 1 1, FM.get 2 1]
              [FM.get 3 1, FM.get 4 1, FM.get 5 1],
            Call.setSensorMeasures s2 [FM.get 0 2, FM.get 1 2, FM.get 2 2]
              [FM.get 3 2, FM.get 4 2, FM.get 5 2] ]) := by
  have w1 : wrapInt32 (0 + 1) = 1 := by decide
  have w2 : wrapInt32 (1 + 1) = 2 := by decide
  have w3 : wrapInt32 (2 + 1) = 3 := by decide
  have hc : countWrenchInputs [r0, r1, r2] 0 = 3 := by
    simp only [countWrenchInputs, h0, h1, h2, if_true, w1, w2, w3]
  have g0 := getCol_split FM 0 hrows
  have g1 := getCol_split FM 1 hrows
  have g2 := getCol_split FM 2 hrows
  have v1 : wrapInt32 1 = 1 := by decide
  have v2 : wrapInt32 2 = 2 := by decide
  simp only [List.cons.injEq, and_true] at g0 g1 g2
  unfold iDynSensorNode.setWrenchMeasure
  simp only [hl, hs, hc, hrows, hcols]
  simp [sensorSetWrenchMeasureColumns, sensorSetWrenchMeasureStep,
    RigidBodyTransformation.setWrenchMeasureSensor, RigidBodyTransformation.setWrenchMeasure,
    sensorAt, recording, h0, h1, h2, h0s, h1s, h2s, v1, v2, g0, g1, g2]


/-- The three RBTs of an upper torso with the attachment of the constructor. -/
theorem topology_rbtList (self : UpperTorso α) (htop : self.HasConstructorTopology) :
    ∃ r0 r1 r2 : RigidBodyTransformation α, self.rbtList = [r0, r1, r2] ∧
      r0.limb = self.head ∧
      r0.wreFlow = FlowType.RBT_NODE_IN ∧ r0.hasSensor = false ∧
      r1.wreFlow = FlowType.RBT_NODE_IN ∧ r1.hasSensor = true ∧
      r2.wreFlow = FlowType.RBT_NODE_IN ∧ r2.hasSensor = true := by
  obtain ⟨hmap, _⟩ := htop
  have hlen : self.rbtList.length = 3 := by
    have h := congrArg List.length hmap
    simpa using h
  obtain ⟨r0, r1, r2, hl⟩ := List.length_eq_three.mp hlen
  rw [hl] at hmap
  simp only [List.map_cons, List.map_nil, List.cons.injEq, Prod.mk.injEq, and_true] at hmap
  obtain ⟨⟨a0, _, a1, a2⟩, ⟨_, _, b1, b2⟩, ⟨_, _, c1, c2⟩⟩ := hmap
  exact ⟨r0, r1, r2, hl, a0, a1, a2, b1, b2, c1, c2⟩

/-- On an upper torso with the attachment of the constructor, `setWrenchMeasure(FM)` of a 6x3
matrix returns true and hands column 0 to the head limb, column 1 to the right sensor and
column 2 to the left sensor. -/
theorem torso_setWrenchMeasure_log [Zero α] (ops : Collaborators α W) (self : UpperTorso α)
    (FM : Yarp.Matrix α) (world : W) (htop : self.HasConstructorTopology)
    (hrows : FM.rows = 6) (hcols : FM.cols = 3) :
    (self.toiDynSensorNode.setWrenchMeasure (recording ops) FM (world, [])).map
        (fun r => (r.1, r.2.2))
      = some (true,
          [ Call.initWrenchNewtonEuler self.head [FM.get 0 0, FM.get 1 0, FM.get 2 0]
              [FM.get 3 0, FM.get 4 0, FM.get 5 0],
            Call.setSensorMeasures self.rightSensor [FM.get 0 1, FM.get 1 1, FM.get 2 1]
              [FM.get 3 1, FM.get 4 1, FM.get 5 1],
            Call.setSensorMeasures self.leftSensor [FM.get 0 2, FM.get 1 2, FM.get 2 2]
              [FM.get 3 2, FM.get 4 2, FM.get 5 2] ]) := by
  obtain ⟨r0, r1, r2, hl, a0, a1, a2, b1, b2, c1, c2⟩ := topology_rbtList self htop
  have h := sensorSetWrenchMeasure_torso ops self.toiDynSensorNode FM world r0 r1 r2
    self.rightSensor self.leftSensor hl htop.2 a1 a2 b1 b2 c1 c2 hrows hcols
  rw [a0] at h
  exact h

/-- A vector of length 6, written out. -/
theorem length_six (v : Yarp.Vector α) (h : v.length = 6) :
    ∃ a b c d e f : α, v = [a, b, c, d, e, f] := by
  rcases v with _ | ⟨a, _ | ⟨b, _ | ⟨c, _ | ⟨d, _ | ⟨e, _ | ⟨f, _ | ⟨g, t⟩⟩⟩⟩⟩⟩⟩ <;>
    first
    | exact ⟨_, _, _, _, _, _, rfl⟩
    | (simp only [List.length_cons, List.length_nil] at h; omega)

/-- C26: on an upper torso with the attachment of the constructor, for all 6-vectors
`FM_right`, `FM_left`, `FM_head`, `setSensorMeasurement(FM_right, FM_left, FM_head)` returns
true and makes exactly three calls: `initWrenchNewtonEuler` on the head limb with the first and
last three elements of `FM_head`, `setSensorMeasures` on the right sensor with those of
`FM_right` and `setSensorMeasures` on the left sensor with those of `FM_left`. The two-argument
form is the three-argument one with `FM_head = 0`. -/
theorem setSensorMeasurement_delivers [Zero α] (ops : Collaborators α W) (self : UpperTorso α)
    (FM_right FM_left FM_head : Yarp.Vector α) (world : W)
    (htop : self.HasConstructorTopology) (hr : FM_right.length = 6)
    (hl : FM_left.length = 6) (hh : FM_head.length = 6) :
    (self.setSensorMeasurement (recording ops) FM_right FM_left FM_head (world, [])).map
        (fun r => (r.1, r.2.2))
      = some (true,
          [ Call.initWrenchNewtonEuler self.head (FM_head.take 3) (FM_head.drop 3),
            Call.setSensorMeasures self.rightSensor (FM_right.take 3) (FM_right.drop 3),
            Call.setSensorMeasures self.leftSensor (FM_left.take 3) (FM_left.drop 3) ]) ∧
    self.setSensorMeasurement2 ops FM_right FM_left world
      = self.setSensorMeasurement ops FM_right FM_left [0, 0, 0, 0, 0, 0] world ∧
    (self.setSensorMeasurement2 (recording ops) FM_right FM_left (world, [])).map
        (fun r => (r.1, r.2.2))
      = some (true,
          [ Call.initWrenchNewtonEuler self.head [0, 0, 0] [0, 0, 0],
            Call.setSensorMeasures self.rightSensor (FM_right.take 3) (FM_right.drop 3),
            Call.setSensorMeasures self.leftSensor (FM_left.take 3) (FM_left.drop 3) ]) := by
  have key : ∀ head : Yarp.Vector α, head.length = 6 →
      (self.setSensorMeasurement (recording ops) FM_right FM_left head (world, [])).map
          (fun r => (r.1, r.2.2))
        = some (true,
            [ Call.initWrenchNewtonEuler self.head (head.take 3) (head.drop 3),
              Call.setSensorMeasures self.rightSensor (FM_right.take 3) (FM_right.drop 3),
              Call.setSensorMeasures self.leftSensor (FM_left.take 3) (FM_left.drop 3) ]) := by
    intro head hhead
    obtain ⟨a0, a1, a2, a3, a4, a5, rfl⟩ := length_six head hhead
    obtain ⟨b0, b1, b2, b3, b4, b5, rfl⟩ := length_six FM_right hr
    obtain ⟨c0, c1, c2, c3, c4, c5, rfl⟩ := length_six FM_left hl
    unfold UpperTorso.setSensorMeasurement
    simp only [List.length_cons, List.length_nil, and_self, if_true]
    rw [torso_setWrenchMeasure_log ops self _ world htop rfl rfl]
    simp [Yarp.Matrix.setCol, Yarp.Matrix.zeros, Yarp.Matrix.ofFn, Yarp.Matrix.get,
      Yarp.Vector.get, List.range_succ]
  exact ⟨key FM_head hh, rfl, key [0, 0, 0, 0, 0, 0] rfl⟩

/-- C26 at a concrete input: the constructed torso `sampleTorso` (head limb 0, right sensor 10,
left sensor 11) with three 6-vectors. -/
theorem setSensorMeasurement_delivers_witness :
    sampleTorso.HasConstructorTopology ∧
    (sampleTorso.setSensorMeasurement (recording countingCollaborators) [1, 2, 3, 4, 5, 6]
        [11, 12, 13, 14, 15, 16] [21, 22, 23, 24, 25, 26] (0, [])).map (fun r => (r.1, r.2.2))
      = some (true,
          [ Call.initWrenchNewtonEuler 0 [21, 22, 23] [24, 25, 26],
            Call.setSensorMeasures 10 [1, 2, 3] [4, 5, 6],
            Call.setSensorMeasures 11 [11, 12, 13] [14, 15, 16] ]) :=
  ⟨by decide,
    (setSensorMeasurement_delivers countingCollaborators sampleTorso [1, 2, 3, 4, 5, 6]
      [11, 12, 13, 14, 15, 16] [21, 22, 23, 24, 25, 26] 0 (by decide) rfl rfl rfl).1⟩

/-- C27: on an upper torso with the attachment of the constructor, if any of `FM_right`,
`FM_left`, `FM_head` does not have length 6, `setSensorMeasurement` returns false and makes
exactly three calls, handing zero force and zero moment to the head limb, the right sensor and
the left sensor; nothing of the supplied vectors appears in them. -/
theorem setSensorMeasurement_wrong_length [Zero α] (ops : Collaborators α W)
    (self : UpperTorso α) (FM_right FM_left FM_head : Yarp.Vector α) (world : W)
    (htop : self.HasConstructorTopology)
    (hbad : FM_right.length ≠ 6 ∨ FM_left.length ≠ 6 ∨ FM_head.length ≠ 6) :
    (self.setSensorMeasurement (recording ops) FM_right FM_left FM_head (world, [])).map
        (fun r => (r.1, r.2.2))
      = some (false,
          [ Call.initWrenchNewtonEuler self.head [0, 0, 0] [0, 0, 0],
            Call.setSensorMeasures self.rightSensor [0, 0, 0] [0, 0, 0],
            Call.setSensorMeasures self.leftSensor [0, 0, 0] [0, 0, 0] ]) := by
  have hnot : ¬ (FM_right.length = 6 ∧ FM_left.length = 6 ∧ FM_head.length = 6) := by
    intro h
    rcases hbad with hb | hb | hb
    · exact hb h.1
    · exact hb h.2.1
    · exact hb h.2.2
  have h := torso_setWrenchMeasure_log ops self (Yarp.Matrix.zeros 6 3) world htop rfl rfl
  unfold UpperTorso.setSensorMeasurement
  simp only [hnot, if_false]
  cases hm : self.toiDynSensorNode.setWrenchMeasure (recording ops) (Yarp.Matrix.zeros 6 3)
      (world, []) with
  | none => rw [hm] at h; simp at h
  | some r =>
    rw [hm] at h
    simp only [Option.map_some', Option.some.injEq, Prod.mk.injEq] at h ⊢
    refine ⟨trivial, ?_⟩
    rw [h.2]
    simp [Yarp.Matrix.zeros, Yarp.Matrix.ofFn, Yarp.Matrix.get, List.range_succ]

/-- C27 at a concrete input: the right vector has five elements. -/
theorem setSensorMeasurement_wrong_length_witness :
    sampleTorso.HasConstructorTopology ∧
    (sampleTorso.setSensorMeasurement (recording countingCollaborators) [1, 2, 3, 4, 5]
        [11, 12, 13, 14, 15, 16] [21, 22, 23, 24, 25, 26] (0, [])).map (fun r => (r.1, r.2.2))
      = some (false,
          [ Call.initWrenchNewtonEuler 0 [0, 0, 0] [0, 0, 0],
            Call.setSensorMeasures 10 [0, 0, 0] [0, 0, 0],
            Call.setSensorMeasures 11 [0, 0, 0] [0, 0, 0] ]) :=
  ⟨by decide,
    setSensorMeasurement_wrong_length countingCollaborators sampleTorso [1, 2, 3, 4, 5]
      [11, 12, 13, 14, 15, 16] [21, 22, 23, 24, 25, 26] 0 (by decide) (Or.inl (by decide))⟩


/-! ## Results by limb name -/

/-- C28: `getForces`, `getMoments` and `getTorques` of the upper torso dispatch on the limb
name: for "head", "left_arm" and "right_arm" they return what the corresponding limb returns,
and for every other string they return an empty result (a 0x0 matrix for `getForces` and
`getMoments`, a vector of length 0 for `getTorques`) and leave the world as it was. -/
theorem accessors_dispatch (acc : LimbResults α W) (self : UpperTorso α) (limbType : String)
    (world : W) (h1 : limbType ≠ "head") (h2 : limbType ≠ "left_arm")
    (h3 : limbType ≠ "right_arm") :
    (self.getForces acc "head" world = acc.getForces world self.head ∧
      self.getForces acc "left_arm" world = acc.getForces world self.leftArm ∧
      self.getForces acc "right_arm" world = acc.getForces world self.rightArm) ∧
    (self.getMoments acc "head" world = acc.getMoments world self.head ∧
      self.getMoments acc "left_arm" world = acc.getMoments world self.leftArm ∧
      self.getMoments acc "right_arm" world = acc.getMoments world self.rightArm) ∧
    (self.getTorques acc "head" world = acc.getTorques world self.head ∧
      self.getTorques acc "left_arm" world = acc.getTorques world self.leftArm ∧
      self.getTorques acc "right_arm" world = acc.getTorques world self.rightArm) ∧
    self.getForces acc limbType world = ({ rows := 0, cols := 0, data := [] }, world) ∧
    self.getMoments acc limbType world = ({ rows := 0, cols := 0, data := [] }, world) ∧
    self.getTorques acc limbType world = ([], world) := by
  refine ⟨?_, ?_, ?_, ?_, ?_, ?_⟩
  · simp [UpperTorso.getForces]
  · simp [UpperTorso.getMoments]
  · simp [UpperTorso.getTorques]
  · simp [UpperTorso.getForces, h1, h2, h3, Yarp.Matrix.empty]
  · simp [UpperTorso.getMoments, h1, h2, h3, Yarp.Matrix.empty]
  · simp [UpperTorso.getTorques, h1, h2, h3]

/-- C28 at a concrete input: on `sampleTorso` (head limb 0, left arm limb 2, right arm limb 1)
the name "left_arm" gives the result of limb 2 and the name "torso" gives the empty results in
the unchanged world. -/
theorem accessors_dispatch_witness :
    sampleTorso.getForces sampleResults "left_arm" 7 = sampleResults.getForces 7 2 ∧
    sampleTorso.getForces sampleResults "torso" 7 = ({ rows := 0, cols := 0, data := [] }, 7) ∧
    sampleTorso.getMoments sampleResults "torso" 7 = ({ rows := 0, cols := 0, data := [] }, 7) ∧
    sampleTorso.getTorques sampleResults "torso" 7 = ([], 7) :=
  have h := accessors_dispatch sampleResults sampleTorso "torso" 7 (by decide) (by decide)
    (by decide)
  ⟨h.1.2.1, h.2.2.2.1, h.2.2.2.2.1, h.2.2.2.2.2⟩

/-! ## Sensors and RBTs index by index -/

/-- What a sequence of `addLimb` calls appends to the two lists of a sensorized node. -/
theorem addLimbs_lists [Zero α] [One α] (node : iDynSensorNode α)
    (calls : List (AddLimbCall α)) :
    (addLimbs node calls).rbtList.map (fun r => r.hasSensor)
      = node.rbtList.map (fun r => r.hasSensor) ++ calls.map AddLimbCall.takesSensor ∧
    (addLimbs node calls).sensorList = node.sensorList ++ calls.map AddLimbCall.sensorGiven := by
  induction calls generalizing node with
  | nil => simp [addLimbs]
  | cons c rest ih =>
    have hstep : addLimbs node (c :: rest) = addLimbs (c.applyTo node) rest := rfl
    rw [hstep, (ih (c.applyTo node)).1, (ih (c.applyTo node)).2]
    cases c with
    | plain limbType limb H kinFlow wreFlow =>
      simp [AddLimbCall.applyTo, iDynSensorNode.addLimb, iDynNode.addLimb,
        AddLimbCall.takesSensor, AddLimbCall.sensorGiven, construct_fields]
    | withSensor limbType limb H sensor kinFlow wreFlow =>
      simp [AddLimbCall.applyTo, iDynSensorNode.addLimbSensor, iDynNode.addLimb,
        AddLimbCall.takesSensor, AddLimbCall.sensorGiven, construct_fields]

/-- A list zipped with its image pairs every element with its own image. -/
theorem mem_zip_map {β γ : Type} (f : β → γ) (l : List β) :
    ∀ p ∈ List.zip l (l.map f), p.2 = f p.1 := by
  induction l with
  | nil => simp
  | cons a rest ih =>
    intro p hp
    simp only [List.map_cons, List.zip_cons_cons, List.mem_cons] at hp
    rcases hp with rfl | hp
    · rfl
    · exact ih p hp

/-- C29: after any sequence of `addLimb` calls, through either overload, on a sensorized node
that starts empty, `sensorList` and `rbtList` have the same length (the number of calls), RBT
`i` is flagged sensorized exactly when call `i` went through the overload taking a sensor,
`sensorList[i]` is the pointer call `i` supplied, and it is null for every RBT added without a
sensor. -/
theorem addLimb_alignment [Zero α] [One α] (node : iDynSensorNode α)
    (calls : List (AddLimbCall α)) (hr : node.rbtList = []) (hs : node.sensorList = []) :
    (addLimbs node calls).sensorList.length = (addLimbs node calls).rbtList.length ∧
    (addLimbs node calls).rbtList.length = calls.length ∧
    (addLimbs node calls).rbtList.map (fun r => r.hasSensor)
      = calls.map AddLimbCall.takesSensor ∧
    (addLimbs node calls).sensorList = calls.map AddLimbCall.sensorGiven ∧
    ∀ p ∈ List.zip calls (addLimbs node calls).sensorList,
      p.1.takesSensor = false → p.2 = none := by
  obtain ⟨h1, h2⟩ := addLimbs_lists node calls
  rw [hr] at h1
  rw [hs] at h2
  simp only [List.map_nil, List.nil_append] at h1 h2
  have hlen : (addLimbs node calls).rbtList.length = calls.length := by
    have h := congrArg List.length h1
    simpa using h
  refine ⟨?_, hlen, h1, h2, ?_⟩
  · rw [hlen, h2, List.length_map]
  · intro p hp hplain
    rw [h2] at hp
    rw [mem_zip_map AddLimbCall.sensorGiven calls p hp]
    cases hc : p.1 with
    | plain limbType limb H kinFlow wreFlow => rfl
    | withSensor limbType limb H sensor kinFlow wreFlow =>
      rw [hc] at hplain
      simp [AddLimbCall.takesSensor] at hplain

/-- C29 at a concrete input: a fresh node, then a limb without sensor, a limb with sensor 7 and
a limb through the sensor overload with a null pointer. -/
theorem addLimb_alignment_witness :
    (iDynSensorNode.construct "node" NewEulMode.DYNAMIC 0 : iDynSensorNode ℤ).rbtList = [] ∧
    (iDynSensorNode.construct "node" NewEulMode.DYNAMIC 0 : iDynSensorNode ℤ).sensorList = [] ∧
    ((addLimbs (iDynSensorNode.construct "node" NewEulMode.DYNAMIC 0 : iDynSensorNode ℤ)
        [ AddLimbCall.plain "head" 0 (identity4 ℤ) FlowType.RBT_NODE_IN FlowType.RBT_NODE_IN,
          AddLimbCall.withSensor "right_arm" 1 quarterTurnH (some 7) FlowType.RBT_NODE_OUT
            FlowType.RBT_NODE_IN,
          AddLimbCall.withSensor "left_arm" 2 axialH none FlowType.RBT_NODE_OUT
            FlowType.RBT_NODE_IN ]).rbtList.map fun r => r.hasSensor) = [false, true, true] ∧
    (addLimbs (iDynSensorNode.construct "node" NewEulMode.DYNAMIC 0 : iDynSensorNode ℤ)
        [ AddLimbCall.plain "head" 0 (identity4 ℤ) FlowType.RBT_NODE_IN FlowType.RBT_NODE_IN,
          AddLimbCall.withSensor "right_arm" 1 quarterTurnH (some 7) FlowType.RBT_NODE_OUT
            FlowType.RBT_NODE_IN,
          AddLimbCall.withSensor "left_arm" 2 axialH none FlowType.RBT_NODE_OUT
            FlowType.RBT_NODE_IN ]).sensorList = [none, some 7, none] :=
  have h := addLimb_alignment
    (iDynSensorNode.construct "node" NewEulMode.DYNAMIC 0 : iDynSensorNode ℤ)
    [ AddLimbCall.plain "head" 0 (identity4 ℤ) FlowType.RBT_NODE_IN FlowType.RBT_NODE_IN,
      AddLimbCall.withSensor "right_arm" 1 quarterTurnH (some 7) FlowType.RBT_NODE_OUT
        FlowType.RBT_NODE_IN,
      AddLimbCall.withSensor "left_arm" 2 axialH none FlowType.RBT_NODE_OUT
        FlowType.RBT_NODE_IN ] rfl rfl
  ⟨rfl, rfl, h.2.2.1, h.2.2.2.1⟩


/-! ## The calls of the wrench protocol -/

/-- The calls made by the first loop of the wrench protocol: the two input calls for every
wrench-input RBT. -/
theorem solveWrenchInputs_log [CommRing α] (ops : Collaborators α W)
    (l : List (RigidBodyTransformation α)) (fm : Yarp.Vector α × Yarp.Vector α) (world : W)
    (log : List (Call α)) (n : Nat) :
    (solveWrenchInputs (recording ops) l fm (world, log) n).2.2.1.2
      = log ++ (wrenchInputRBTs l).flatMap wrenchInputCalls := by
  induction l generalizing fm world log n with
  | nil => simp [solveWrenchInputs, wrenchInputRBTs]
  | cons rbt rest ih =>
    unfold wrenchInputRBTs at ih ⊢
    by_cases hf : rbt.wreFlow = FlowType.RBT_NODE_IN
    · simp only [solveWrenchInputs, hf, if_true, List.filter_cons, decide_True,
        List.flatMap_cons]
      rw [show (rbt.getWrench (recording ops) fm.1 fm.2
            (rbt.computeLimbWrench (recording ops) (world, log))).2.2
          = ((ops.getWrenchNewtonEuler (ops.computeWrenchNewtonEuler world rbt.limb) rbt.limb
                (rbt.F, rbt.Mu)).2, log ++ wrenchInputCalls rbt) by
        simp [RigidBodyTransformation.getWrench, RigidBodyTransformation.computeLimbWrench,
          recording, wrenchInputCalls]]
      rw [ih, List.append_assoc]
    · simp only [solveWrenchInputs, hf, if_false, List.filter_cons, decide_False]
      exact ih _ _ _ _

/-- The calls made by the last loop of the wrench protocol: the two output calls for every
wrench-output RBT. -/
theorem solveWrenchOutputs_log [CommRing α] (ops : Collaborators α W)
    (fm : Yarp.Vector α × Yarp.Vector α) (l : List (RigidBodyTransformation α)) (world : W)
    (log : List (Call α)) :
    (solveWrenchOutputs (recording ops) fm l (world, log)).2.2
      = log ++ (wrenchOutputRBTs l).flatMap (wrenchOutputCalls fm) := by
  induction l generalizing world log with
  | nil => simp [solveWrenchOutputs, wrenchOutputRBTs]
  | cons rbt rest ih =>
    unfold wrenchOutputRBTs at ih ⊢
    by_cases hf : rbt.wreFlow = FlowType.RBT_NODE_OUT
    · simp only [solveWrenchOutputs, hf, if_true, List.filter_cons, decide_True,
        List.flatMap_cons]
      rw [show (rbt.setWrench (recording ops) fm.1 fm.2 (world, log)).2.1.computeLimbWrench
            (recording ops) (rbt.setWrench (recording ops) fm.1 fm.2 (world, log)).2.2
          = (ops.computeWrenchNewtonEuler
              (ops.initWrenchNewtonEuler world rbt.limb (rbt.withWrench fm).F
                (rbt.withWrench fm).Mu).2 rbt.limb,
             log ++ wrenchOutputCalls fm rbt) by
        have hl := (withWrench_frame rbt fm).2.2
        unfold RigidBodyTransformation.withWrench at hl
        simp [RigidBodyTransformation.setWrench, RigidBodyTransformation.computeLimbWrench,
          recording, wrenchOutputCalls, RigidBodyTransformation.withWrench, hl]]
      rw [ih, List.append_assoc]
    · simp only [solveWrenchOutputs, hf, if_false, List.filter_cons, decide_False]
      exact ih _ _

/-- Recording the calls does not change what the limbs report. -/
theorem wrenchReports_recording (ops : Collaborators α W)
    (l : List (RigidBodyTransformation α)) (world : W) (log : List (Call α)) :
    wrenchReports (recording ops) l (world, log) = wrenchReports ops l world := by
  induction l generalizing world log with
  | nil => rfl
  | cons rbt rest ih =>
    by_cases hf : rbt.wreFlow = FlowType.RBT_NODE_IN
    · simp only [wrenchReports, hf, if_true]
      rw [show ((recording ops).getWrenchNewtonEuler
            ((recording ops).computeWrenchNewtonEuler (world, log) rbt.limb) rbt.limb
            (rbt.F, rbt.Mu)).2
          = ((ops.getWrenchNewtonEuler (ops.computeWrenchNewtonEuler world rbt.limb) rbt.limb
              (rbt.F, rbt.Mu)).2, log ++ wrenchInputCalls rbt) by
        simp [recording, wrenchInputCalls]]
      rw [ih]
      rfl
    · simp only [wrenchReports, hf, if_false]
      exact ih _ _

/-- The RBTs of the wrench reports are the wrench-input RBTs. -/
theorem wrenchReports_rbts (ops : Collaborators α W) (l : List (RigidBodyTransformation α))
    (world : W) :
    (wrenchReports ops l world).map (fun p => p.1) = wrenchInputRBTs l := by
  induction l generalizing world with
  | nil => rfl
  | cons rbt rest ih =>
    unfold wrenchInputRBTs at ih ⊢
    by_cases hf : rbt.wreFlow = FlowType.RBT_NODE_IN
    · simp only [wrenchReports, hf, if_true, List.map_cons, List.filter_cons, decide_True, ih]
    · simp only [wrenchReports, hf, if_false, List.filter_cons, decide_False]
      exact ih _

/-- The calls of `iDynNode::solveWrench()`: the input calls of every wrench-input RBT, then the
output calls of every wrench-output RBT for the aggregate of the reports. -/
theorem solveWrench_log [CommRing α] (ops : Collaborators α W) (self : iDynNode α) (world : W)
    (hF : self.F.length = 3) (hMu : self.Mu.length = 3) :
    (self.solveWrench (recording ops) (world, [])).2.2.2
      = (wrenchInputRBTs self.rbtList).flatMap wrenchInputCalls
        ++ (wrenchOutputRBTs self.rbtList).flatMap
            (wrenchOutputCalls
              (ofFin3 (reportedForceSum (wrenchReports ops self.rbtList world)),
                ofFin3 (reportedMomentSum (wrenchReports ops self.rbtList world)))) := by
  have h0 : ∀ v : Yarp.Vector α, v.length = 3 →
      Yarp.Vector.assignScalar v 0 = ofFin3 (0 : Fin 3 → α) := by
    intro v hv
    rw [assignScalar_zero v hv]; rfl
  have hs := solveWrenchInputs_sum (recording ops) self.rbtList 0 0 (world, []) 0
  rw [zero_add, zero_add, wrenchReports_recording] at hs
  unfold iDynNode.solveWrench
  simp only [h0 self.F hF, h0 self.Mu hMu]
  rw [show (solveWrenchInputs (recording ops) self.rbtList
        (ofFin3 (0 : Fin 3 → α), ofFin3 (0 : Fin 3 → α)) (world, []) 0).2.2.1
      = ((solveWrenchInputs (recording ops) self.rbtList
            (ofFin3 (0 : Fin 3 → α), ofFin3 (0 : Fin 3 → α)) (world, []) 0).2.2.1.1,
          (solveWrenchInputs (recording ops) self.rbtList
            (ofFin3 (0 : Fin 3 → α), ofFin3 (0 : Fin 3 → α)) (world, []) 0).2.2.1.2) from rfl]
  rw [solveWrenchOutputs_log, solveWrenchInputs_log, solveWrenchInputs_outputs, List.nil_append]
  rw [show ((solveWrenchInputs (recording ops) self.rbtList
        (ofFin3 (0 : Fin 3 → α), ofFin3 (0 : Fin 3 → α)) (world, []) 0).2.1.1,
      (solveWrenchInputs (recording ops) self.rbtList
        (ofFin3 (0 : Fin 3 → α), ofFin3 (0 : Fin 3 → α)) (world, []) 0).2.1.2)
      = (solveWrenchInputs (recording ops) self.rbtList
        (ofFin3 (0 : Fin 3 → α), ofFin3 (0 : Fin 3 → α)) (world, []) 0).2.1 from rfl, hs]


/-! ## One input, one output and a lever arm -/

/-- The aggregate `iDynNode::solveWrench()` leaves in the node, as sums over the reports. -/
theorem solveWrench_aggregate_fields [CommRing α] (ops : Collaborators α W) (self : iDynNode α)
    (world : W) (hF : self.F.length = 3) (hMu : self.Mu.length = 3) :
    (self.solveWrench ops world).2.1.F
      = ofFin3 (reportedForceSum (wrenchReports ops self.rbtList world)) ∧
    (self.solveWrench ops world).2.1.Mu
      = ofFin3 (reportedMomentSum (wrenchReports ops self.rbtList world)) := by
  have h0 : ∀ v : Yarp.Vector α, v.length = 3 →
      Yarp.Vector.assignScalar v 0 = ofFin3 (0 : Fin 3 → α) := by
    intro v hv
    rw [assignScalar_zero v hv]; rfl
  have hs := solveWrenchInputs_sum ops self.rbtList 0 0 world 0
  rw [zero_add, zero_add] at hs
  unfold iDynNode.solveWrench
  simp only [h0 self.F hF, h0 self.Mu hMu, hs, and_self]

/-- The aggregate of a single report with zero moment through a pure translation. -/
theorem reportedSums_single [CommRing α] (rin : RigidBodyTransformation α)
    (Fin : Yarp.Vector α) (hRin : rotation rin.H = 1) :
    reportedForceSum [(rin, Fin, [0, 0, 0])] = toFin3 Fin ∧
    reportedMomentSum [(rin, Fin, [0, 0, 0])]
      = crossProduct (translation rin.H) (toFin3 Fin) := by
  have hz : toFin3 ([0, 0, 0] : Yarp.Vector α) = 0 := by
    ext i; fin_cases i <;> rfl
  simp [reportedForceSum, reportedMomentSum, hRin, hz]

/-- What a wrench-output RBT with identity transform makes of the aggregate: the aggregate. -/
theorem withWrench_out_identity [CommRing α] (rout : RigidBodyTransformation α)
    (f m : Fin 3 → α) (hflow : rout.wreFlow = FlowType.RBT_NODE_OUT)
    (hRout : rotation rout.H = 1) (htout : translation rout.H = 0) :
    (rout.withWrench (ofFin3 f, ofFin3 m)).F = ofFin3 f ∧
    (rout.withWrench (ofFin3 f, ofFin3 m)).Mu = ofFin3 m := by
  have h := computeWrench_out_fields ({ rout with F := ofFin3 f, Mu := ofFin3 m }) rfl hflow
  simp only [hRout, htout, toFin3_ofFin3, Matrix.transpose_one, Matrix.one_mulVec, map_zero,
    LinearMap.zero_apply, sub_zero] at h
  exact h

/-- C30: for a node with exactly one wrench-input RBT `rin`, whose transform is a pure
translation `r` (identity rotation), and exactly one wrench-output RBT `rout` with identity
transform, if the limb of `rin` reports the force `F_in` and zero moment, `solveWrench()` makes
four calls: the two input calls on the limb of `rin`, then `initWrenchNewtonEuler` on the limb
of `rout` with the force `F_in` and the moment `r × F_in`, then `computeWrenchNewtonEuler` on
that limb. The aggregate of the node is that force and that moment. -/
theorem solveWrench_lever [CommRing α] (ops : Collaborators α W) (self : iDynNode α)
    (world : W) (rin rout : RigidBodyTransformation α) (Fin : Yarp.Vector α)
    (hin : wrenchReports ops self.rbtList world = [(rin, Fin, [0, 0, 0])])
    (hout : wrenchOutputRBTs self.rbtList = [rout])
    (hRin : rotation rin.H = 1) (hRout : rotation rout.H = 1)
    (htout : translation rout.H = 0)
    (hF : self.F.length = 3) (hMu : self.Mu.length = 3) (hFin : Fin.length = 3) :
    (self.solveWrench (recording ops) (world, [])).2.2.2
      = [ Call.computeWrenchNewtonEuler rin.limb, Call.getWrenchNewtonEuler rin.limb,
          Call.initWrenchNewtonEuler rout.limb Fin
            (ofFin3 (crossProduct (translation rin.H) (toFin3 Fin))),
          Call.computeWrenchNewtonEuler rout.limb ] ∧
    (self.solveWrench ops world).2.1.F = Fin ∧
    (self.solveWrench ops world).2.1.Mu
      = ofFin3 (crossProduct (translation rin.H) (toFin3 Fin)) := by
  obtain ⟨hFs, hMs⟩ := reportedSums_single rin Fin hRin
  have hflow : rout.wreFlow = FlowType.RBT_NODE_OUT := by
    have hmem : rout ∈ wrenchOutputRBTs self.rbtList := by rw [hout]; exact List.mem_singleton.mpr rfl
    unfold wrenchOutputRBTs at hmem
    exact of_decide_eq_true (List.mem_filter.mp hmem).2
  have hrb := wrenchReports_rbts ops self.rbtList world
  rw [hin] at hrb
  simp only [List.map_cons, List.map_nil] at hrb
  obtain ⟨ho1, ho2⟩ := withWrench_out_identity rout (toFin3 Fin)
    (crossProduct (translation rin.H) (toFin3 Fin)) hflow hRout htout
  rw [ofFin3_toFin3 Fin hFin] at ho1 ho2
  refine ⟨?_, ?_, ?_⟩
  · rw [solveWrench_log ops self world hF hMu, hin, ← hrb, hout, hFs, hMs]
    simp only [List.flatMap_cons, List.flatMap_nil, List.append_nil, wrenchInputCalls,
      wrenchOutputCalls, ho1, ho2, ofFin3_toFin3 Fin hFin]
    rfl
  · rw [(solveWrench_aggregate_fields ops self world hF hMu).1, hin, hFs,
      ofFin3_toFin3 Fin hFin]
  · rw [(solveWrench_aggregate_fields ops self world hF hMu).2, hin, hMs]

/-- C30 at the input named by the claim: the input RBT is attached through the translation
`r = (1, 0, 0)` and its limb reports the force `(0, 1, 0)`; the output limb is handed the force
`(0, 1, 0)` and the moment `r × F_in = (0, 0, 1)`. -/
theorem solveWrench_lever_witness :
    translation shiftXH = ![1, 0, 0] ∧ rotation shiftXH = 1 ∧
    wrenchReports limbCollaborators leverNode.rbtList 0
      = [(sampleRBT 2 FlowType.RBT_NODE_OUT FlowType.RBT_NODE_IN NewEulMode.DYNAMIC shiftXH,
          [0, 1, 0], [0, 0, 0])] ∧
    wrenchOutputRBTs leverNode.rbtList
      = [sampleRBT 0 FlowType.RBT_NODE_IN FlowType.RBT_NODE_OUT NewEulMode.DYNAMIC
          (identity4 ℤ)] ∧
    (leverNode.solveWrench (recording limbCollaborators) (0, [])).2.2.2
      = [ Call.computeWrenchNewtonEuler 2, Call.getWrenchNewtonEuler 2,
          Call.initWrenchNewtonEuler 0 [0, 1, 0]
            (ofFin3 (crossProduct (translation shiftXH) (toFin3 [0, 1, 0]))),
          Call.computeWrenchNewtonEuler 0 ] ∧
    ofFin3 (crossProduct (translation shiftXH) (toFin3 ([0, 1, 0] : Yarp.Vector ℤ)))
      = [0, 0, 1] :=
  ⟨by decide, by decide, by decide, by decide,
    (solveWrench_lever limbCollaborators leverNode 0
      (sampleRBT 2 FlowType.RBT_NODE_OUT FlowType.RBT_NODE_IN NewEulMode.DYNAMIC shiftXH)
      (sampleRBT 0 FlowType.RBT_NODE_IN FlowType.RBT_NODE_OUT NewEulMode.DYNAMIC (identity4 ℤ))
      [0, 1, 0] (by decide) (by decide) (by decide) (by decide) (by decide) rfl rfl rfl).1,
    by decide⟩


/-! ## The transform stays 4x4 -/

/-- What `setRBT` leaves in `H`: the given matrix when it is 4x4, the identity otherwise. -/
theorem setRBT_H [Zero α] [One α] (s : RigidBodyTransformation α) (H : Yarp.Matrix α) :
    (s.setRBT H).2.H = if isFourByFour H then H else identity4 α := by
  unfold RigidBodyTransformation.setRBT isFourByFour
  by_cases h : H.cols = 4 ∧ H.rows = 4
  · simp only [h, and_self, if_true]
  · simp only [h, if_false, resize_eye_eq_identity4]

/-- After a sequence of `setRBT` calls the transform is decided by the last matrix offered. -/
theorem setRBTs_H [Zero α] [One α] (s : RigidBodyTransformation α) (H0 : Yarp.Matrix α)
    (Hs : List (Yarp.Matrix α))
    (h0 : s.H = if isFourByFour H0 then H0 else identity4 α) :
    (setRBTs s Hs).H
      = if isFourByFour (Hs.getLastD H0) then Hs.getLastD H0 else identity4 α := by
  induction Hs generalizing s H0 with
  | nil => exact h0
  | cons H rest ih =>
    have hstep : setRBTs s (H :: rest) = setRBTs (s.setRBT H).2 rest := rfl
    rw [hstep, List.getLastD_cons]
    exact ih (s.setRBT H).2 H (setRBT_H s H)

/-- C33: after construction with any matrix `_H`, of any shape, and after any sequence of
`setRBT` calls with arbitrary matrices, `getRBT()` has 4 rows and 4 columns; it is the most
recent matrix offered when that one was 4x4 and the identity when it was not. -/
theorem transform_always_fourByFour [Zero α] [One α] (limb : Nat) (H0 : Yarp.Matrix α)
    (info : String) (hasSensor : Bool) (kin wre : FlowType) (mode : NewEulMode)
    (Hs : List (Yarp.Matrix α)) :
    (setRBTs (RigidBodyTransformation.construct limb H0 info hasSensor kin wre mode)
        Hs).getRBT.rows = 4 ∧
    (setRBTs (RigidBodyTransformation.construct limb H0 info hasSensor kin wre mode)
        Hs).getRBT.cols = 4 ∧
    (setRBTs (RigidBodyTransformation.construct limb H0 info hasSensor kin wre mode)
        Hs).getRBT
      = if isFourByFour (Hs.getLastD H0) then Hs.getLastD H0 else identity4 α := by
  have h0 : (RigidBodyTransformation.construct limb H0 info hasSensor kin wre mode).H
      = if isFourByFour H0 then H0 else identity4 α :=
    (construct_fields limb H0 info hasSensor kin wre mode).2.2.2.2.2
  have h := setRBTs_H _ H0 Hs h0
  unfold RigidBodyTransformation.getRBT
  rw [h]
  by_cases hl : isFourByFour (Hs.getLastD H0)
  · simp only [hl, if_true, and_true]
    exact ⟨hl.2, hl.1⟩
  · simp only [hl, if_false, and_true]
    exact ⟨rfl, rfl⟩

/-! ## The wrench through NODE_IN and back through NODE_OUT -/

/-- Both steps of `wrenchInThenOut`, written with `R`, `Rᵀ` and `t`. -/
theorem wrenchInThenOut_fields [CommRing α] (self : RigidBodyTransformation α) :
    (wrenchInThenOut self).F = ofFin3 (Matrix.mulVec (Matrix.transpose (rotation self.H))
      (Matrix.mulVec (rotation self.H) (toFin3 self.F))) ∧
    (wrenchInThenOut self).Mu = ofFin3 (Matrix.mulVec (Matrix.transpose (rotation self.H))
      (crossProduct (translation self.H) (Matrix.mulVec (rotation self.H) (toFin3 self.F))
        + Matrix.mulVec (rotation self.H) (toFin3 self.Mu)
        - crossProduct (translation self.H)
            (Matrix.mulVec (rotation self.H)
              (Matrix.mulVec (rotation self.H) (toFin3 self.F))))) := by
  have h1 := computeWrench_in_fields (self.setInfoFlow self.kinFlow FlowType.RBT_NODE_IN) rfl
  have hH : ((self.setInfoFlow self.kinFlow FlowType.RBT_NODE_IN).computeWrench).H = self.H :=
    (computeWrench_frame (self.setInfoFlow self.kinFlow FlowType.RBT_NODE_IN)).1
  have hlen : (((self.setInfoFlow self.kinFlow FlowType.RBT_NODE_IN).computeWrench).setInfoFlow
      self.kinFlow FlowType.RBT_NODE_OUT).Mu.length = 3 :=
    (computeWrench_lengths (self.setInfoFlow self.kinFlow FlowType.RBT_NODE_IN)).2
  have h2 := computeWrench_out_fields
    (((self.setInfoFlow self.kinFlow FlowType.RBT_NODE_IN).computeWrench).setInfoFlow
      self.kinFlow FlowType.RBT_NODE_OUT) hlen rfl
  have e1 : (((self.setInfoFlow self.kinFlow FlowType.RBT_NODE_IN).computeWrench).setInfoFlow
      self.kinFlow FlowType.RBT_NODE_OUT).H = self.H := hH
  have e2 : (((self.setInfoFlow self.kinFlow FlowType.RBT_NODE_IN).computeWrench).setInfoFlow
      self.kinFlow FlowType.RBT_NODE_OUT).F
        = ((self.setInfoFlow self.kinFlow FlowType.RBT_NODE_IN).computeWrench).F := rfl
  have e3 : (((self.setInfoFlow self.kinFlow FlowType.RBT_NODE_IN).computeWrench).setInfoFlow
      self.kinFlow FlowType.RBT_NODE_OUT).Mu
        = ((self.setInfoFlow self.kinFlow FlowType.RBT_NODE_IN).computeWrench).Mu := rfl
  have e5 : (self.setInfoFlow self.kinFlow FlowType.RBT_NODE_IN).H = self.H := rfl
  have e6 : (self.setInfoFlow self.kinFlow FlowType.RBT_NODE_IN).F = self.F := rfl
  have e7 : (self.setInfoFlow self.kinFlow FlowType.RBT_NODE_IN).Mu = self.Mu := rfl
  unfold wrenchInThenOut
  rw [h2.1, h2.2, e1, e2, e3, h1.1, h1.2, e5, e6, e7]
  simp only [toFin3_ofFin3, and_self]

/-- A matrix with `Rᵀ R = 1` maps only the zero vector to zero through its transpose. -/
theorem transpose_mulVec_eq_zero [CommRing α] (R : Matrix (Fin 3) (Fin 3) α)
    (horth : Matrix.transpose R * R = 1) (v : Fin 3 → α) :
    Matrix.mulVec (Matrix.transpose R) v = 0 ↔ v = 0 := by
  have h2 : R * Matrix.transpose R = 1 := (Matrix.mul_eq_one_comm).mp horth
  constructor
  · intro h
    have h3 := congrArg (Matrix.mulVec R) h
    rw [Matrix.mulVec_mulVec, h2, Matrix.one_mulVec, Matrix.mulVec_zero] at h3
    exact h3
  · intro h
    rw [h, Matrix.mulVec_zero]

/-- The map `ofFin3` is injective. -/
theorem ofFin3_injective [Zero α] (f g : Fin 3 → α) (h : ofFin3 f = ofFin3 g) : f = g := by
  rw [← toFin3_ofFin3 f, ← toFin3_ofFin3 g, h]

/-- C36, as the code has it: for every `H` with orthonormal rotation `R` and translation `t`
and all 3-vectors `F`, `Mu`, `computeWrench` with flow NODE_OUT applied to the result of
`computeWrench` with flow NODE_IN on the same `H` returns the original `F`, and returns the
original `Mu` exactly when `t × (R F - R (R F)) = 0`; so it does when `t = 0`. -/
theorem wrench_roundtrip [CommRing α] (self : RigidBodyTransformation α)
    (hsz : WreSized self)
    (horth : Matrix.transpose (rotation self.H) * rotation self.H = 1) :
    (wrenchInThenOut self).F = self.F ∧
    ((wrenchInThenOut self).Mu = self.Mu ↔
      crossProduct (translation self.H)
        (Matrix.mulVec (rotation self.H) (toFin3 self.F)
          - Matrix.mulVec (rotation self.H)
              (Matrix.mulVec (rotation self.H) (toFin3 self.F))) = 0) ∧
    (translation self.H = 0 → (wrenchInThenOut self).Mu = self.Mu) := by
  obtain ⟨_, _, _, hF, hMu⟩ := hsz
  obtain ⟨h1, h2⟩ := wrenchInThenOut_fields self
  have hsplit : Matrix.mulVec (Matrix.transpose (rotation self.H))
      (crossProduct (translation self.H) (Matrix.mulVec (rotation self.H) (toFin3 self.F))
        + Matrix.mulVec (rotation self.H) (toFin3 self.Mu)
        - crossProduct (translation self.H)
            (Matrix.mulVec (rotation self.H)
              (Matrix.mulVec (rotation self.H) (toFin3 self.F))))
      = toFin3 self.Mu + Matrix.mulVec (Matrix.transpose (rotation self.H))
          (crossProduct (translation self.H)
            (Matrix.mulVec (rotation self.H) (toFin3 self.F)
              - Matrix.mulVec (rotation self.H)
                  (Matrix.mulVec (rotation self.H) (toFin3 self.F)))) := by
    rw [map_sub, Matrix.mulVec_sub, Matrix.mulVec_sub, Matrix.mulVec_add,
      transpose_mulVec_mulVec _ horth]
    abel
  have hiff : (wrenchInThenOut self).Mu = self.Mu ↔
      crossProduct (translation self.H)
        (Matrix.mulVec (rotation self.H) (toFin3 self.F)
          - Matrix.mulVec (rotation self.H)
              (Matrix.mulVec (rotation self.H) (toFin3 self.F))) = 0 := by
    rw [h2, hsplit, ← transpose_mulVec_eq_zero _ horth]
    constructor
    · intro h
      have h3 : ofFin3 (toFin3 self.Mu + Matrix.mulVec (Matrix.transpose (rotation self.H))
          (crossProduct (translation self.H)
            (Matrix.mulVec (rotation self.H) (toFin3 self.F)
              - Matrix.mulVec (rotation self.H)
                  (Matrix.mulVec (rotation self.H) (toFin3 self.F)))))
          = ofFin3 (toFin3 self.Mu) := by
        rw [h, ofFin3_toFin3 _ hMu]
      have h4 := ofFin3_injective _ _ h3
      exact add_right_eq_self.mp h4
    · intro h
      rw [h, add_zero, ofFin3_toFin3 _ hMu]
  refine ⟨?_, hiff, ?_⟩
  · rw [h1, transpose_mulVec_mulVec _ horth, ofFin3_toFin3 _ hF]
  · intro ht
    rw [hiff, ht, map_zero, LinearMap.zero_apply]

/-- C36 at a concrete input: a quarter turn about z with the translation `(0, -1, 0)` and the
force `(0, 0, 5)` on the rotation axis; force and moment come back. -/
theorem wrench_roundtrip_witness :
    WreSized axisForceRBT ∧
    Matrix.transpose (rotation axisForceRBT.H) * rotation axisForceRBT.H = 1 ∧
    crossProduct (translation axisForceRBT.H)
        (Matrix.mulVec (rotation axisForceRBT.H) (toFin3 axisForceRBT.F)
          - Matrix.mulVec (rotation axisForceRBT.H)
              (Matrix.mulVec (rotation axisForceRBT.H) (toFin3 axisForceRBT.F))) = 0 ∧
    (wrenchInThenOut axisForceRBT).F = axisForceRBT.F ∧
    (wrenchInThenOut axisForceRBT).Mu = axisForceRBT.Mu :=
  have h := wrench_roundtrip axisForceRBT (by decide) (by decide)
  ⟨by decide, by decide, by decide, h.1, h.2.1.mpr (by decide)⟩

/-- C36 fails as stated: a quarter turn about z with the translation `(0, -1, 0)` has an
orthonormal rotation block, yet NODE_IN followed by NODE_OUT turns the moment `(0, 3, 1)`,
cached with the force `(1, 0, 2)`, into `(0, 3, 2)`. -/
theorem wrench_roundtrip_counterexample :
    WreSized inDynamicRBT ∧
    Matrix.transpose (rotation inDynamicRBT.H) * rotation inDynamicRBT.H = 1 ∧
    inDynamicRBT.F = [1, 0, 2] ∧ inDynamicRBT.Mu = [0, 3, 1] ∧
    (wrenchInThenOut inDynamicRBT).Mu = [0, 3, 2] ∧
    ¬ ((wrenchInThenOut inDynamicRBT).F = inDynamicRBT.F ∧
       (wrenchInThenOut inDynamicRBT).Mu = inDynamicRBT.Mu) := by
  decide

/-! ## Angular velocity and acceleration through NODE_IN and back -/

/-- C37: for every `H` with orthonormal rotation `R`, every translation and each of the three
dynamic modes, `computeKinematic` with flow NODE_IN followed by `computeKinematic` with flow
NODE_OUT on the same `H` returns the original angular velocity `w` and angular acceleration
`dw`. -/
theorem kinematic_roundtrip_angular [CommRing α] (self : RigidBodyTransformation α)
    (hsz : KinSized self) (hmode : self.mode.isDynamic)
    (horth : Matrix.transpose (rotation self.H) * rotation self.H = 1) :
    (kinematicInThenOut self).w = self.w ∧ (kinematicInThenOut self).dw = self.dw := by
  obtain ⟨_, _, _, hw, hdw, hddp⟩ := hsz
  obtain ⟨h1, h2, _⟩ := kinematicInThenOut_dynamic_fields self hddp hmode
  refine ⟨?_, ?_⟩
  · rw [h1, transpose_mulVec_mulVec _ horth, ofFin3_toFin3 _ hw]
  · rw [h2, transpose_mulVec_mulVec _ horth, ofFin3_toFin3 _ hdw]

/-- C37 at concrete inputs: a quarter turn about z with the translation `(0, -1, 0)`, off the
axis, in the modes DYNAMIC_W_ROTOR and DYNAMIC_CORIOLIS_GRAVITY; `w = (1, 2, 3)` and
`dw = (4, 5, 6)` come back. -/
theorem kinematic_roundtrip_angular_witness :
    KinSized inDynamicRBT ∧ inDynamicRBT.mode = NewEulMode.DYNAMIC_W_ROTOR ∧
    Matrix.transpose (rotation inDynamicRBT.H) * rotation inDynamicRBT.H = 1 ∧
    (kinematicInThenOut inDynamicRBT).w = [1, 2, 3] ∧
    (kinematicInThenOut inDynamicRBT).dw = [4, 5, 6] ∧
    outDynamicRBT.mode = NewEulMode.DYNAMIC_CORIOLIS_GRAVITY ∧
    (kinematicInThenOut outDynamicRBT).w = [1, 2, 3] ∧
    (kinematicInThenOut outDynamicRBT).dw = [4, 5, 6] :=
  have h := kinematic_roundtrip_angular inDynamicRBT (by decide) (by decide) (by decide)
  have h2 := kinematic_roundtrip_angular outDynamicRBT (by decide) (by decide) (by decide)
  ⟨by decide, rfl, by decide, h.1, h.2, rfl, h2.1, h2.2⟩


/-! ## Kinematic measures given to a node -/

/-- The loop of `setKinematicMeasure` leaves every RBT as it was. -/
theorem setKinematicMeasureInputs_rbts (ops : Collaborators α W) (w0 dw0 ddp0 : Yarp.Vector α)
    (l : List (RigidBodyTransformation α)) (world : W) :
    (setKinematicMeasureInputs ops w0 dw0 ddp0 l world).1 = l := by
  induction l generalizing world with
  | nil => rfl
  | cons rbt rest ih =>
    by_cases hf : rbt.kinFlow = FlowType.RBT_NODE_IN
    · simp only [setKinematicMeasureInputs, hf, if_true, ih]
      rfl
    · simp only [setKinematicMeasureInputs, hf, if_false, ih]

/-- The calls made by the loop of `setKinematicMeasure`: one per kinematic-input RBT. -/
theorem setKinematicMeasureInputs_log (ops : Collaborators α W) (w0 dw0 ddp0 : Yarp.Vector α)
    (l : List (RigidBodyTransformation α)) (world : W) (log : List (Call α)) :
    (setKinematicMeasureInputs (recording ops) w0 dw0 ddp0 l (world, log)).2.2
      = log ++ (kinematicInputRBTs l).map (kinematicMeasureCall w0 dw0 ddp0) := by
  induction l generalizing world log with
  | nil => simp [setKinematicMeasureInputs, kinematicInputRBTs]
  | cons rbt rest ih =>
    unfold kinematicInputRBTs at ih ⊢
    by_cases hf : rbt.kinFlow = FlowType.RBT_NODE_IN
    · simp only [setKinematicMeasureInputs, hf, if_true, List.filter_cons, decide_True,
        List.map_cons]
      rw [show (rbt.setKinematicMeasure (recording ops) w0 dw0 ddp0 (world, log)).2.2
          = ((ops.initKinematicNewtonEuler world rbt.limb w0 dw0 ddp0).2,
              log ++ [kinematicMeasureCall w0 dw0 ddp0 rbt]) from rfl]
      rw [ih]
      simp
    · simp only [setKinematicMeasureInputs, hf, if_false, List.filter_cons, decide_False]
      exact ih _ _

/-- C40: `iDynNode::setKinematicMeasure(w0, dw0, ddp0)` returns true if and only if the three
vectors all have length 3, whatever the number of kinematic inputs. On success the calls made
are exactly one `initKinematicNewtonEuler` with the triple as supplied on the limb of every
kinematic NODE_IN RBT, in attachment order; on failure no call is made and the world is
untouched. In both cases the node after the call is the node before it. -/
theorem node_setKinematicMeasure (ops : Collaborators α W) (self : iDynNode α)
    (w0 dw0 ddp0 : Yarp.Vector α) (world : W) :
    (self.setKinematicMeasure ops w0 dw0 ddp0 world).1
      = decide (w0.length = 3 ∧ dw0.length = 3 ∧ ddp0.length = 3) ∧
    (self.setKinematicMeasure ops w0 dw0 ddp0 world).2.1 = self ∧
    (self.setKinematicMeasure (recording ops) w0 dw0 ddp0 (world, [])).2.2.2
      = (if w0.length = 3 ∧ dw0.length = 3 ∧ ddp0.length = 3 then
          (kinematicInputRBTs self.rbtList).map (kinematicMeasureCall w0 dw0 ddp0)
        else []) ∧
    (self.setKinematicMeasure ops w0 dw0 ddp0 world).2.2
      = (if w0.length = 3 ∧ dw0.length = 3 ∧ ddp0.length = 3 then
          (setKinematicMeasureInputs ops w0 dw0 ddp0 self.rbtList world).2
        else world) := by
  unfold iDynNode.setKinematicMeasure
  by_cases h : w0.length = 3 ∧ dw0.length = 3 ∧ ddp0.length = 3
  · simp only [h, and_self, if_true, decide_True, setKinematicMeasureInputs_rbts,
      setKinematicMeasureInputs_log, List.nil_append, true_and]
  · simp only [h, if_false, decide_False, and_self]

/-! ## The kinematics protocol fed with a measure -/

/-- Without kinematic input the first loop of `solveKinematics(w0, dw0, ddp0)` is the one of
`solveKinematics()`. -/
theorem solveKinematicsInputs3_no_input [CommRing α] (ops : Collaborators α W)
    (w0 dw0 ddp0 : Yarp.Vector α) (l : List (RigidBodyTransformation α))
    (k : Yarp.Vector α × Yarp.Vector α × Yarp.Vector α) (world : W) (n : Nat)
    (h : kinematicInputRBTs l = []) :
    solveKinematicsInputs3 ops w0 dw0 ddp0 l k world n = solveKinematicsInputs ops l k world n := by
  induction l with
  | nil => rfl
  | cons rbt rest ih =>
    unfold kinematicInputRBTs at h ih
    by_cases hf : rbt.kinFlow = FlowType.RBT_NODE_IN
    · simp [List.filter_cons, hf] at h
    · simp only [List.filter_cons, hf, decide_False] at h
      simp only [solveKinematicsInputs3, solveKinematicsInputs, hf, if_false, ih h]

/-- With exactly one kinematic-input RBT `rin`, the first loop of
`solveKinematics(w0, dw0, ddp0)` is the one of `solveKinematics()` run in the world in which
the limb of `rin` was given the measure. -/
theorem solveKinematicsInputs3_single [CommRing α] (ops : Collaborators α W)
    (w0 dw0 ddp0 : Yarp.Vector α) (l : List (RigidBodyTransformation α))
    (rin : RigidBodyTransformation α)
    (k : Yarp.Vector α × Yarp.Vector α × Yarp.Vector α) (world : W) (n : Nat)
    (h : kinematicInputRBTs l = [rin]) :
    solveKinematicsInputs3 ops w0 dw0 ddp0 l k world n
      = solveKinematicsInputs ops l k (rin.setKinematicMeasure ops w0 dw0 ddp0 world).2.2 n := by
  induction l with
  | nil => simp [kinematicInputRBTs] at h
  | cons rbt rest ih =>
    unfold kinematicInputRBTs at h ih
    by_cases hf : rbt.kinFlow = FlowType.RBT_NODE_IN
    · simp only [List.filter_cons, hf, decide_True, if_true, List.cons.injEq] at h
      obtain ⟨rfl, hrest⟩ := h
      simp only [solveKinematicsInputs3, solveKinematicsInputs, hf, if_true]
      rw [solveKinematicsInputs3_no_input ops w0 dw0 ddp0 rest _ _ _ hrest]
      rfl
    · simp only [List.filter_cons, hf, decide_False] at h
      simp only [solveKinematicsInputs3, solveKinematicsInputs, hf, if_false, ih h]

/-- C32: for every node with exactly one kinematic NODE_IN RBT `rin` and all `(w0, dw0, ddp0)`,
`solveKinematics(w0, dw0, ddp0)` gives what `solveKinematics()` gives when run after the limb
of `rin` was handed `(w0, dw0, ddp0)` as supplied through `initKinematicNewtonEuler`: the same
flag, the same node (so the same aggregate `w`, `dw`, `ddp`), the same world and the same
sequence of calls, which starts with that `initKinematicNewtonEuler`. -/
theorem solveKinematics3_equivalent [CommRing α] (ops : Collaborators α W) (self : iDynNode α)
    (w0 dw0 ddp0 : Yarp.Vector α) (world : W) (rin : RigidBodyTransformation α)
    (hrin : kinematicInputRBTs self.rbtList = [rin]) :
    self.solveKinematics3 ops w0 dw0 ddp0 world
      = self.solveKinematics ops (ops.initKinematicNewtonEuler world rin.limb w0 dw0 ddp0).2 ∧
    self.solveKinematics3 (recording ops) w0 dw0 ddp0 (world, [])
      = self.solveKinematics (recording ops)
          ((ops.initKinematicNewtonEuler world rin.limb w0 dw0 ddp0).2,
            [Call.initKinematicNewtonEuler rin.limb w0 dw0 ddp0]) := by
  have key : ∀ {V : Type} (ops1 : Collaborators α V) (world1 : V),
      self.solveKinematics3 ops1 w0 dw0 ddp0 world1
        = self.solveKinematics ops1
            (rin.setKinematicMeasure ops1 w0 dw0 ddp0 world1).2.2 := by
    intro V ops1 world1
    unfold iDynNode.solveKinematics3 iDynNode.solveKinematics
    rw [solveKinematicsInputs3_single ops1 w0 dw0 ddp0 self.rbtList rin _ world1 0 hrin]
  exact ⟨key ops world, key (recording ops) (world, [])⟩

/-- C32 at a concrete input: the node `torsoNode`, whose only kinematic input is the head
(limb 0), fed with the measure `(1, 1, 1), (2, 2, 2), (3, 3, 3)`; the head limb receives the
measure as it is, then the calls of `solveKinematics()` follow. -/
theorem solveKinematics3_equivalent_witness :
    kinematicInputRBTs torsoNode.rbtList
      = [sampleRBT 0 FlowType.RBT_NODE_IN FlowType.RBT_NODE_IN NewEulMode.DYNAMIC
          (identity4 ℤ)] ∧
    torsoNode.solveKinematics3 countingCollaborators [1, 1, 1] [2, 2, 2] [3, 3, 3] 0
      = torsoNode.solveKinematics countingCollaborators 1 ∧
    (torsoNode.solveKinematics3 (recording countingCollaborators) [1, 1, 1] [2, 2, 2]
        [3, 3, 3] (0, [])).2.2.2
      = [ Call.initKinematicNewtonEuler 0 [1, 1, 1] [2, 2, 2] [3, 3, 3],
          Call.computeKinematicNewtonEuler 0, Call.getKinematicNewtonEuler 0,
          Call.initKinematicNewtonEuler 1 [2, -1, 3] [5, -4, 6] [16, 6, 7],
          Call.computeKinematicNewtonEuler 1,
          Call.initKinematicNewtonEuler 2 [2, -1, 3] [5, -4, 6] [4, 9, 19],
          Call.computeKinematicNewtonEuler 2 ] :=
  ⟨by decide,
    (solveKinematics3_equivalent countingCollaborators torsoNode [1, 1, 1] [2, 2, 2] [3, 3, 3]
      0 (sampleRBT 0 FlowType.RBT_NODE_IN FlowType.RBT_NODE_IN NewEulMode.DYNAMIC (identity4 ℤ))
      (by decide)).1,
    by decide⟩


/-! ## The answers of the kinematic outputs -/

/-- The calls of `solveKinematics()` when the count of kinematic inputs is one: the input calls,
then the output calls of every kinematic-output RBT for the aggregate. -/
theorem solveKinematics_log_of_one [CommRing α] (ops : Collaborators α W) (self : iDynNode α)
    (world : W) (hlen : self.rbtList.length < 2 ^ 32) (hone : self.kinematicInputs = 1) :
    (self.solveKinematics (recording ops) (world, [])).2.2.2
      = (kinematicInputRBTs self.rbtList).flatMap kinematicInputCalls ++
        (kinematicOutputRBTs self.rbtList).flatMap
          (kinematicOutputCalls
            (self.solveKinematics (recording ops) (world, [])).2.1.aggregateKinematics) := by
  obtain ⟨_, h2, h3⟩ := solveKinematics_of_one (recording ops) self (world, []) hlen hone
  have hlog := solveKinematicsInputs_log ops self.rbtList (self.w, self.dw, self.ddp) world [] 0
  rw [h3, h2]
  have hsplit : (solveKinematicsInputs (recording ops) self.rbtList
        (self.w, self.dw, self.ddp) (world, []) 0).2.2.1
      = ((solveKinematicsInputs (recording ops) self.rbtList
          (self.w, self.dw, self.ddp) (world, []) 0).2.2.1.1,
         (solveKinematicsInputs (recording ops) self.rbtList
          (self.w, self.dw, self.ddp) (world, []) 0).2.2.1.2) := rfl
  rw [hsplit, solveKinematicsOutputs_log, hlog, solveKinematicsInputs_outputs, List.nil_append]

/-- C38: with exactly one kinematic NODE_IN RBT, `solveKinematics()` returns true whatever the
limbs answer, so also when `initKinematicNewtonEuler` answers false: for arbitrary behaviour of
the limbs the calls made are the input calls followed, for every kinematic NODE_OUT RBT in
attachment order, by its `initKinematicNewtonEuler` and its `computeKinematicNewtonEuler`, none
left out. -/
theorem solveKinematics_ignores_answers [CommRing α] (ops : Collaborators α W)
    (self : iDynNode α) (world : W) (hlen : self.rbtList.length < 2 ^ 32)
    (hone : self.kinematicInputs = 1) :
    (self.solveKinematics ops world).1 = true ∧
    (self.solveKinematics (recording ops) (world, [])).1 = true ∧
    (self.solveKinematics (recording ops) (world, [])).2.2.2
      = (kinematicInputRBTs self.rbtList).flatMap kinematicInputCalls ++
        (kinematicOutputRBTs self.rbtList).flatMap
          (kinematicOutputCalls
            (self.solveKinematics (recording ops) (world, [])).2.1.aggregateKinematics) :=
  ⟨(solveKinematics_of_one ops self world hlen hone).1,
    (solveKinematics_of_one (recording ops) self (world, []) hlen hone).1,
    solveKinematics_log_of_one ops self world hlen hone⟩

/-- C38 at a concrete input: on `torsoNode` every limb answers false to
`initKinematicNewtonEuler`, so `setKinematic` returns false on the first arm; the call returns
true all the same and both arms (limbs 1 and 2) are initialised and computed. -/
theorem solveKinematics_ignores_answers_witness :
    torsoNode.rbtList.length < 2 ^ 32 ∧ torsoNode.kinematicInputs = 1 ∧
    ((sampleRBT 1 FlowType.RBT_NODE_OUT FlowType.RBT_NODE_IN NewEulMode.DYNAMIC
        quarterTurnH).setKinematic refusingCollaborators [1, 2, 3] [4, 5, 6] [7, 8, 9] 2).1
      = false ∧
    (torsoNode.solveKinematics (recording refusingCollaborators) (0, [])).1 = true ∧
    (torsoNode.solveKinematics (recording refusingCollaborators) (0, [])).2.2.2
      = [ Call.computeKinematicNewtonEuler 0, Call.getKinematicNewtonEuler 0,
          Call.initKinematicNewtonEuler 1 [2, -1, 3] [5, -4, 6] [16, 6, 7],
          Call.computeKinematicNewtonEuler 1,
          Call.initKinematicNewtonEuler 2 [2, -1, 3] [5, -4, 6] [4, 9, 19],
          Call.computeKinematicNewtonEuler 2 ] :=
  ⟨by decide, by decide, by decide,
    (solveKinematics_ignores_answers refusingCollaborators torsoNode 0 (by decide)
      (by decide)).2.1,
    by decide⟩

/-! ## The wrench protocol fed with measures -/

/-- The calls of `iDynNode::solveWrench()` after the calls already received. -/
theorem solveWrench_log_from [CommRing α] (ops : Collaborators α W) (self : iDynNode α)
    (world : W) (log : List (Call α)) (hF : self.F.length = 3) (hMu : self.Mu.length = 3) :
    (self.solveWrench (recording ops) (world, log)).2.2.2
      = log ++ ((wrenchInputRBTs self.rbtList).flatMap wrenchInputCalls
        ++ (wrenchOutputRBTs self.rbtList).flatMap
            (wrenchOutputCalls
              ((self.solveWrench (recording ops) (world, log)).2.1.F,
                (self.solveWrench (recording ops) (world, log)).2.1.Mu))) := by
  obtain ⟨a1, a2⟩ := solveWrench_aggregate_fields (recording ops) self (world, log) hF hMu
  rw [a1, a2, wrenchReports_recording]
  have h0 : ∀ v : Yarp.Vector α, v.length = 3 →
      Yarp.Vector.assignScalar v 0 = ofFin3 (0 : Fin 3 → α) := by
    intro v hv
    rw [assignScalar_zero v hv]; rfl
  have hs := solveWrenchInputs_sum (recording ops) self.rbtList 0 0 (world, log) 0
  rw [zero_add, zero_add, wrenchReports_recording] at hs
  unfold iDynNode.solveWrench
  simp only [h0 self.F hF, h0 self.Mu hMu]
  rw [show (solveWrenchInputs (recording ops) self.rbtList
        (ofFin3 (0 : Fin 3 → α), ofFin3 (0 : Fin 3 → α)) (world, log) 0).2.2.1
      = ((solveWrenchInputs (recording ops) self.rbtList
            (ofFin3 (0 : Fin 3 → α), ofFin3 (0 : Fin 3 → α)) (world, log) 0).2.2.1.1,
          (solveWrenchInputs (recording ops) self.rbtList
            (ofFin3 (0 : Fin 3 → α), ofFin3 (0 : Fin 3 → α)) (world, log) 0).2.2.1.2) from rfl]
  rw [solveWrenchOutputs_log, solveWrenchInputs_log, solveWrenchInputs_outputs,
    List.append_assoc]
  rw [show ((solveWrenchInputs (recording ops) self.rbtList
        (ofFin3 (0 : Fin 3 → α), ofFin3 (0 : Fin 3 → α)) (world, log) 0).2.1.1,
      (solveWrenchInputs (recording ops) self.rbtList
        (ofFin3 (0 : Fin 3 → α), ofFin3 (0 : Fin 3 → α)) (world, log) 0).2.1.2)
      = (solveWrenchInputs (recording ops) self.rbtList
        (ofFin3 (0 : Fin 3 → α), ofFin3 (0 : Fin 3 → α)) (world, log) 0).2.1 from rfl, hs]

/-- C35: `solveWrench(FM)` returns the flag of `setWrenchMeasure(FM)`, so true if and only if
`FM` was accepted, and in every case runs `solveWrench()` in the world `setWrenchMeasure` left:
the calls made are those of `setWrenchMeasure(FM)` followed by the input calls of every
wrench-input RBT and the output calls of every wrench-output RBT. The same holds for
`solveWrench(Fm, Mm)` with `setWrenchMeasure(Fm, Mm)`. -/
theorem solveWrench_measure_runs [CommRing α] (ops : Collaborators α W) (self : iDynNode α)
    (FM Fm Mm : Yarp.Matrix α) (world : W) (hF : self.F.length = 3)
    (hMu : self.Mu.length = 3) :
    ((self.solveWrench1 ops FM world).1 = (self.setWrenchMeasure ops FM world).1 ∧
      (self.solveWrench1 ops FM world).2
        = (self.solveWrench ops (self.setWrenchMeasure ops FM world).2).2 ∧
      (self.solveWrench1 (recording ops) FM (world, [])).2.2.2
        = (self.setWrenchMeasure (recording ops) FM (world, [])).2.2
          ++ ((wrenchInputRBTs self.rbtList).flatMap wrenchInputCalls
            ++ (wrenchOutputRBTs self.rbtList).flatMap
                (wrenchOutputCalls
                  ((self.solveWrench1 (recording ops) FM (world, [])).2.1.F,
                    (self.solveWrench1 (recording ops) FM (world, [])).2.1.Mu)))) ∧
    ((self.solveWrench2 ops Fm Mm world).1 = (self.setWrenchMeasure2 ops Fm Mm world).1 ∧
      (self.solveWrench2 ops Fm Mm world).2
        = (self.solveWrench ops (self.setWrenchMeasure2 ops Fm Mm world).2).2 ∧
      (self.solveWrench2 (recording ops) Fm Mm (world, [])).2.2.2
        = (self.setWrenchMeasure2 (recording ops) Fm Mm (world, [])).2.2
          ++ ((wrenchInputRBTs self.rbtList).flatMap wrenchInputCalls
            ++ (wrenchOutputRBTs self.rbtList).flatMap
                (wrenchOutputCalls
                  ((self.solveWrench2 (recording ops) Fm Mm (world, [])).2.1.F,
                    (self.solveWrench2 (recording ops) Fm Mm (world, [])).2.1.Mu)))) := by
  refine ⟨⟨?_, rfl, ?_⟩, ⟨?_, rfl, ?_⟩⟩
  · simp [iDynNode.solveWrench1, iDynNode.solveWrench]
  · exact solveWrench_log_from ops self
      (self.setWrenchMeasure (recording ops) FM (world, [])).2.1
      (self.setWrenchMeasure (recording ops) FM (world, [])).2.2 hF hMu
  · simp [iDynNode.solveWrench2, iDynNode.solveWrench]
  · exact solveWrench_log_from ops self
      (self.setWrenchMeasure2 (recording ops) Fm Mm (world, [])).2.1
      (self.setWrenchMeasure2 (recording ops) Fm Mm (world, [])).2.2 hF hMu

/-- C35 at a concrete input: `torsoNode` (three wrench inputs, no wrench output) is given the
5x2 matrix `fiveByTwo`, which is refused; `solveWrench(FM)` returns false, zeros are handed to
the three limbs and the wrench protocol still runs on them, leaving the aggregate force
`(1, 2, 0)`. -/
theorem solveWrench_measure_runs_witness :
    torsoNode.F.length = 3 ∧ torsoNode.Mu.length = 3 ∧
    (torsoNode.setWrenchMeasure countingCollaborators fiveByTwo 0).1 = false ∧
    (torsoNode.solveWrench1 countingCollaborators fiveByTwo 0).1
      = (torsoNode.setWrenchMeasure countingCollaborators fiveByTwo 0).1 ∧
    (torsoNode.solveWrench1 (recording countingCollaborators) fiveByTwo (0, [])).2.2.2
      = [ Call.initWrenchNewtonEuler 0 [0, 0, 0] [0, 0, 0],
          Call.initWrenchNewtonEuler 1 [0, 0, 0] [0, 0, 0],
          Call.initWrenchNewtonEuler 2 [0, 0, 0] [0, 0, 0],
          Call.computeWrenchNewtonEuler 0, Call.getWrenchNewtonEuler 0,
          Call.computeWrenchNewtonEuler 1, Call.getWrenchNewtonEuler 1,
          Call.computeWrenchNewtonEuler 2, Call.getWrenchNewtonEuler 2 ] ∧
    (torsoNode.solveWrench1 countingCollaborators fiveByTwo 0).2.1.F = [1, 2, 0] :=
  ⟨rfl, rfl, by decide,
    (solveWrench_measure_runs countingCollaborators torsoNode fiveByTwo threeByTwoF
      threeByTwoM 0 rfl rfl).1.1,
    by decide, by decide⟩


/-! ## The wrench protocol with and without sensors -/

/-- When no wrench-input RBT is sensorized, the first loop of `iDynSensorNode::solveWrench` is
the one of `iDynNode::solveWrench`. -/
theorem sensorSolveWrenchInputs_plain [CommRing α] (ops : Collaborators α W)
    (l : List (RigidBodyTransformation α)) (sensors : List (Option Nat))
    (fm : Yarp.Vector α × Yarp.Vector α) (world : W) (n : Nat)
    (hplain : ∀ rbt ∈ l, rbt.hasSensor = false) :
    sensorSolveWrenchInputs ops l sensors fm world n = some (solveWrenchInputs ops l fm world n) := by
  induction l generalizing sensors fm world n with
  | nil => rfl
  | cons rbt rest ih =>
    have hs : rbt.hasSensor = false := hplain rbt (List.mem_cons_self _ _)
    have hrest : ∀ r ∈ rest, r.hasSensor = false :=
      fun r hr => hplain r (List.mem_cons_of_mem _ hr)
    by_cases hf : rbt.wreFlow = FlowType.RBT_NODE_IN
    · simp only [sensorSolveWrenchInputs, solveWrenchInputs, hf, hs, if_true,
        Bool.false_eq_true, if_false, ih _ _ _ _ hrest]
    · simp only [sensorSolveWrenchInputs, solveWrenchInputs, hf, if_false, ih _ _ _ _ hrest]

/-- When no wrench-input RBT is sensorized, the calls owed to the wrench inputs are those of a
node without sensors. -/
theorem sensorWrenchInputCalls_plain (l : List (RigidBodyTransformation α))
    (sensors : List (Option Nat)) (hplain : ∀ rbt ∈ l, rbt.hasSensor = false) :
    (sensorWrenchInputCalls l sensors : List (Call α))
      = (wrenchInputRBTs l).flatMap wrenchInputCalls := by
  induction l generalizing sensors with
  | nil => rfl
  | cons rbt rest ih =>
    have hs : rbt.hasSensor = false := hplain rbt (List.mem_cons_self _ _)
    have hrest : ∀ r ∈ rest, r.hasSensor = false :=
      fun r hr => hplain r (List.mem_cons_of_mem _ hr)
    unfold wrenchInputRBTs at ih ⊢
    by_cases hf : rbt.wreFlow = FlowType.RBT_NODE_IN
    · simp only [sensorWrenchInputCalls, hf, hs, if_true, Bool.false_eq_true, if_false,
        List.filter_cons, decide_True, List.flatMap_cons, ih _ hrest, wrenchInputCalls,
        List.cons_append, List.nil_append, List.singleton_append]
    · simp only [sensorWrenchInputCalls, hf, if_false, List.filter_cons, decide_False,
        Bool.false_eq_true, ih _ hrest]

/-- The calls made by the first loop of `iDynSensorNode::solveWrench`, and the wrench-output
RBTs it leaves. -/
theorem sensorSolveWrenchInputs_log [CommRing α] (ops : Collaborators α W)
    (l : List (RigidBodyTransformation α)) (sensors : List (Option Nat))
    (fm : Yarp.Vector α × Yarp.Vector α) (world : W) (log : List (Call α)) (n : Nat)
    (r : List (RigidBodyTransformation α) × (Yarp.Vector α × Yarp.Vector α) ×
      (W × List (Call α)) × Nat)
    (h : sensorSolveWrenchInputs (recording ops) l sensors fm (world, log) n = some r) :
    r.2.2.1.2 = log ++ sensorWrenchInputCalls l sensors ∧
    wrenchOutputRBTs r.1 = wrenchOutputRBTs l := by
  induction l generalizing sensors fm world log n r with
  | nil =>
    simp only [sensorSolveWrenchInputs, Option.some.injEq] at h
    rw [← h]
    simp [sensorWrenchInputCalls]
  | cons rbt rest ih =>
    by_cases hf : rbt.wreFlow = FlowType.RBT_NODE_IN
    · have hout : ∀ (v : W × List (Call α)) (a b : Yarp.Vector α),
          decide ((rbt.getWrench (recording ops) a b v).1.wreFlow = FlowType.RBT_NODE_OUT)
            = false := by
        intro v a b
        rw [getWrench_wreFlow, hf]
        rfl
      by_cases hs : rbt.hasSensor = true
      · cases hsens : sensorAt sensors with
        | none =>
          simp [sensorSolveWrenchInputs, hf, hs, hsens] at h
        | some sensor =>
          simp only [sensorSolveWrenchInputs, hf, hs, hsens, if_true, Option.map_some'] at h
          cases hnext : sensorSolveWrenchInputs (recording ops) rest sensors.tail
              (rbt.getWrench (recording ops) fm.1 fm.2
                ((recording ops).computeWrenchFromSensorNewtonEuler (world, log) sensor)).2.1
              (rbt.getWrench (recording ops) fm.1 fm.2
                ((recording ops).computeWrenchFromSensorNewtonEuler (world, log) sensor)).2.2
              ((n + 1) % 2 ^ 32) with
          | none => rw [hnext] at h; simp at h
          | some r1 =>
            rw [hnext] at h
            simp only [Option.some.injEq] at h
            have hi := ih sensors.tail _ _ _ _ r1 hnext
            rw [← h]
            refine ⟨?_, ?_⟩
            · rw [hi.1]
              simp [sensorWrenchInputCalls, hf, hs, hsens, recording,
                RigidBodyTransformation.getWrench]
            · unfold wrenchOutputRBTs at hi ⊢
              simp only [List.filter_cons, hout, hf, hi.2]
              simp
      · have hs : rbt.hasSensor = false := by simpa using hs
        simp only [sensorSolveWrenchInputs, hf, hs, if_true, Bool.false_eq_true, if_false] at h
        cases hnext : sensorSolveWrenchInputs (recording ops) rest sensors.tail
            (rbt.getWrench (recording ops) fm.1 fm.2
              (rbt.computeLimbWrench (recording ops) (world, log))).2.1
            (rbt.getWrench (recording ops) fm.1 fm.2
              (rbt.computeLimbWrench (recording ops) (world, log))).2.2
            ((n + 1) % 2 ^ 32) with
        | none => rw [hnext] at h; simp at h
        | some r1 =>
          rw [hnext] at h
          simp only [Option.some.injEq] at h
          have hi := ih sensors.tail _ _ _ _ r1 hnext
          rw [← h]
          refine ⟨?_, ?_⟩
          · rw [hi.1]
            simp [sensorWrenchInputCalls, hf, hs, recording,
              RigidBodyTransformation.getWrench, RigidBodyTransformation.computeLimbWrench]
          · unfold wrenchOutputRBTs at hi ⊢
            simp only [List.filter_cons, hout, hf, hi.2]
            simp
    · simp only [sensorSolveWrenchInputs, hf, if_false] at h
      cases hnext : sensorSolveWrenchInputs (recording ops) rest sensors.tail fm (world, log)
          n with
      | none => rw [hnext] at h; simp at h
      | some r1 =>
        rw [hnext] at h
        simp only [Option.some.injEq] at h
        have hi := ih sensors.tail _ _ _ _ r1 hnext
        rw [← h]
        refine ⟨?_, ?_⟩
        · rw [hi.1]
          simp [sensorWrenchInputCalls, hf]
        · unfold wrenchOutputRBTs at hi ⊢
          simp only [List.filter_cons, hi.2]


/-- The calls of `iDynNode::solveWrench()`, with the aggregate read from the node it leaves. -/
theorem solveWrench_calls [CommRing α] (ops : Collaborators α W) (self : iDynNode α)
    (world : W) (log : List (Call α)) :
    (self.solveWrench (recording ops) (world, log)).2.2.2
      = log ++ ((wrenchInputRBTs self.rbtList).flatMap wrenchInputCalls
        ++ (wrenchOutputRBTs self.rbtList).flatMap
            (wrenchOutputCalls
              ((self.solveWrench (recording ops) (world, log)).2.1.F,
                (self.solveWrench (recording ops) (world, log)).2.1.Mu))) := by
  unfold iDynNode.solveWrench
  simp only
  rw [show (solveWrenchInputs (recording ops) self.rbtList
        (Yarp.Vector.assignScalar self.F 0, Yarp.Vector.assignScalar self.Mu 0)
        (world, log) 0).2.2.1
      = ((solveWrenchInputs (recording ops) self.rbtList
            (Yarp.Vector.assignScalar self.F 0, Yarp.Vector.assignScalar self.Mu 0)
            (world, log) 0).2.2.1.1,
          (solveWrenchInputs (recording ops) self.rbtList
            (Yarp.Vector.assignScalar self.F 0, Yarp.Vector.assignScalar self.Mu 0)
            (world, log) 0).2.2.1.2) from rfl]
  rw [solveWrenchOutputs_log, solveWrenchInputs_log, solveWrenchInputs_outputs,
    List.append_assoc]

/-- The calls of `iDynSensorNode::solveWrench()`, whenever it returns. -/
theorem sensorSolveWrench_calls [CommRing α] (ops : Collaborators α W)
    (node : iDynSensorNode α) (world : W) :
    (node.solveWrench (recording ops) (world, [])).map (fun r => r.2.2.2)
      = (node.solveWrench (recording ops) (world, [])).map fun r =>
          sensorWrenchInputCalls node.rbtList node.sensorList
            ++ (wrenchOutputRBTs node.rbtList).flatMap (wrenchOutputCalls (r.2.1.F, r.2.1.Mu)) := by
  unfold iDynSensorNode.solveWrench
  cases hscan : sensorSolveWrenchInputs (recording ops) node.rbtList node.sensorList
      (Yarp.Vector.assignScalar node.F 0, Yarp.Vector.assignScalar node.Mu 0) (world, []) 0 with
  | none => rfl
  | some scan =>
    obtain ⟨h1, h2⟩ := sensorSolveWrenchInputs_log ops _ _ _ _ _ _ scan hscan
    simp only [Option.map_some', Option.some.injEq]
    rw [show scan.2.2.1 = (scan.2.2.1.1, scan.2.2.1.2) from rfl, solveWrenchOutputs_log, h1, h2,
      List.nil_append]

/-- C31: the calls of `iDynSensorNode::solveWrench` and of `iDynNode::solveWrench` on a node
`node` differ only in the call that starts the turn of a sensorized wrench-input RBT,
`computeWrenchFromSensorNewtonEuler` on `sensorList[i]` in place of `computeWrenchNewtonEuler`
on the limb; and on a node `self` with no sensorized RBT the two give the same flag, the same
node after the call (so the same aggregate `F`, `Mu`), the same world and the same calls in the
same order. -/
theorem sensorSolveWrench_refines [CommRing α] (ops : Collaborators α W)
    (self node : iDynSensorNode α) (world : W)
    (hplain : ∀ rbt ∈ self.rbtList, rbt.hasSensor = false) :
    ((node.solveWrench (recording ops) (world, [])).map (fun r => r.2.2.2)
      = (node.solveWrench (recording ops) (world, [])).map fun r =>
          sensorWrenchInputCalls node.rbtList node.sensorList
            ++ (wrenchOutputRBTs node.rbtList).flatMap
                (wrenchOutputCalls (r.2.1.F, r.2.1.Mu))) ∧
    (node.toiDynNode.solveWrench (recording ops) (world, [])).2.2.2
      = (wrenchInputRBTs node.rbtList).flatMap wrenchInputCalls
        ++ (wrenchOutputRBTs node.rbtList).flatMap
            (wrenchOutputCalls
              ((node.toiDynNode.solveWrench (recording ops) (world, [])).2.1.F,
                (node.toiDynNode.solveWrench (recording ops) (world, [])).2.1.Mu)) ∧
    self.solveWrench ops world
      = some ((self.toiDynNode.solveWrench ops world).1,
          { self with toiDynNode := (self.toiDynNode.solveWrench ops world).2.1 },
          (self.toiDynNode.solveWrench ops world).2.2) ∧
    self.solveWrench (recording ops) (world, [])
      = some ((self.toiDynNode.solveWrench (recording ops) (world, [])).1,
          { self with
            toiDynNode := (self.toiDynNode.solveWrench (recording ops) (world, [])).2.1 },
          (self.toiDynNode.solveWrench (recording ops) (world, [])).2.2) ∧
    (sensorWrenchInputCalls self.rbtList self.sensorList : List (Call α))
      = (wrenchInputRBTs self.rbtList).flatMap wrenchInputCalls := by
  have key : ∀ {V : Type} (ops1 : Collaborators α V) (world1 : V),
      self.solveWrench ops1 world1
        = some ((self.toiDynNode.solveWrench ops1 world1).1,
            { self with toiDynNode := (self.toiDynNode.solveWrench ops1 world1).2.1 },
            (self.toiDynNode.solveWrench ops1 world1).2.2) := by
    intro V ops1 world1
    unfold iDynSensorNode.solveWrench iDynNode.solveWrench
    rw [sensorSolveWrenchInputs_plain ops1 self.rbtList self.sensorList _ world1 0 hplain]
  have hcalls := solveWrench_calls ops node.toiDynNode world []
  rw [List.nil_append] at hcalls
  exact ⟨sensorSolveWrench_calls ops node world, hcalls, key ops world,
    key (recording ops) (world, []), sensorWrenchInputCalls_plain _ _ hplain⟩

/-- C31 at concrete inputs: on `plainSensorNode`, which has no sensor, both functions make the
same six calls and leave the aggregate force `(1, 1, 0)`; on `torsoSensorNode`, whose arms are
sensorized, the turns of the arms start with `computeWrenchFromSensorNewtonEuler` on the
sensors 0 and 1. -/
theorem sensorSolveWrench_refines_witness :
    plainSensorNode.rbtList.map (fun r => r.hasSensor) = [false, false, false] ∧
    plainSensorNode.solveWrench (recording limbCollaborators) (0, [])
      = some ((plainSensorNode.toiDynNode.solveWrench (recording limbCollaborators) (0, [])).1,
          { plainSensorNode with
            toiDynNode :=
              (plainSensorNode.toiDynNode.solveWrench (recording limbCollaborators)
                (0, [])).2.1 },
          (plainSensorNode.toiDynNode.solveWrench (recording limbCollaborators) (0, [])).2.2) ∧
    (plainSensorNode.solveWrench (recording limbCollaborators) (0, [])).map
        (fun r => (r.1, r.2.1.F, r.2.2.2))
      = some (true, [1, 1, 0],
          [ Call.computeWrenchNewtonEuler 1, Call.getWrenchNewtonEuler 1,
            Call.computeWrenchNewtonEuler 2, Call.getWrenchNewtonEuler 2,
            Call.initWrenchNewtonEuler 0 [1, 1, 0] [0, 0, 0],
            Call.computeWrenchNewtonEuler 0 ]) ∧
    (torsoSensorNode.solveWrench (recording countingCollaborators) (0, [])).map
        (fun r => r.2.2.2)
      = some [ Call.computeWrenchNewtonEuler 0, Call.getWrenchNewtonEuler 0,
          Call.computeWrenchFromSensorNewtonEuler 0, Call.getWrenchNewtonEuler 1,
          Call.computeWrenchFromSensorNewtonEuler 1, Call.getWrenchNewtonEuler 2 ] :=
  have h := sensorSolveWrench_refines limbCollaborators plainSensorNode torsoSensorNode 0
    (by decide)
  ⟨by decide, h.2.2.2.1, by decide, by decide⟩


/-! ## The upper torso as constructed: lemmas -/

/-- The kinematics pass keeps the wrench flow and the sensor flag of an RBT read by it. -/
theorem getKinematic_flags [CommRing α] (ops : Collaborators α W)
    (rbt : RigidBodyTransformation α) (world : W) :
    (rbt.getKinematic ops world).1.wreFlow = rbt.wreFlow ∧
    (rbt.getKinematic ops world).1.hasSensor = rbt.hasSensor := by
  have h := computeKinematic_frame
    ({ rbt with
        w := (ops.getKinematicNewtonEuler world rbt.limb (rbt.w, rbt.dw, rbt.ddp)).1.1,
        dw := (ops.getKinematicNewtonEuler world rbt.limb (rbt.w, rbt.dw, rbt.ddp)).1.2.1,
        ddp := (ops.getKinematicNewtonEuler world rbt.limb (rbt.w, rbt.dw, rbt.ddp)).1.2.2 })
  exact ⟨h.2.2.2.1, h.2.2.2.2.2.2.2⟩

/-- The kinematics pass keeps the wrench flow and the sensor flag of an RBT written by it. -/
theorem setKinematic_flags [CommRing α] (ops : Collaborators α W)
    (rbt : RigidBodyTransformation α) (a b c : Yarp.Vector α) (world : W) :
    (rbt.setKinematic ops a b c world).2.1.wreFlow = rbt.wreFlow ∧
    (rbt.setKinematic ops a b c world).2.1.hasSensor = rbt.hasSensor := by
  have h := computeKinematic_frame ({ rbt with w := a, dw := b, ddp := c })
  exact ⟨h.2.2.2.1, h.2.2.2.2.2.2.2⟩

theorem solveKinematicsInputs_flags [CommRing α] (ops : Collaborators α W)
    (l : List (RigidBodyTransformation α))
    (k : Yarp.Vector α × Yarp.Vector α × Yarp.Vector α) (world : W) (n : Nat) :
    (solveKinematicsInputs ops l k world n).1.map (fun r => (r.wreFlow, r.hasSensor))
      = l.map (fun r => (r.wreFlow, r.hasSensor)) := by
  induction l generalizing k world n with
  | nil => rfl
  | cons rbt rest ih =>
    by_cases hf : rbt.kinFlow = FlowType.RBT_NODE_IN
    · simp only [solveKinematicsInputs, hf, if_true, List.map_cons, ih,
        (getKinematic_flags ops rbt _).1, (getKinematic_flags ops rbt _).2]
    · simp only [solveKinematicsInputs, hf, if_false, List.map_cons, ih]

theorem solveKinematicsOutputs_flags [CommRing α] (ops : Collaborators α W)
    (k : Yarp.Vector α × Yarp.Vector α × Yarp.Vector α)
    (l : List (RigidBodyTransformation α)) (world : W) :
    (solveKinematicsOutputs ops k l world).1.map (fun r => (r.wreFlow, r.hasSensor))
      = l.map (fun r => (r.wreFlow, r.hasSensor)) := by
  induction l generalizing world with
  | nil => rfl
  | cons rbt rest ih =>
    by_cases hf : rbt.kinFlow = FlowType.RBT_NODE_OUT
    · simp only [solveKinematicsOutputs, hf, if_true, List.map_cons, ih,
        (setKinematic_flags ops rbt _ _ _ _).1, (setKinematic_flags ops rbt _ _ _ _).2]
    · simp only [solveKinematicsOutputs, hf, if_false, List.map_cons, ih]

/-- The kinematics pass keeps the wrench flows and the sensor flags of the RBTs of a node. -/
theorem solveKinematics_flags [CommRing α] (ops : Collaborators α W) (self : iDynNode α)
    (world : W) :
    (self.solveKinematics ops world).2.1.rbtList.map (fun r => (r.wreFlow, r.hasSensor))
      = self.rbtList.map (fun r => (r.wreFlow, r.hasSensor)) := by
  unfold iDynNode.solveKinematics
  by_cases h : (solveKinematicsInputs ops self.rbtList (self.w, self.dw, self.ddp)
      world 0).2.2.2 = 1
  · simp only [h, if_true, solveKinematicsOutputs_flags, solveKinematicsInputs_flags]
  · simp only [h, if_false, solveKinematicsInputs_flags]

/-- Whether every sensorized wrench input finds its sensor depends on the wrench flows and the
sensor flags only. -/
theorem sensorsPresent_of_flags (l l2 : List (RigidBodyTransformation α))
    (sensors : List (Option Nat))
    (h : l2.map (fun r => (r.wreFlow, r.hasSensor)) = l.map (fun r => (r.wreFlow, r.hasSensor)))
    (hp : SensorsPresent l sensors) : SensorsPresent l2 sensors := by
  induction l generalizing l2 sensors with
  | nil =>
    have : l2 = [] := by simpa using h
    rw [this]
    trivial
  | cons rbt rest ih =>
    cases l2 with
    | nil => trivial
    | cons rbt2 rest2 =>
      simp only [List.map_cons, List.cons.injEq, Prod.mk.injEq] at h
      obtain ⟨⟨h1, h2⟩, h3⟩ := h
      obtain ⟨hhead, hrest⟩ := hp
      refine ⟨?_, ih rest2 sensors.tail h3 hrest⟩
      rw [h1, h2]
      exact hhead

/-- On an upper torso with the attachment of the constructor there are three RBTs, one
kinematic input, and both sensorized wrench inputs find their sensors. -/
theorem topology_facts (self : UpperTorso α) (htop : self.HasConstructorTopology) :
    self.rbtList.length = 3 ∧ self.toiDynNode.kinematicInputs = 1 ∧
    SensorsPresent self.rbtList self.sensorList := by
  obtain ⟨hmap, hsens⟩ := htop
  have hlen : self.rbtList.length = 3 := by
    have h := congrArg List.length hmap
    simpa using h
  obtain ⟨r0, r1, r2, hl⟩ := List.length_eq_three.mp hlen
  rw [hl] at hmap
  simp only [List.map_cons, List.map_nil, List.cons.injEq, Prod.mk.injEq, and_true] at hmap
  obtain ⟨⟨_, a0, a1, a2⟩, ⟨_, b0, b1, b2⟩, ⟨_, c0, c1, c2⟩⟩ := hmap
  refine ⟨hlen, ?_, ?_⟩
  · unfold iDynNode.kinematicInputs
    rw [hl]
    simp [List.countP_cons, a0, b0, c0]
  · rw [hl, hsens]
    simp [SensorsPresent, sensorAt, a2]

/-- On an upper torso with the attachment of the constructor, `update()` returns, and returns
true. -/
theorem update_true_of_topology [CommRing α] (ops : Collaborators α W) (self : UpperTorso α)
    (world : W) (htop : self.HasConstructorTopology) :
    (self.update ops world).map (fun r => r.1) = some true := by
  obtain ⟨hlen, hone, hpres⟩ := topology_facts self htop
  have hk := (solveKinematics_of_one ops self.toiDynNode world
    (by rw [hlen]; norm_num) hone).1
  have hpres2 : SensorsPresent (self.toiDynNode.solveKinematics ops world).2.1.rbtList
      self.sensorList :=
    sensorsPresent_of_flags _ _ _ (solveKinematics_flags ops self.toiDynNode world) hpres
  have hsome := sensorSolveWrench_isSome ops
    ({ self with toiDynNode := (self.toiDynNode.solveKinematics ops world).2.1 } :
      UpperTorso α).toiDynSensorNode
    (self.toiDynNode.solveKinematics ops world).2.2 hpres2
  obtain ⟨r, hr⟩ := Option.isSome_iff_exists.mp hsome
  have hflag := sensorSolveWrench_flag ops _ _ r hr
  unfold UpperTorso.update
  simp only [hk, if_true, hr, Option.map_some', hflag]


/-- The step of `iDynSensorNode::setWrenchMeasure(FM)` gives a result when the sensor is
there. -/
theorem sensorSetWrenchMeasureStep_isSome (ops : Collaborators α W)
    (rbt : RigidBodyTransformation α) (sensors : List (Option Nat)) (fi mi : Yarp.Vector α)
    (world : W) (h : rbt.hasSensor = true → (sensorAt sensors).isSome) :
    (sensorSetWrenchMeasureStep ops rbt sensors fi mi world).isSome = true := by
  unfold sensorSetWrenchMeasureStep
  by_cases hs : rbt.hasSensor = true
  · obtain ⟨sensor, hsensor⟩ := Option.isSome_iff_exists.mp (h hs)
    simp [hs, hsensor, RigidBodyTransformation.setWrenchMeasureSensor]
  · simp [hs]

theorem sensorSetWrenchMeasureColumns_isSome [Zero α] (ops : Collaborators α W)
    (FM : Yarp.Matrix α) (l : List (RigidBodyTransformation α)) (sensors : List (Option Nat))
    (n : Int) (world : W) (h : SensorsPresent l sensors) :
    (sensorSetWrenchMeasureColumns ops FM l sensors n world).isSome = true := by
  induction l generalizing sensors n world with
  | nil => rfl
  | cons rbt rest ih =>
    obtain ⟨hhead, hrest⟩ := h
    by_cases hf : rbt.wreFlow = FlowType.RBT_NODE_IN
    · obtain ⟨w1, hw1⟩ := Option.isSome_iff_exists.mp
        (sensorSetWrenchMeasureStep_isSome ops rbt sensors
          [Yarp.Vector.get (FM.getCol n.toNat) 0, Yarp.Vector.get (FM.getCol n.toNat) 1,
            Yarp.Vector.get (FM.getCol n.toNat) 2]
          [Yarp.Vector.get (FM.getCol n.toNat) 3, Yarp.Vector.get (FM.getCol n.toNat) 4,
            Yarp.Vector.get (FM.getCol n.toNat) 5] world (fun hs => hhead ⟨hf, hs⟩))
      simp only [sensorSetWrenchMeasureColumns, hf, if_true, hw1]
      exact ih _ _ _ hrest
    · simp only [sensorSetWrenchMeasureColumns, hf, if_false]
      exact ih _ _ _ hrest

theorem sensorSetWrenchMeasureDefaults_isSome (ops : Collaborators α W)
    (fi mi : Yarp.Vector α) (l : List (RigidBodyTransformation α))
    (sensors : List (Option Nat)) (world : W) (h : SensorsPresent l sensors) :
    (sensorSetWrenchMeasureDefaults ops fi mi l sensors world).isSome = true := by
  induction l generalizing sensors world with
  | nil => rfl
  | cons rbt rest ih =>
    obtain ⟨hhead, hrest⟩ := h
    by_cases hf : rbt.wreFlow = FlowType.RBT_NODE_IN
    · obtain ⟨w1, hw1⟩ := Option.isSome_iff_exists.mp
        (sensorSetWrenchMeasureStep_isSome ops rbt sensors fi mi world
          (fun hs => hhead ⟨hf, hs⟩))
      simp only [sensorSetWrenchMeasureDefaults, hf, if_true, hw1]
      exact ih _ _ hrest
    · simp only [sensorSetWrenchMeasureDefaults, hf, if_false]
      exact ih _ _ hrest

/-- When every sensorized wrench input finds its sensor, `iDynSensorNode::setWrenchMeasure(FM)`
returns. -/
theorem sensorSetWrenchMeasure_isSome [Zero α] (ops : Collaborators α W)
    (self : iDynSensorNode α) (FM : Yarp.Matrix α) (world : W)
    (h : SensorsPresent self.rbtList self.sensorList) :
    (self.setWrenchMeasure ops FM world).isSome = true := by
  obtain ⟨w1, hw1⟩ := Option.isSome_iff_exists.mp
    (sensorSetWrenchMeasureColumns_isSome ops FM self.rbtList self.sensorList 0 world h)
  obtain ⟨w2, hw2⟩ := Option.isSome_iff_exists.mp
    (sensorSetWrenchMeasureDefaults_isSome ops [0, 0, 0] [0, 0, 0] self.rbtList
      self.sensorList world h)
  have aux : ∀ (b : Bool) (x y : Bool × W),
      (if b = true then some x else some y).isSome = true := by
    intro b x y
    cases b <;> rfl
  unfold iDynSensorNode.setWrenchMeasure
  simp only [hw1, hw2, Option.map_some']
  exact aux _ _ _

/-- On an upper torso with the attachment of the constructor, `setSensorMeasurement` returns. -/
theorem setSensorMeasurement_isSome [Zero α] (ops : Collaborators α W) (self : UpperTorso α)
    (FM_right FM_left FM_head : Yarp.Vector α) (world : W)
    (htop : self.HasConstructorTopology) :
    (self.setSensorMeasurement ops FM_right FM_left FM_head world).isSome = true := by
  have hpres := (topology_facts self htop).2.2
  unfold UpperTorso.setSensorMeasurement
  simp only
  split
  · exact sensorSetWrenchMeasure_isSome ops self.toiDynSensorNode _ world hpres
  · obtain ⟨r, hr⟩ := Option.isSome_iff_exists.mp
      (sensorSetWrenchMeasure_isSome ops self.toiDynSensorNode (Yarp.Matrix.zeros 6 3) world
        hpres)
    rw [hr]; rfl

/-- The member function `setInertialMeasure` leaves the object as it was. -/
theorem setInertialMeasure_self (ops : Collaborators α W) (self : UpperTorso α)
    (w0 dw0 ddp0 : Yarp.Vector α) (world : W) :
    (self.setInertialMeasure ops w0 dw0 ddp0 world).2.1 = self := by
  unfold UpperTorso.setInertialMeasure iDynNode.setKinematicMeasure
  by_cases h : w0.length = 3 ∧ dw0.length = 3 ∧ ddp0.length = 3
  · simp only [h, and_self, if_true, setKinematicMeasureInputs_rbts]
  · simp only [h, if_false]

/-! ## The two forms of update on the upper torso as constructed -/

/-- C39: on an upper torso with the attachment of the constructor (head, right arm, left arm),
`update()` returns true in every state and for every behaviour of the limbs and sensors. The
six-argument `update` returns true if and only if `w0`, `dw0`, `ddp0` have length 3 and
`FM_right`, `FM_left`, `FM_head` have length 6; with such arguments it is `update()` run in the
world left by `setInertialMeasure` and `setSensorMeasurement`, otherwise it is `update()` run in
the world as it was, with false returned. -/
theorem update_on_constructor_topology [CommRing α] (ops : Collaborators α W)
    (self : UpperTorso α) (w0 dw0 ddp0 FM_right FM_left FM_head : Yarp.Vector α) (world : W)
    (htop : self.HasConstructorTopology) :
    (self.update ops world).map (fun r => r.1) = some true ∧
    (self.update6 ops w0 dw0 ddp0 FM_right FM_left FM_head world).map (fun r => r.1)
      = some (decide (FM_right.length = 6 ∧ FM_left.length = 6 ∧ FM_head.length = 6 ∧
          w0.length = 3 ∧ dw0.length = 3 ∧ ddp0.length = 3)) ∧
    self.update6 ops w0 dw0 ddp0 FM_right FM_left FM_head world
      = (if FM_right.length = 6 ∧ FM_left.length = 6 ∧ FM_head.length = 6 ∧ w0.length = 3 ∧
            dw0.length = 3 ∧ ddp0.length = 3 then
          (self.setSensorMeasurement ops FM_right FM_left FM_head
            (self.setInertialMeasure ops w0 dw0 ddp0 world).2.2).bind
              fun m => self.update ops m.2
        else (self.update ops world).map fun r => (false, r.2)) := by
  have hshape : self.update6 ops w0 dw0 ddp0 FM_right FM_left FM_head world
      = (if FM_right.length = 6 ∧ FM_left.length = 6 ∧ FM_head.length = 6 ∧ w0.length = 3 ∧
            dw0.length = 3 ∧ ddp0.length = 3 then
          (self.setSensorMeasurement ops FM_right FM_left FM_head
            (self.setInertialMeasure ops w0 dw0 ddp0 world).2.2).bind
              fun m => self.update ops m.2
        else (self.update ops world).map fun r => (false, r.2)) := by
    unfold UpperTorso.update6
    simp only [setInertialMeasure_self]
    split
    · cases self.setSensorMeasurement ops FM_right FM_left FM_head
          (self.setInertialMeasure ops w0 dw0 ddp0 world).2.2 <;> rfl
    · rfl
  refine ⟨update_true_of_topology ops self world htop, ?_, hshape⟩
  rw [hshape]
  by_cases h : FM_right.length = 6 ∧ FM_left.length = 6 ∧ FM_head.length = 6 ∧ w0.length = 3 ∧
      dw0.length = 3 ∧ ddp0.length = 3
  · obtain ⟨m, hm⟩ := Option.isSome_iff_exists.mp
      (setSensorMeasurement_isSome ops self FM_right FM_left FM_head
        (self.setInertialMeasure ops w0 dw0 ddp0 world).2.2 htop)
    simp only [h, and_self, if_true, hm, Option.some_bind, decide_True]
    exact update_true_of_topology ops self m.2 htop
  · simp only [h, if_false, decide_False]
    have ht := update_true_of_topology ops self world htop
    cases hu : self.update ops world with
    | none => rw [hu] at ht; simp at ht
    | some r => rfl


/-- C39 at concrete inputs: on the constructed torso `sampleTorso`, `update()` returns true even
when every limb refuses its kinematic initialisation; the six-argument `update` returns true
for vectors of lengths 3, 3, 3, 6, 6, 6 and false when `w0` has two elements, and in that case
makes the calls of `update()`. -/
theorem update_on_constructor_topology_witness :
    sampleTorso.HasConstructorTopology ∧
    (sampleTorso.update refusingCollaborators 0).map (fun r => r.1) = some true ∧
    (sampleTorso.update6 countingCollaborators [1, 1, 1] [2, 2, 2] [3, 3, 3]
        [1, 2, 3, 4, 5, 6] [11, 12, 13, 14, 15, 16] [21, 22, 23, 24, 25, 26] 0).map
        (fun r => r.1) = some true ∧
    (sampleTorso.update6 countingCollaborators [1, 1] [2, 2, 2] [3, 3, 3]
        [1, 2, 3, 4, 5, 6] [11, 12, 13, 14, 15, 16] [21, 22, 23, 24, 25, 26] 0).map
        (fun r => r.1) = some false ∧
    (sampleTorso.update6 (recording countingCollaborators) [1, 1] [2, 2, 2] [3, 3, 3]
        [1, 2, 3, 4, 5, 6] [11, 12, 13, 14, 15, 16] [21, 22, 23, 24, 25, 26] (0, [])).map
        (fun r => r.2.2.2)
      = (sampleTorso.update (recording countingCollaborators) (0, [])).map
          (fun r => r.2.2.2) :=
  ⟨by decide,
    (update_on_constructor_topology refusingCollaborators sampleTorso [1, 1, 1] [2, 2, 2]
      [3, 3, 3] [1, 2, 3, 4, 5, 6] [11, 12, 13, 14, 15, 16] [21, 22, 23, 24, 25, 26] 0
      (by decide)).1,
    (update_on_constructor_topology countingCollaborators sampleTorso [1, 1, 1] [2, 2, 2]
      [3, 3, 3] [1, 2, 3, 4, 5, 6] [11, 12, 13, 14, 15, 16] [21, 22, 23, 24, 25, 26] 0
      (by decide)).2.1,
    (update_on_constructor_topology countingCollaborators sampleTorso [1, 1] [2, 2, 2]
      [3, 3, 3] [1, 2, 3, 4, 5, 6] [11, 12, 13, 14, 15, 16] [21, 22, 23, 24, 25, 26] 0
      (by decide)).2.1,
    by decide⟩

/-! ## The two measurement forms of a sensorized node -/

/-- On accepted columns the loop of the two-matrix form is the loop of the one-matrix form on
the stacking. -/
theorem sensorSetWrenchMeasureColumns2_eq [Zero α] (ops : Collaborators α W)
    (Fm Mm : Yarp.Matrix α) (hFm : Fm.WellFormed) (hFr : Fm.rows = 3) (hMr : Mm.rows = 3)
    (l : List (RigidBodyTransformation α)) (sensors : List (Option Nat)) (n : Int)
    (world : W) :
    sensorSetWrenchMeasureColumns2 ops Fm Mm l sensors n world
      = sensorSetWrenchMeasureColumns ops (stack Fm Mm) l sensors n world := by
  induction l generalizing sensors n world with
  | nil => rfl
  | cons rbt rest ih =>
    by_cases hf : rbt.wreFlow = FlowType.RBT_NODE_IN
    · simp only [sensorSetWrenchMeasureColumns2, sensorSetWrenchMeasureColumns,
        sensorSetWrenchMeasureStep, hf, if_true,
        (stack_getCol_split Fm Mm n.toNat hFm hFr hMr).1,
        (stack_getCol_split Fm Mm n.toNat hFm hFr hMr).2, ih]
    · simp only [sensorSetWrenchMeasureColumns2, sensorSetWrenchMeasureColumns, hf, if_false,
        ih]

/-- For accepted matrices the two measurement forms of a sensorized node agree. -/
theorem sensorSetWrenchMeasure2_accepted [Zero α] (ops : Collaborators α W)
    (self : iDynSensorNode α) (Fm Mm : Yarp.Matrix α) (world : W)
    (hlen : self.rbtList.length < 2 ^ 31) (hFm : Fm.WellFormed) (hFr : Fm.rows = 3)
    (hMr : Mm.rows = 3) (hc : Fm.cols = Mm.cols)
    (hcols : self.toiDynNode.wrenchInputs ≤ Fm.cols) :
    self.setWrenchMeasure2 ops Fm Mm world = self.setWrenchMeasure ops (stack Fm Mm) world := by
  unfold iDynSensorNode.setWrenchMeasure2 iDynSensorNode.setWrenchMeasure
  have hrows : (stack Fm Mm).rows = 6 := by simp [stack, hFr, hMr]
  have hcols2 : (stack Fm Mm).cols = Fm.cols := rfl
  have hnot : ¬ ((Fm.cols : Int) < (self.toiDynNode.wrenchInputs : Int)) := by
    simp only [Nat.cast_lt]; omega
  simp only [countWrenchInputs_node self.toiDynNode hlen, hFr, hMr, hrows, hcols2, ← hc,
    or_self, ne_eq, not_true_eq_false, if_false, hnot, if_true,
    sensorSetWrenchMeasureColumns2_eq ops Fm Mm hFm hFr hMr]

/-- C34 at the failing input: the sensorized node `torsoSensorNode` has three wrench inputs, the
head without sensor and the two arms with the sensors 0 and 1, and is offered the 3x2 matrices
`threeByTwoF`, `threeByTwoM`, whose stacking is `sixByTwo`. Both forms return false; the
one-matrix form sets the zeros of the arms on their sensors through `setSensorMeasures`, the
two-matrix form sets them on the limbs of the arms through `initWrenchNewtonEuler`. -/
theorem sensorSetWrenchMeasure2_refused :
    torsoSensorNode.rbtList.map (fun r => (r.limb, r.wreFlow, r.hasSensor))
      = [(0, FlowType.RBT_NODE_IN, false), (1, FlowType.RBT_NODE_IN, true),
          (2, FlowType.RBT_NODE_IN, true)] ∧
    torsoSensorNode.sensorList = [none, some 0, some 1] ∧
    threeByTwoF.WellFormed ∧ threeByTwoM.WellFormed ∧
    stack threeByTwoF threeByTwoM = sixByTwo ∧
    (torsoSensorNode.setWrenchMeasure (recording countingCollaborators) sixByTwo (0, [])).map
        (fun r => (r.1, r.2.2))
      = some (false,
          [ Call.initWrenchNewtonEuler 0 [0, 0, 0] [0, 0, 0],
            Call.setSensorMeasures 0 [0, 0, 0] [0, 0, 0],
            Call.setSensorMeasures 1 [0, 0, 0] [0, 0, 0] ]) ∧
    (torsoSensorNode.setWrenchMeasure2 (recording countingCollaborators) threeByTwoF
        threeByTwoM (0, [])).map (fun r => (r.1, r.2.2))
      = some (false,
          [ Call.initWrenchNewtonEuler 0 [0, 0, 0] [0, 0, 0],
            Call.initWrenchNewtonEuler 1 [0, 0, 0] [0, 0, 0],
            Call.initWrenchNewtonEuler 2 [0, 0, 0] [0, 0, 0] ]) ∧
    (torsoSensorNode.setWrenchMeasure2 (recording countingCollaborators) threeByTwoF
        threeByTwoM (0, [])).map (fun r => r.2.2)
      ≠ (torsoSensorNode.setWrenchMeasure (recording countingCollaborators)
          (stack threeByTwoF threeByTwoM) (0, [])).map (fun r => r.2.2) := by
  decide


/-! ## The two passes of the upper torso: both outcomes of the kinematics pass -/

end iDyn
